import Mathlib

/-! Admission, completion, configuration and submission paths of the block
storage engine.

A shallow embedding of the operation admission code (`enqueue_op`) of both
engine variants (`blockstore_impl_t` in `src/blockstore_impl.cpp` and the older
`blockstore` in `src/blockstore.cpp`), of the completion handler
`blockstore::handle_event`, of `parse_config`, the `open_*` functions and
`calc_lengths` (`src/src/blockstore_open.cpp`), of the two `loop` functions and
of `is_safe_to_stop`, of the consumer registry of `ring_loop_t`
(`src/ringloop.cpp`) and of `continue_ops`, `slice_rw` and `affects_osd` of the
cluster client (`src/src/cluster_client.cpp`), followed by theorems about them.

Conventions of the embedding:
* `std::map` is a list of key/value pairs kept in key order;
* an iterator is a position in that list, `end()` being the length;
* 64-bit version arithmetic is written with an explicit `% 2^64`;
* an invocation of `op->callback(op)` is recorded by appending the operation
  (as it is at the moment of the call) to a trace kept in the engine state;
* undefined behaviour of the C++ code is a result of its own: `none` for
  `enqueue_op`, `completion.undefined` for `handle_event` and `loop`,
  `config_result.undefined` for `parse_config` and `calc_lengths`;
* functions that the code calls and that are not modelled are parameters
  (`impl_hooks`, `legacy_hooks`, `client_hooks`), and a pass over a queue
  records the positions it hands to the sync function and the positions it
  erases in a `submit_trace`;
* what the operating system answers to the `open_*` functions is a parameter
  (`open_env`), and so is the success of memory allocations.
-/

namespace Vitastor

/-! ## Identifiers and index entries -/

/-- An object identifier: `(inode, stripe)`. -/
structure object_id where
  inode : Nat
  stripe : Nat
deriving DecidableEq, Repr

/-- The key of the dirty index: `(oid, version)`. -/
structure obj_ver_id where
  oid : object_id
  version : Nat
deriving DecidableEq, Repr

/-- A dirty index entry, with the fields that `enqueue_op` fills in. -/
structure dirty_entry where
  state : Nat
  flags : Nat
  location : Nat
  offset : Nat
  size : Nat
deriving DecidableEq, Repr

/-- A clean index entry. -/
structure clean_entry where
  version : Nat
  location : Nat
deriving DecidableEq, Repr

/-- The largest 64-bit unsigned value. -/
def UINT64_MAX : Nat := 2 ^ 64 - 1

/-- The errno value for an invalid argument (Linux `errno.h`). -/
def EINVAL : Int := 22

/-- Modelled from the spec: the comparison of `object_id` lives in a header that
is not among the sources; the dirty index is "ordered by `(oid, version)`", so
object identifiers compare by inode, then stripe. -/
def object_id.lt (a b : object_id) : Prop :=
  a.inode < b.inode ∨ (a.inode = b.inode ∧ a.stripe < b.stripe)

instance (a b : object_id) : Decidable (a.lt b) := by
  unfold object_id.lt; infer_instance

/-- Modelled from the spec: the comparison of `obj_ver_id` lives in a header
that is not among the sources; the dirty index is an "ordered map
`(oid, version) → dirty entry`", "ordered by version ascending" within an oid. -/
def obj_ver_id.lt (a b : obj_ver_id) : Prop :=
  a.oid.lt b.oid ∨ (a.oid = b.oid ∧ a.version < b.version)

instance (a b : obj_ver_id) : Decidable (a.lt b) := by
  unfold obj_ver_id.lt; infer_instance

/-! ## The ordered map holding the dirty index -/

/-- The dirty index: a `std::map<obj_ver_id, dirty_entry>` as a key-ordered list. -/
abbrev dirty_map := List (obj_ver_id × dirty_entry)

/-- The clean index, keyed by object identifier. -/
abbrev clean_map := List (object_id × clean_entry)

/-- The position `std::map::upper_bound` returns: the first entry whose key is
greater than `k`, or `end()` (the length) when there is none. -/
def upper_bound : dirty_map → obj_ver_id → Nat
  | [], _ => 0
  | e :: t, k => if k.lt e.1 then 0 else upper_bound t k + 1

/-- The lookup `std::map::find`: the entry with key `k`, if present. -/
def dirty_find (m : dirty_map) (k : obj_ver_id) : Option dirty_entry :=
  (m.find? (fun e => decide (e.1 = k))).map Prod.snd

/-- The insertion `std::map::emplace`: inserts at the key's place in the order,
and leaves the map alone when the key is already present. -/
def emplace : dirty_map → obj_ver_id → dirty_entry → dirty_map
  | [], k, v => [(k, v)]
  | e :: t, k, v =>
    if k.lt e.1 then (k, v) :: e :: t
    else if k = e.1 then e :: t
    else e :: emplace t k v

/-- The lookup in the clean index. -/
def clean_find (m : clean_map) (oid : object_id) : Option clean_entry :=
  (m.find? (fun e => decide (e.1 = oid))).map Prod.snd

/-- The dirty versions of an object, in the order of the dirty index. -/
def dirty_versions (m : dirty_map) (oid : object_id) : List Nat :=
  (m.filter (fun e => decide (e.1.oid = oid))).map (fun e => e.1.version)

/-- The clean version of an object, 0 when it has no clean entry. -/
def clean_version (m : clean_map) (oid : object_id) : Nat :=
  match clean_find m oid with
  | some e => e.version
  | none => 0

/-- What a `std::map` keyed by `(oid, version)` with 64-bit versions always
satisfies: the keys are in strictly increasing order and every version fits in
64 bits. -/
def dirty_map_wf (m : dirty_map) : Prop :=
  m.Pairwise (fun a b => a.1.lt b.1) ∧ ∀ e ∈ m, e.1.version ≤ UINT64_MAX

instance (m : dirty_map) : Decidable (dirty_map_wf m) := by
  unfold dirty_map_wf; infer_instance

/-! ## `blockstore_impl_t::enqueue_op` (src/blockstore_impl.cpp) -/

/-- The constants that `blockstore_impl.cpp` takes from its headers, which are
not among the sources. -/
structure impl_consts where
  BS_OP_READ : Nat
  BS_OP_WRITE : Nat
  BS_OP_SYNC : Nat
  BS_OP_STABLE : Nat
  BS_OP_DELETE : Nat
  BS_OP_TYPE_MASK : Nat
  DISK_ALIGNMENT : Nat
  ST_IN_FLIGHT : Nat

/-- What the code relies on about the header: the opcodes are distinct and lie
in `BS_OP_READ..BS_OP_DELETE` (the range test of `enqueue_op`), and the
alignment is not zero (it is a divisor). -/
def impl_consts.valid (c : impl_consts) : Prop :=
  c.BS_OP_READ < c.BS_OP_WRITE ∧ c.BS_OP_READ < c.BS_OP_SYNC ∧ c.BS_OP_READ < c.BS_OP_STABLE ∧
  c.BS_OP_WRITE < c.BS_OP_DELETE ∧ c.BS_OP_SYNC < c.BS_OP_DELETE ∧
  c.BS_OP_STABLE < c.BS_OP_DELETE ∧
  c.BS_OP_WRITE ≠ c.BS_OP_SYNC ∧ c.BS_OP_WRITE ≠ c.BS_OP_STABLE ∧ c.BS_OP_SYNC ≠ c.BS_OP_STABLE ∧
  0 < c.DISK_ALIGNMENT

instance (c : impl_consts) : Decidable c.valid := by
  unfold impl_consts.valid; infer_instance

/-- The engine's private part of an operation (`PRIV(op)`). -/
structure blockstore_op_private_t where
  wait_for : Nat
  wait_detail : Nat
  sync_state : Nat
  pending_ops : Int
deriving DecidableEq, Repr

/-- An operation as the caller hands it to `blockstore_impl_t`. -/
structure blockstore_op_t where
  opcode : Nat
  oid : object_id
  version : Nat
  offset : Nat
  len : Nat
  retval : Int
  private_data : blockstore_op_private_t
deriving DecidableEq, Repr

/-- The part of the `blockstore_impl_t` state that admission, the submission
loop and `is_safe_to_stop` read or write. `callbacks` is the trace of callback
invocations, `wakeups` counts the calls of `ringloop->wakeup()`. The two reader
flags say whether the corresponding initialisation reader exists;
`flusher_active` is `flusher->is_active()`, `free_count` is
`data_alloc->get_free_count()`, `ring_space` is `ringloop->space_left()`,
`ring_sqe_pos` is what `ringloop->save()` returns, and `sector_usage` is
`journal.sector_info[i].usage_count`. -/
structure blockstore_impl_t where
  block_size : Nat
  readonly : Bool
  submit_queue : List blockstore_op_t
  dirty_db : dirty_map
  clean_db : clean_map
  callbacks : List blockstore_op_t
  wakeups : Nat
  initialized : Nat := 0
  metadata_init_reader : Bool := false
  journal_init_reader : Bool := false
  in_progress_syncs : List blockstore_op_t := []
  flusher_active : Bool := false
  free_count : Nat := 0
  ring_space : Nat := 0
  ring_sqe_pos : Nat := 0
  journal_used_start : Nat := 0
  journal_cur_sector : Nat := 0
  journal_sector_count : Nat := 0
  sector_usage : List Nat := []
  unsynced_big_writes : List obj_ver_id := []
  unsynced_small_writes : List obj_ver_id := []
  stop_sync_submitted : Bool := false
deriving DecidableEq, Repr

namespace blockstore_impl_t

/-- Modelled from the spec: `blockstore_impl_t::enqueue_write` is called by
`enqueue_op` but defined in a file that is not among the sources. The spec, on
enqueue: "Compute the new version: `max(latest dirty, clean) + 1`. Insert a
dirty entry in state `IN_FLIGHT` so concurrent reads see it." -/
def enqueue_write (c : impl_consts) (s : blockstore_impl_t) (op : blockstore_op_t) :
    blockstore_impl_t × blockstore_op_t :=
  let version := (max ((dirty_versions s.dirty_db op.oid).foldl max 0)
    (clean_version s.clean_db op.oid) + 1) % 2 ^ 64
  let op1 := { op with version := version }
  let entry : dirty_entry :=
    { state := c.ST_IN_FLIGHT, flags := 0, location := 0, offset := op.offset, size := op.len }
  ({ s with dirty_db := emplace s.dirty_db ⟨op.oid, version⟩ entry }, op1)

/-- The operation type: `op->opcode & BS_OP_TYPE_MASK`. -/
def op_type (c : impl_consts) (op : blockstore_op_t) : Nat :=
  op.opcode &&& c.BS_OP_TYPE_MASK

/-- The admission test of `enqueue_op` ("Basic verification not passed"). The
subtraction is only evaluated when `offset < block_size`. -/
def verification_failed (c : impl_consts) (s : blockstore_impl_t) (op : blockstore_op_t) : Prop :=
  op_type c op < c.BS_OP_READ ∨ op_type c op > c.BS_OP_DELETE ∨
  ((op_type c op = c.BS_OP_READ ∨ op_type c op = c.BS_OP_WRITE) ∧
    (op.offset ≥ s.block_size ∨ op.len > s.block_size - op.offset ∨
      op.len % c.DISK_ALIGNMENT ≠ 0)) ∨
  (s.readonly = true ∧ op_type c op ≠ c.BS_OP_READ)

instance (c : impl_consts) (s : blockstore_impl_t) (op : blockstore_op_t) :
    Decidable (verification_failed c s op) := by
  unfold verification_failed; infer_instance

/-- The function `blockstore_impl_t::enqueue_op`. The queue holds a pointer to
the operation, so the element pushed is the operation as the call leaves it. The
constructor run on the private area defines no value for `wait_detail`; the
model keeps what was there. -/
def enqueue_op (c : impl_consts) (s : blockstore_impl_t) (op : blockstore_op_t) :
    blockstore_impl_t × blockstore_op_t :=
  if verification_failed c s op then
    let op1 := { op with retval := -EINVAL }
    ({ s with callbacks := s.callbacks ++ [op1] }, op1)
  else
    let op1 := { op with private_data :=
      { op.private_data with wait_for := 0, sync_state := 0, pending_ops := 0 } }
    let r := if op_type c op1 = c.BS_OP_WRITE then enqueue_write c s op1 else (s, op1)
    ({ r.1 with submit_queue := r.1.submit_queue ++ [r.2], wakeups := r.1.wakeups + 1 }, r.2)

/-- The geometry part of the admission test for reads and writes. -/
def bad_range (c : impl_consts) (s : blockstore_impl_t) (op : blockstore_op_t) : Prop :=
  op.offset ≥ s.block_size ∨ op.len > s.block_size - op.offset ∨ op.len % c.DISK_ALIGNMENT ≠ 0

instance (c : impl_consts) (s : blockstore_impl_t) (op : blockstore_op_t) :
    Decidable (bad_range c s op) := by
  unfold bad_range; infer_instance

/-- The observable outcome "rejected": the callback ran once more, with
`retval = -EINVAL`, and the operation did not enter the queue. -/
def rejected (c : impl_consts) (s : blockstore_impl_t) (op : blockstore_op_t) : Prop :=
  (enqueue_op c s op).1.callbacks = s.callbacks ++ [{ op with retval := -EINVAL }] ∧
  (enqueue_op c s op).2.retval = -EINVAL ∧
  (enqueue_op c s op).1.submit_queue = s.submit_queue

/-- The header values used for the concrete examples. -/
def sample_consts : impl_consts :=
  { BS_OP_READ := 1, BS_OP_WRITE := 2, BS_OP_SYNC := 3, BS_OP_STABLE := 4, BS_OP_DELETE := 5,
    BS_OP_TYPE_MASK := 7, DISK_ALIGNMENT := 512, ST_IN_FLIGHT := 1 }

/-- An empty writable engine with 128 KiB blocks. -/
def sample_engine : blockstore_impl_t :=
  { block_size := 131072, readonly := false, submit_queue := [], dirty_db := [], clean_db := [],
    callbacks := [], wakeups := 0 }

/-- An operation with the given opcode, offset and length on object `(1, 0)`. -/
def sample_op (opcode offset len : Nat) : blockstore_op_t :=
  { opcode := opcode, oid := ⟨1, 0⟩, version := 0, offset := offset, len := len, retval := 0,
    private_data := { wait_for := 3, wait_detail := 0, sync_state := 0, pending_ops := 0 } }

end blockstore_impl_t

/-! ## The older engine `blockstore` (src/blockstore.cpp) -/

/-- The constants that `blockstore.cpp` takes from its header, which is not
among the sources. -/
structure legacy_consts where
  OP_READ : Nat
  OP_READ_DIRTY : Nat
  OP_WRITE : Nat
  OP_SYNC : Nat
  OP_STABLE : Nat
  OP_DELETE : Nat
  OP_TYPE_MASK : Nat
  DISK_ALIGNMENT : Nat
  ST_IN_FLIGHT : Nat
  ST_J_SUBMITTED : Nat
  ST_J_WRITTEN : Nat
  ST_DEL_SUBMITTED : Nat
  ST_DEL_WRITTEN : Nat
  ST_D_WRITTEN : Nat

/-- What the code relies on about the header: the opcodes are distinct and lie
in `OP_READ..OP_DELETE` (the range test of `enqueue_op`), the two submitted
states that `handle_event` tells apart differ, and the alignment is not zero. -/
def legacy_consts.valid (c : legacy_consts) : Prop :=
  c.OP_READ < c.OP_READ_DIRTY ∧ c.OP_READ < c.OP_WRITE ∧ c.OP_READ < c.OP_SYNC ∧
  c.OP_READ < c.OP_STABLE ∧
  c.OP_READ_DIRTY < c.OP_DELETE ∧ c.OP_WRITE < c.OP_DELETE ∧ c.OP_SYNC < c.OP_DELETE ∧
  c.OP_STABLE < c.OP_DELETE ∧
  c.OP_READ_DIRTY ≠ c.OP_WRITE ∧ c.OP_READ_DIRTY ≠ c.OP_SYNC ∧ c.OP_READ_DIRTY ≠ c.OP_STABLE ∧
  c.OP_WRITE ≠ c.OP_SYNC ∧ c.OP_WRITE ≠ c.OP_STABLE ∧ c.OP_SYNC ≠ c.OP_STABLE ∧
  c.ST_J_SUBMITTED ≠ c.ST_DEL_SUBMITTED ∧
  0 < c.DISK_ALIGNMENT

instance (c : legacy_consts) : Decidable c.valid := by
  unfold legacy_consts.valid; infer_instance

/-- An operation of the older engine. `addr` stands for the address of the
operation, which is what `in_process_ops` holds. -/
structure blockstore_operation where
  addr : Nat
  flags : Nat
  oid : object_id
  version : Nat
  offset : Nat
  len : Nat
  retval : Int
  wait_for : Nat
  wait_detail : Nat
  pending_ops : Int
  used_journal_sector : Nat
deriving DecidableEq, Repr

/-- The part of the `blockstore` state that admission, completion and the
submission loop read or write. `sector_usage` is
`journal.sector_info[i].usage_count`; `callbacks` is the trace of callback
invocations; the two reader flags say whether the corresponding initialisation
reader exists; `ring_space` is `io_uring_sq_space_left(ringloop->ring)`. -/
structure blockstore where
  initialized : Nat
  metadata_init_reader : Bool
  journal_init_reader : Bool
  block_size : Nat
  submit_queue : List blockstore_operation
  dirty_db : dirty_map
  object_db : clean_map
  unsynced_writes : List obj_ver_id
  in_process_ops : List Nat
  sector_usage : List Nat
  callbacks : List blockstore_operation
  ring_space : Nat := 0
  journal_used_start : Nat := 0
  journal_cur_sector : Nat := 0
  journal_sector_count : Nat := 0
deriving DecidableEq, Repr

/-- How a call ended: it returned, a C++ exception left it (the state is the one
at the throw), or its behaviour is undefined. -/
inductive completion (α : Type) where
  | returned : α → completion α
  | thrown : α → completion α
  | undefined : completion α
deriving DecidableEq, Repr

/-- The handlers of the two initialisation readers, which are defined in files
that are not among the sources. -/
structure init_readers where
  metadata_event : blockstore → Int → blockstore
  journal_event : blockstore → Int → blockstore

namespace blockstore

/-- The operation type: `op->flags & OP_TYPE_MASK`. -/
def op_type (c : legacy_consts) (op : blockstore_operation) : Nat :=
  op.flags &&& c.OP_TYPE_MASK

/-- The admission test of `blockstore::enqueue_op` ("Basic verification not
passed"). The subtraction is only evaluated when `offset < block_size`. -/
def verification_failed (c : legacy_consts) (s : blockstore) (op : blockstore_operation) : Prop :=
  op.offset ≥ s.block_size ∨ op.len ≥ s.block_size - op.offset ∨
  op.len % c.DISK_ALIGNMENT ≠ 0 ∨
  op_type c op < c.OP_READ ∨ op_type c op > c.OP_DELETE

instance (c : legacy_consts) (s : blockstore) (op : blockstore_operation) :
    Decidable (verification_failed c s op) := by
  unfold verification_failed; infer_instance

/-- The version taken from the clean index when the dirty index has no entry of
the object: the clean version plus one, or 1. -/
def version_after_clean (s : blockstore) (oid : object_id) : Nat :=
  match clean_find s.object_db oid with
  | some e => (e.version + 1) % 2 ^ 64
  | none => 1

/-- The version assignment of `enqueue_op`, given the position `it` that
`dirty_it--` arrived at. -/
def assign_version (s : blockstore) (oid : object_id) (it : Nat) : Nat :=
  match s.dirty_db[it]? with
  | some e => if e.1.oid = oid then (e.1.version + 1) % 2 ^ 64 else version_after_clean s oid
  | none => version_after_clean s oid

/-- The function `blockstore::enqueue_op`; the result carries the returned int.
The queue holds a pointer to the operation, so the element pushed is the
operation as the call leaves it. Decrementing the iterator `begin()` is
undefined behaviour. -/
def enqueue_op (c : legacy_consts) (s : blockstore) (op : blockstore_operation) :
    Option (Int × blockstore × blockstore_operation) :=
  if verification_failed c s op then
    some (-EINVAL, s, op)
  else
    let op1 := { op with wait_for := 0 }
    if op_type c op1 = c.OP_WRITE then
      let it := upper_bound s.dirty_db ⟨op1.oid, UINT64_MAX⟩
      if it = 0 then
        none
      else
        let op2 := { op1 with version := assign_version s op1.oid (it - 1) }
        let entry : dirty_entry :=
          { state := c.ST_IN_FLIGHT, flags := 0, location := 0, offset := op2.offset,
            size := op2.len }
        some (0, { s with submit_queue := s.submit_queue ++ [op2],
                          dirty_db := emplace s.dirty_db ⟨op2.oid, op2.version⟩ entry }, op2)
    else
      some (0, { s with submit_queue := s.submit_queue ++ [op1] }, op1)

/-- The version an admitted write gets: the assignment at the position before
`upper_bound (oid, UINT64_MAX)`. -/
def new_version (s : blockstore) (op : blockstore_operation) : Nat :=
  assign_version s op.oid (upper_bound s.dirty_db ⟨op.oid, UINT64_MAX⟩ - 1)

/-- The dirty entry an admitted write inserts. -/
def new_entry (c : legacy_consts) (op : blockstore_operation) : dirty_entry :=
  { state := c.ST_IN_FLIGHT, flags := 0, location := 0, offset := op.offset, size := op.len }

/-- The release of the journal sector buffer in `handle_event`: `none` when the
sector index is outside `journal.sector_info`. -/
def release_sector (s : blockstore) (op : blockstore_operation) :
    Option (blockstore × blockstore_operation) :=
  if op.used_journal_sector > 0 then
    match s.sector_usage[op.used_journal_sector - 1]? with
    | none => none
    | some u =>
      let s1 := if u > 0 then
          { s with sector_usage := s.sector_usage.set (op.used_journal_sector - 1) (u - 1) }
        else s
      some (s1, { op with used_journal_sector := 0 })
  else
    some (s, op)

/-- The state a dirty entry gets when its write is acknowledged. -/
def written_state (c : legacy_consts) (st : Nat) : Nat :=
  if st = c.ST_J_SUBMITTED then c.ST_J_WRITTEN
  else if st = c.ST_DEL_SUBMITTED then c.ST_DEL_WRITTEN
  else c.ST_D_WRITTEN

/-- The assignment `dirty_it->second.state = ...` through the iterator that
`find` returned. -/
def set_state (m : dirty_map) (k : obj_ver_id) (st : Nat) : dirty_map :=
  m.map (fun e => if e.1 = k then (e.1, { e.2 with state := st }) else e)

/-- The function `blockstore::handle_event` for the completion `res` of a
submission of `op`. -/
def handle_event (c : legacy_consts) (r : init_readers) (s : blockstore)
    (op : blockstore_operation) (res : Int) : completion (blockstore × blockstore_operation) :=
  if s.initialized ≠ 10 then
    if s.metadata_init_reader then .returned (r.metadata_event s res, op)
    else if s.journal_init_reader then .returned (r.journal_event s res, op)
    else .returned (s, op)
  else if op_type c op = c.OP_READ_DIRTY ∨ op_type c op = c.OP_READ then
    let op1 := { op with pending_ops := op.pending_ops - 1 }
    let op2 := if res < 0 then { op1 with retval := res } else op1
    if op2.pending_ops = 0 then
      let op3 := if op2.retval = 0 then { op2 with retval := (op2.len : Int) } else op2
      .returned ({ s with callbacks := s.callbacks ++ [op3],
                          in_process_ops := s.in_process_ops.filter (fun a => a ≠ op3.addr) }, op3)
    else
      .returned (s, op2)
  else if op_type c op = c.OP_WRITE ∨ op_type c op = c.OP_DELETE then
    let op1 := { op with pending_ops := op.pending_ops - 1 }
    if res < 0 then
      .thrown (s, op1)
    else
      match release_sector s op1 with
      | none => .undefined
      | some (s1, op2) =>
        if op2.pending_ops = 0 then
          match dirty_find s1.dirty_db ⟨op2.oid, op2.version⟩ with
          | none => .undefined
          | some e =>
            let op3 := { op2 with retval := (op2.len : Int) }
            .returned ({ s1 with
                dirty_db := set_state s1.dirty_db ⟨op2.oid, op2.version⟩ (written_state c e.state),
                callbacks := s1.callbacks ++ [op3],
                in_process_ops := s1.in_process_ops.filter (fun a => a ≠ op3.addr),
                unsynced_writes := s1.unsynced_writes ++ [⟨op3.oid, op3.version⟩] }, op3)
        else
          .returned (s1, op2)
  else
    .returned (s, op)

/-- The header values used for the concrete examples. -/
def sample_consts : legacy_consts :=
  { OP_READ := 1, OP_READ_DIRTY := 2, OP_WRITE := 3, OP_SYNC := 4, OP_STABLE := 5,
    OP_DELETE := 6, OP_TYPE_MASK := 7, DISK_ALIGNMENT := 512,
    ST_IN_FLIGHT := 1, ST_J_SUBMITTED := 2, ST_J_WRITTEN := 3, ST_DEL_SUBMITTED := 6,
    ST_DEL_WRITTEN := 7, ST_D_WRITTEN := 5 }

/-- Readers that leave the state alone, for the concrete examples. -/
def sample_readers : init_readers :=
  { metadata_event := fun s _ => s, journal_event := fun s _ => s }

/-- A started engine with 128 KiB blocks and the given indexes. -/
def sample_engine (dirty : dirty_map) (clean : clean_map) : blockstore :=
  { initialized := 10, metadata_init_reader := false, journal_init_reader := false,
    block_size := 131072, submit_queue := [], dirty_db := dirty, object_db := clean,
    unsynced_writes := [], in_process_ops := [], sector_usage := [0, 0], callbacks := [] }

/-- An operation with the given flags, offset and length on object `(1, 0)`. -/
def sample_op (flags offset len : Nat) : blockstore_operation :=
  { addr := 4096, flags := flags, oid := ⟨1, 0⟩, version := 0, offset := offset, len := len,
    retval := 0, wait_for := 0, wait_detail := 0, pending_ops := 0, used_journal_sector := 0 }

end blockstore

/-! ## Sequences of calls, and the version invariant -/

namespace blockstore

/-- The invariant on versions: for every object, the dirty versions are strictly
increasing and all greater than the clean version (0 when there is no clean
entry). -/
def version_invariant (s : blockstore) : Prop :=
  ∀ oid : object_id,
    (dirty_versions s.dirty_db oid).Pairwise (fun a b => a < b) ∧
    ∀ v ∈ dirty_versions s.dirty_db oid, clean_version s.object_db oid < v

/-- The same invariant, stated over the entries of the dirty index (a finite
check). -/
def version_invariant_entries (s : blockstore) : Prop :=
  (∀ e ∈ s.dirty_db, (dirty_versions s.dirty_db e.1.oid).Pairwise (fun a b => a < b)) ∧
  ∀ e ∈ s.dirty_db, clean_version s.object_db e.1.oid < e.1.version

instance (s : blockstore) : Decidable (version_invariant_entries s) := by
  unfold version_invariant_entries; infer_instance

/-- Every version held in the dirty and the clean index is at most `b`. -/
def versions_at_most (s : blockstore) (b : Nat) : Prop :=
  (∀ e ∈ s.dirty_db, e.1.version ≤ b) ∧ ∀ e ∈ s.object_db, e.2.version ≤ b

instance (s : blockstore) (b : Nat) : Decidable (versions_at_most s b) := by
  unfold versions_at_most; infer_instance

/-- A sequence of `enqueue_op` calls; the result lists, per call, the returned
int and the operation as the call left it. -/
def enqueue_ops (c : legacy_consts) :
    blockstore → List blockstore_operation → Option (blockstore × List (Int × blockstore_operation))
  | s, [] => some (s, [])
  | s, op :: rest =>
    match enqueue_op c s op with
    | none => none
    | some (ret, s1, op1) =>
      match enqueue_ops c s1 rest with
      | none => none
      | some (s2, out) => some (s2, (ret, op1) :: out)

/-- The keys `(oid, version)` given to the admitted writes of a sequence of calls. -/
def admitted_writes (c : legacy_consts) (out : List (Int × blockstore_operation)) :
    List obj_ver_id :=
  (out.filter (fun r => decide (r.1 = 0 ∧ op_type c r.2 = c.OP_WRITE))).map
    (fun r => (⟨r.2.oid, r.2.version⟩ : obj_ver_id))

/-- The delivery of a sequence of completion results to one operation, one
`handle_event` call per result; it stops at the first call that does not return. -/
def deliver (c : legacy_consts) (r : init_readers) :
    blockstore → blockstore_operation → List Int → completion (blockstore × blockstore_operation)
  | s, op, [] => .returned (s, op)
  | s, op, res :: rest =>
    match handle_event c r s op res with
    | .returned (s1, op1) => deliver c r s1 op1 rest
    | .thrown x => .thrown x
    | .undefined => .undefined

/-- The last negative result of a sequence, if any. -/
def last_negative (rs : List Int) : Option Int :=
  (rs.filter (fun x => decide (x < 0))).getLast?

/-- The first negative result of a sequence, if any. -/
def first_negative (rs : List Int) : Option Int :=
  rs.find? (fun x => decide (x < 0))

end blockstore

/-! ## Configuration and layout (src/src/blockstore_open.cpp) -/

/-- The constants that `blockstore_open.cpp` takes from its headers, which are
not among the sources; `clean_disk_entry_size` is `sizeof(clean_disk_entry)`. -/
structure open_consts where
  DEFAULT_ORDER : Nat
  MIN_BLOCK_SIZE : Nat
  MAX_BLOCK_SIZE : Nat
  MEM_ALIGNMENT : Nat
  DEFAULT_BITMAP_GRANULARITY : Nat
  MIN_JOURNAL_SIZE : Nat
  IMMEDIATE_NONE : Nat
  IMMEDIATE_SMALL : Nat
  IMMEDIATE_ALL : Nat
  clean_disk_entry_size : Nat

/-- What the code relies on about the header: `1 << DEFAULT_ORDER` is a defined
`int` shift, the divisors are not zero, and the three commit modes differ. -/
def open_consts.valid (c : open_consts) : Prop :=
  c.DEFAULT_ORDER < 31 ∧ 0 < c.MEM_ALIGNMENT ∧ 0 < c.DEFAULT_BITMAP_GRANULARITY ∧
  0 < c.clean_disk_entry_size ∧
  c.IMMEDIATE_NONE ≠ c.IMMEDIATE_SMALL ∧ c.IMMEDIATE_NONE ≠ c.IMMEDIATE_ALL ∧
  c.IMMEDIATE_SMALL ≠ c.IMMEDIATE_ALL

instance (c : open_consts) : Decidable c.valid := by
  unfold open_consts.valid; infer_instance

/-- A configuration: the value of every option that `parse_config` looks up
(the empty string when the option is absent) and, for the numeric options, the
number that `strtoull` returns for it. -/
structure blockstore_config_t where
  readonly : String := ""
  disable_data_fsync : String := ""
  disable_meta_fsync : String := ""
  disable_journal_fsync : String := ""
  disable_device_lock : String := ""
  flush_journal : String := ""
  immediate_commit : String := ""
  meta_buf_size : Nat := 0
  journal_size : Nat := 0
  data_device : String := ""
  data_offset : Nat := 0
  data_size : Nat := 0
  meta_device : String := ""
  meta_offset : Nat := 0
  block_size : Nat := 0
  inmemory_metadata : String := ""
  journal_device : String := ""
  journal_offset : Nat := 0
  journal_sector_buffer_count : Nat := 0
  journal_no_same_sector_overwrites : String := ""
  inmemory_journal : String := ""
  disk_alignment : Nat := 0
  journal_block_size : Nat := 0
  meta_block_size : Nat := 0
  bitmap_granularity : Nat := 0
  max_flusher_count : Nat := 0
  flusher_count : Nat := 0
  min_flusher_count : Nat := 0
  max_write_iodepth : Nat := 0
  throttle_small_writes : String := ""
  throttle_target_iops : Nat := 0
  throttle_target_mbs : Nat := 0
  throttle_target_parallelism : Nat := 0
  throttle_threshold_us : Nat := 0
deriving DecidableEq, Repr

/-- The members of `journal` that `parse_config` and `calc_lengths` read or write. -/
structure journal_t where
  fd : Int := -1
  device_size : Nat := 0
  offset : Nat := 0
  len : Nat := 0
  sector_count : Nat := 0
  no_same_sector_overwrites : Bool := false
  inmemory : Bool := false
  flush_journal : Bool := false
  block_size : Nat := 0
  next_free : Nat := 0
  used_start : Nat := 0
  in_sector_pos : Nat := 0
deriving DecidableEq, Repr

/-- The members of `blockstore_impl_t` that `parse_config`, the `open_*`
functions and `calc_lengths` read or write. -/
structure impl_layout where
  readonly : Bool := false
  disable_data_fsync : Bool := false
  disable_meta_fsync : Bool := false
  disable_journal_fsync : Bool := false
  disable_flock : Bool := false
  immediate_commit : Nat := 0
  metadata_buf_size : Nat := 0
  cfg_journal_size : Nat := 0
  cfg_data_size : Nat := 0
  data_device : String := ""
  meta_device : String := ""
  journal_device : String := ""
  data_offset : Nat := 0
  meta_offset : Nat := 0
  block_size : Nat := 0
  block_order : Nat := 0
  inmemory_meta : Bool := false
  disk_alignment : Nat := 0
  journal_block_size : Nat := 0
  meta_block_size : Nat := 0
  bitmap_granularity : Nat := 0
  max_flusher_count : Nat := 0
  min_flusher_count : Nat := 0
  max_write_iodepth : Nat := 0
  throttle_small_writes : Bool := false
  throttle_target_iops : Nat := 0
  throttle_target_mbs : Nat := 0
  throttle_target_parallelism : Nat := 0
  throttle_threshold_us : Nat := 0
  clean_entry_bitmap_size : Nat := 0
  clean_entry_size : Nat := 0
  journal : journal_t := {}
  data_fd : Int := -1
  meta_fd : Int := -1
  data_size : Nat := 0
  meta_size : Nat := 0
  data_len : Nat := 0
  meta_area : Nat := 0
  meta_len : Nat := 0
  block_count : Nat := 0
  metadata_buffer : Bool := false
  clean_bitmap : Bool := false
  data_device_sect : Nat := 0
  meta_device_sect : Nat := 0
  journal_device_sect : Nat := 0
deriving DecidableEq, Repr

/-- How `parse_config` or `calc_lengths` ended: it returned, it threw a
`std::runtime_error` with the given message, or its behaviour is undefined
(a division by zero). -/
inductive config_result (α : Type) where
  | ok : α → config_result α
  | error : String → config_result α
  | undefined : config_result α
deriving DecidableEq, Repr

/-- Sequencing of two steps, the second of which runs only when the first returned. -/
def config_result.andThen {α β : Type} (r : config_result α) (f : α → config_result β) :
    config_result β :=
  match r with
  | .ok a => f a
  | .error m => .error m
  | .undefined => .undefined

/-- The returned value of a call, if it returned. -/
def config_result.toOption {α : Type} : config_result α → Option α
  | .ok a => some a
  | .error _ => none
  | .undefined => none

/-- The loop of `is_power_of_two`, with the number of iterations left; a 64-bit
value needs at most 64. -/
def is_power_of_two_loop : Nat → Nat → Nat → Nat
  | 0, _, l => l
  | fuel + 1, value, l =>
    if value > 1 then
      if value &&& 1 ≠ 0 then 64
      else is_power_of_two_loop fuel (value >>> 1) (l + 1)
    else l

/-- The function `is_power_of_two`: the binary logarithm of a power of two, 64
for a value that is not one. -/
def is_power_of_two (value : Nat) : Nat :=
  is_power_of_two_loop 64 value 0

/-- The test `v == "true" || v == "1" || v == "yes"` on an option value. -/
def config_flag (v : String) : Bool :=
  v == "true" || v == "1" || v == "yes"

namespace blockstore_impl_t

/-- The part "Parse" of `parse_config` (lines 25 to 86): what is only copied
from the configuration. A flag or mode that the configuration does not set keeps
the value it had. -/
def parse_options (c : open_consts) (s : impl_layout) (cfg : blockstore_config_t) :
    impl_layout :=
  { s with
    readonly := if config_flag cfg.readonly then true else s.readonly
    disable_data_fsync := if config_flag cfg.disable_data_fsync then true else s.disable_data_fsync
    disable_meta_fsync := if config_flag cfg.disable_meta_fsync then true else s.disable_meta_fsync
    disable_journal_fsync :=
      if config_flag cfg.disable_journal_fsync then true else s.disable_journal_fsync
    disable_flock := if config_flag cfg.disable_device_lock then true else s.disable_flock
    immediate_commit :=
      if cfg.immediate_commit = "all" then c.IMMEDIATE_ALL
      else if cfg.immediate_commit = "small" then c.IMMEDIATE_SMALL
      else s.immediate_commit
    metadata_buf_size := cfg.meta_buf_size
    cfg_journal_size := cfg.journal_size
    data_device := cfg.data_device
    data_offset := cfg.data_offset
    cfg_data_size := cfg.data_size
    meta_device := cfg.meta_device
    meta_offset := cfg.meta_offset
    block_size := cfg.block_size
    inmemory_meta := cfg.inmemory_metadata ≠ "false"
    journal_device := cfg.journal_device
    journal := { s.journal with
      flush_journal := if config_flag cfg.flush_journal then true else s.journal.flush_journal
      offset := cfg.journal_offset
      sector_count := cfg.journal_sector_buffer_count
      no_same_sector_overwrites := config_flag cfg.journal_no_same_sector_overwrites
      inmemory := cfg.inmemory_journal ≠ "false" }
    disk_alignment := cfg.disk_alignment
    journal_block_size := cfg.journal_block_size
    meta_block_size := cfg.meta_block_size
    bitmap_granularity := cfg.bitmap_granularity
    max_flusher_count :=
      if cfg.max_flusher_count = 0 then cfg.flusher_count else cfg.max_flusher_count
    min_flusher_count := cfg.min_flusher_count
    max_write_iodepth := cfg.max_write_iodepth
    throttle_small_writes := config_flag cfg.throttle_small_writes
    throttle_target_iops := cfg.throttle_target_iops
    throttle_target_mbs := cfg.throttle_target_mbs
    throttle_target_parallelism := cfg.throttle_target_parallelism
    throttle_threshold_us := cfg.throttle_threshold_us }

/-- Lines 88 to 95 of `parse_config`: the default and the validation of the
block size. -/
def validate_block_size (c : open_consts) (s : impl_layout) : config_result impl_layout :=
  let block_size := if s.block_size = 0 then 2 ^ c.DEFAULT_ORDER else s.block_size
  if is_power_of_two block_size ≥ 64 ∨ block_size < c.MIN_BLOCK_SIZE ∨
      block_size ≥ c.MAX_BLOCK_SIZE then
    .error "Bad block size"
  else .ok { s with block_size := block_size, block_order := is_power_of_two block_size }

/-- Lines 96 to 107 of `parse_config`: the defaults of the flusher counts and of
the write queue depth. -/
def default_flusher_counts (s : impl_layout) : impl_layout :=
  { s with
    max_flusher_count := if s.max_flusher_count = 0 then 256 else s.max_flusher_count
    min_flusher_count :=
      if s.min_flusher_count = 0 ∨ s.journal.flush_journal = true then 1
      else s.min_flusher_count
    max_write_iodepth := if s.max_write_iodepth = 0 then 128 else s.max_write_iodepth }

/-- Lines 108 to 131 of `parse_config`: the defaults and the validation of the
three alignments. -/
def validate_alignments (c : open_consts) (s : impl_layout) : config_result impl_layout :=
  if s.disk_alignment ≠ 0 ∧ s.disk_alignment % c.MEM_ALIGNMENT ≠ 0 then
    .error ("disk_alignment must be a multiple of " ++ toString c.MEM_ALIGNMENT)
  else if s.journal_block_size ≠ 0 ∧ s.journal_block_size % c.MEM_ALIGNMENT ≠ 0 then
    .error ("journal_block_size must be a multiple of " ++ toString c.MEM_ALIGNMENT)
  else if s.meta_block_size ≠ 0 ∧ s.meta_block_size % c.MEM_ALIGNMENT ≠ 0 then
    .error ("meta_block_size must be a multiple of " ++ toString c.MEM_ALIGNMENT)
  else
    .ok { s with
      disk_alignment := if s.disk_alignment = 0 then 4096 else s.disk_alignment
      journal_block_size := if s.journal_block_size = 0 then 4096 else s.journal_block_size
      meta_block_size := if s.meta_block_size = 0 then 4096 else s.meta_block_size }

/-- Lines 132 to 147 of `parse_config`: the data offset and the granularity of
the sparse write bitmap. A granularity that is configured is tested against the
disk alignment; the default granularity is not. -/
def validate_granularity (c : open_consts) (s : impl_layout) : config_result impl_layout :=
  let bitmap_granularity :=
    if s.bitmap_granularity = 0 then c.DEFAULT_BITMAP_GRANULARITY else s.bitmap_granularity
  if s.data_offset % s.disk_alignment ≠ 0 then
    .error ("data_offset must be a multiple of disk_alignment = " ++ toString s.disk_alignment)
  else if s.bitmap_granularity ≠ 0 ∧ s.bitmap_granularity % s.disk_alignment ≠ 0 then
    .error ("Sparse write tracking granularity must be a multiple of disk_alignment = " ++
      toString s.disk_alignment)
  else if s.block_size % bitmap_granularity ≠ 0 then
    .error "Block size must be a multiple of sparse write tracking granularity"
  else .ok { s with bitmap_granularity := bitmap_granularity }

/-- Lines 148 to 155 of `parse_config`: a journal or metadata device that is the
same as the device before it is replaced by the empty name. -/
def normalize_devices (s : impl_layout) : impl_layout :=
  { s with
    journal_device :=
      if s.journal_device = s.meta_device ∨
          (s.meta_device = "" ∧ s.journal_device = s.data_device) then ""
      else s.journal_device
    meta_device := if s.meta_device = s.data_device then "" else s.meta_device }

/-- Lines 156 to 163 of `parse_config`: the alignment of the metadata and
journal offsets. -/
def validate_offsets (s : impl_layout) : config_result impl_layout :=
  if s.meta_offset % s.meta_block_size ≠ 0 then
    .error ("meta_offset must be a multiple of meta_block_size = " ++ toString s.meta_block_size)
  else if s.journal.offset % s.journal_block_size ≠ 0 then
    .error ("journal_offset must be a multiple of journal_block_size = " ++
      toString s.journal_block_size)
  else .ok s

/-- Lines 164 to 179 of `parse_config`: the defaults of the sector buffer count
and of the metadata buffer size, and the fsync flags of devices that are shared:
metadata on the data device takes `disable_data_fsync`, then a journal on the
metadata device takes the resulting `disable_meta_fsync`. -/
def inherit_fsync (s : impl_layout) : impl_layout :=
  let disable_meta_fsync :=
    if s.meta_device = "" then s.disable_data_fsync else s.disable_meta_fsync
  { s with
    journal := { s.journal with
      sector_count := if s.journal.sector_count < 2 then 32 else s.journal.sector_count }
    metadata_buf_size :=
      if s.metadata_buf_size < 65536 then 4 * 1024 * 1024 else s.metadata_buf_size
    disable_meta_fsync := disable_meta_fsync
    disable_journal_fsync :=
      if s.journal_device = "" then disable_meta_fsync else s.disable_journal_fsync }

/-- Lines 180 to 187 of `parse_config`: what the immediate commit modes require. -/
def validate_immediate_commit (c : open_consts) (s : impl_layout) : config_result impl_layout :=
  if s.immediate_commit ≠ c.IMMEDIATE_NONE ∧ s.disable_journal_fsync = false then
    .error "immediate_commit requires disable_journal_fsync"
  else if s.immediate_commit = c.IMMEDIATE_ALL ∧ s.disable_data_fsync = false then
    .error "immediate_commit=all requires disable_journal_fsync and disable_data_fsync"
  else .ok s

/-- Lines 188 to 211 of `parse_config`: the throttling defaults and the derived
fields. -/
def init_fields (c : open_consts) (s : impl_layout) : impl_layout :=
  { s with
    throttle_target_iops := if s.throttle_target_iops = 0 then 100 else s.throttle_target_iops
    throttle_target_mbs := if s.throttle_target_mbs = 0 then 100 else s.throttle_target_mbs
    throttle_target_parallelism :=
      if s.throttle_target_parallelism = 0 then 1 else s.throttle_target_parallelism
    throttle_threshold_us := if s.throttle_threshold_us = 0 then 50 else s.throttle_threshold_us
    clean_entry_bitmap_size := s.block_size / s.bitmap_granularity / 8
    clean_entry_size := c.clean_disk_entry_size + 2 * (s.block_size / s.bitmap_granularity / 8)
    journal := { s.journal with
      block_size := s.journal_block_size
      next_free := s.journal_block_size
      used_start := s.journal_block_size
      in_sector_pos := s.journal_block_size } }

/-- The function `blockstore_impl_t::parse_config`, on the members `s` as the
constructor left them. -/
def parse_config (c : open_consts) (s : impl_layout) (cfg : blockstore_config_t) :
    config_result impl_layout :=
  config_result.andThen (validate_block_size c (parse_options c s cfg)) fun s1 =>
  config_result.andThen (validate_alignments c (default_flusher_counts s1)) fun s2 =>
  config_result.andThen (validate_granularity c s2) fun s3 =>
  config_result.andThen (validate_offsets (normalize_devices s3)) fun s4 =>
  config_result.andThen (validate_immediate_commit c (inherit_fsync s4)) fun s5 =>
  .ok (init_fields c s5)

end blockstore_impl_t

/-- Two byte ranges `[a, a + al)` and `[b, b + bl)` have no byte in common. -/
def regions_disjoint (a al b bl : Nat) : Prop :=
  ∀ x, ¬ (a ≤ x ∧ x < a + al ∧ b ≤ x ∧ x < b + bl)

/-- The smallest number of groups of `n` that hold `m` items: `m / n` rounded up. -/
def ceil_div (m n : Nat) : Nat :=
  (m + n - 1) / n

/-- The 64-bit unsigned subtraction `a - b` of two 64-bit values. -/
def u64_sub (a b : Nat) : Nat :=
  (a + 2 ^ 64 - b) % 2 ^ 64

/-- Whether the memory allocations of `calc_lengths` succeed, by requested size. -/
structure alloc_oracle where
  memalign_ok : Nat → Bool
  malloc_ok : Nat → Bool

namespace blockstore_impl_t

/-- Lines 217 to 226 of `calc_lengths`: the length of the data area that the
offsets leave. -/
def derived_data_len (s : impl_layout) : Nat :=
  let l0 := u64_sub s.data_size s.data_offset
  let l1 := if s.data_fd = s.meta_fd ∧ s.data_offset < s.meta_offset then
      u64_sub s.meta_offset s.data_offset else l0
  if s.data_fd = s.journal.fd ∧ s.data_offset < s.journal.offset then
    (if l1 < u64_sub s.journal.offset s.data_offset then l1
     else u64_sub s.journal.offset s.data_offset)
  else l1

/-- Lines 237 to 246 of `calc_lengths`: the area available to the metadata. -/
def derived_meta_area (s : impl_layout) : Nat :=
  let a0 := u64_sub (if s.meta_fd = s.data_fd then s.data_size else s.meta_size) s.meta_offset
  let a1 := if s.meta_fd = s.data_fd ∧ s.meta_offset ≤ s.data_offset then
      u64_sub s.data_offset s.meta_offset else a0
  if s.meta_fd = s.journal.fd ∧ s.meta_offset ≤ s.journal.offset then
    (if a1 < u64_sub s.journal.offset s.meta_offset then a1
     else u64_sub s.journal.offset s.meta_offset)
  else a1

/-- Lines 248 to 257 of `calc_lengths`: the length of the journal that the
offsets leave. -/
def derived_journal_len (s : impl_layout) : Nat :=
  let l0 := u64_sub
    (if s.journal.fd = s.data_fd then s.data_size
     else if s.journal.fd = s.meta_fd then s.meta_size else s.journal.device_size)
    s.journal.offset
  let l1 := if s.journal.fd = s.data_fd ∧ s.journal.offset ≤ s.data_offset then
      u64_sub s.data_offset s.journal.offset else l0
  if s.journal.fd = s.meta_fd ∧ s.journal.offset ≤ s.meta_offset then
    (if l1 < u64_sub s.meta_offset s.journal.offset then l1
     else u64_sub s.meta_offset s.journal.offset)
  else l1

/-- Line 260 of `calc_lengths`, in 64-bit arithmetic:
`(1 + (block_count - 1 + n) / n) * meta_block_size` with
`n = meta_block_size / clean_entry_size`. -/
def required_meta_len (block_count meta_block_size clean_entry_size : Nat) : Nat :=
  ((1 + ((u64_sub block_count 1 + meta_block_size / clean_entry_size) % 2 ^ 64) /
      (meta_block_size / clean_entry_size)) % 2 ^ 64 * meta_block_size) % 2 ^ 64

/-- Lines 265 to 276 of `calc_lengths`: the buffers for the metadata. -/
def allocate_metadata (env : alloc_oracle) (s : impl_layout) : config_result impl_layout :=
  if s.inmemory_meta = true then
    if env.memalign_ok s.meta_len then .ok { s with metadata_buffer := true }
    else .error "Failed to allocate memory for the metadata"
  else if s.clean_entry_bitmap_size ≠ 0 then
    if env.malloc_ok ((s.block_count * (2 * s.clean_entry_bitmap_size)) % 2 ^ 64) then
      .ok { s with clean_bitmap := true }
    else .error "Failed to allocate memory for the metadata sparse write bitmap"
  else .ok s

/-- Lines 277 to 295 of `calc_lengths`: the requested journal size and the
journal buffer. -/
def size_journal (c : open_consts) (env : alloc_oracle) (s : impl_layout) :
    config_result impl_layout :=
  if s.cfg_journal_size > s.journal.len then
    .error "Requested journal_size is too large"
  else
    let s1 := if s.cfg_journal_size > 0 then
        { s with journal := { s.journal with len := s.cfg_journal_size } } else s
    if s1.journal.len < c.MIN_JOURNAL_SIZE then
      .error ("Journal is too small, need at least " ++ toString c.MIN_JOURNAL_SIZE ++ " bytes")
    else if s1.journal.inmemory = true ∧ env.memalign_ok s1.journal.len = false then
      .error "Failed to allocate memory for journal"
    else .ok s1

/-- Lines 217 to 235 of `calc_lengths`: `data_len` is the configured size when
there is one, and the derived length otherwise. -/
def set_data_len (s : impl_layout) : impl_layout :=
  { s with data_len := if s.cfg_data_size ≠ 0 then s.cfg_data_size else derived_data_len s }

/-- Lines 237 to 246 of `calc_lengths`: the assignment of `meta_area`. -/
def set_meta_area (s : impl_layout) : impl_layout :=
  { s with meta_area := derived_meta_area s }

/-- Lines 248 to 257 of `calc_lengths`: the assignment of `journal.len`. -/
def set_journal_len (s : impl_layout) : impl_layout :=
  { s with journal := { s.journal with len := derived_journal_len s } }

/-- Lines 259 and 260 of `calc_lengths`: the number of blocks and the required
metadata size. -/
def set_required_meta (s : impl_layout) : impl_layout :=
  { s with
    block_count := s.data_len / s.block_size
    meta_len :=
      required_meta_len (s.data_len / s.block_size) s.meta_block_size s.clean_entry_size }

/-- Lines 216 to 264 of `calc_lengths`: the three derived lengths, the number of
blocks and the required metadata size. Dividing by zero is undefined; the
divisors are members that the lines before the divisions do not assign. -/
def size_areas (s : impl_layout) : config_result impl_layout :=
  if s.cfg_data_size ≠ 0 ∧ derived_data_len s < s.cfg_data_size then
    .error ("Data area (" ++ toString (derived_data_len s) ++
      " bytes) is less than configured size (" ++ toString s.cfg_data_size ++ " bytes)")
  else if s.block_size = 0 ∨ s.clean_entry_size = 0 ∨
      s.meta_block_size / s.clean_entry_size = 0 then
    .undefined
  else if (set_required_meta (set_journal_len (set_meta_area (set_data_len s)))).meta_area <
      (set_required_meta (set_journal_len (set_meta_area (set_data_len s)))).meta_len then
    .error ("Metadata area is too small, need at least " ++
      toString (set_required_meta (set_journal_len (set_meta_area (set_data_len s)))).meta_len ++
      " bytes")
  else .ok (set_required_meta (set_journal_len (set_meta_area (set_data_len s))))

/-- The function `blockstore_impl_t::calc_lengths`. -/
def calc_lengths (c : open_consts) (env : alloc_oracle) (s : impl_layout) :
    config_result impl_layout :=
  config_result.andThen (size_areas s) fun s1 =>
  config_result.andThen (allocate_metadata env s1) fun s2 =>
  size_journal c env s2

/-- Every 64-bit member that `calc_lengths` reads holds a 64-bit value. -/
def layout_fits_u64 (s : impl_layout) : Prop :=
  s.data_size < 2 ^ 64 ∧ s.meta_size < 2 ^ 64 ∧ s.journal.device_size < 2 ^ 64 ∧
  s.data_offset < 2 ^ 64 ∧ s.meta_offset < 2 ^ 64 ∧ s.journal.offset < 2 ^ 64 ∧
  s.cfg_data_size < 2 ^ 64 ∧ s.cfg_journal_size < 2 ^ 64 ∧
  s.block_size < 2 ^ 64 ∧ s.meta_block_size < 2 ^ 64 ∧ s.clean_entry_size < 2 ^ 64

instance (s : impl_layout) : Decidable (layout_fits_u64 s) := by
  unfold layout_fits_u64; infer_instance

/-- The header values used for the concrete examples. -/
def sample_open_consts : open_consts :=
  { DEFAULT_ORDER := 17, MIN_BLOCK_SIZE := 4096, MAX_BLOCK_SIZE := 134217728,
    MEM_ALIGNMENT := 512, DEFAULT_BITMAP_GRANULARITY := 4096, MIN_JOURNAL_SIZE := 4194304,
    IMMEDIATE_NONE := 0, IMMEDIATE_SMALL := 1, IMMEDIATE_ALL := 2, clean_disk_entry_size := 24 }

/-- An environment in which every allocation succeeds. -/
def sample_alloc : alloc_oracle :=
  { memalign_ok := fun _ => true, malloc_ok := fun _ => true }

end blockstore_impl_t

namespace blockstore_impl_t

/-- The block size that `parse_config` validates: the configured value, or the
default `1 << DEFAULT_ORDER` when the configured value is 0. -/
def effective_block_size (c : open_consts) (cfg : blockstore_config_t) : Nat :=
  if cfg.block_size = 0 then 2 ^ c.DEFAULT_ORDER else cfg.block_size

end blockstore_impl_t

namespace blockstore_impl_t

/-- A layout with the data, the metadata and the journal on one 1 GiB device:
metadata at 0, journal at 16 MiB, data at 32 MiB, 128 KiB blocks. -/
def sample_layout : impl_layout :=
  { block_size := 131072, meta_block_size := 4096, clean_entry_size := 24,
    data_fd := 3, meta_fd := 3, journal := { fd := 3, offset := 16777216 },
    data_size := 1073741824, meta_offset := 0, data_offset := 33554432 }

/-- A layout on three devices whose metadata block size is 2^63. -/
def sample_layout_wide : impl_layout :=
  { block_size := 131072, meta_block_size := 2 ^ 63, clean_entry_size := 24,
    data_fd := 3, meta_fd := 4, journal := { fd := 5, device_size := 16777216 },
    data_size := 131072, meta_size := 4096 }

end blockstore_impl_t

/-! ## The submission loops -/

/-- The wait reasons and the macro `IS_IN_FLIGHT`, which come from headers that
are not among the sources. -/
structure wait_consts where
  WAIT_SQE : Nat
  WAIT_IN_FLIGHT : Nat
  WAIT_JOURNAL : Nat
  WAIT_JOURNAL_BUFFER : Nat
  WAIT_FREE : Nat
  IS_IN_FLIGHT : Nat → Bool

/-- What the code relies on about the header: the wait reasons are distinct and
none of them is 0, which stands for "not waiting". -/
def wait_consts.valid (w : wait_consts) : Prop :=
  [0, w.WAIT_SQE, w.WAIT_IN_FLIGHT, w.WAIT_JOURNAL, w.WAIT_JOURNAL_BUFFER, w.WAIT_FREE].Nodup

instance (w : wait_consts) : Decidable w.valid := by
  unfold wait_consts.valid; infer_instance

/-- The wait reasons used for the concrete examples. -/
def sample_wait_consts : wait_consts :=
  { WAIT_SQE := 1, WAIT_IN_FLIGHT := 2, WAIT_JOURNAL := 3, WAIT_JOURNAL_BUFFER := 4,
    WAIT_FREE := 5, IS_IN_FLIGHT := fun st => decide (st = 1) }

/-- What a pass over `submit_queue` did, by position in the queue as it was at
the start of the pass: the operations handed to `dequeue_sync`, and the
operations erased from the queue. -/
structure submit_trace where
  handed_sync : List Nat := []
  erased : List Nat := []
deriving DecidableEq, Repr

/-- The functions that `blockstore_impl_t::loop` calls and that are defined in
files that are not among the sources. Each gets the engine state and returns the
state it leaves; the `dequeue_*` functions and the reader loops also return
their `int`. -/
structure impl_hooks where
  metadata_loop : blockstore_impl_t → Int × blockstore_impl_t
  journal_loop : blockstore_impl_t → Int × blockstore_impl_t
  continue_sync : blockstore_impl_t → blockstore_op_t → blockstore_impl_t
  dequeue_read : blockstore_impl_t → blockstore_op_t → Int × blockstore_impl_t × blockstore_op_t
  dequeue_write : blockstore_impl_t → blockstore_op_t → Int × blockstore_impl_t × blockstore_op_t
  dequeue_sync : blockstore_impl_t → blockstore_op_t → Int × blockstore_impl_t × blockstore_op_t
  dequeue_stable : blockstore_impl_t → blockstore_op_t → Int × blockstore_impl_t × blockstore_op_t
  ring_restore : blockstore_impl_t → Nat → blockstore_impl_t
  flusher_loop : blockstore_impl_t → blockstore_impl_t
  ring_submit : blockstore_impl_t → Int × blockstore_impl_t

/-- The functions of other files leave `initialized` as it is. -/
def impl_hooks.keep_initialized (h : impl_hooks) : Prop :=
  (∀ s, (h.metadata_loop s).2.initialized = s.initialized) ∧
  (∀ s, (h.journal_loop s).2.initialized = s.initialized) ∧
  (∀ s op, (h.continue_sync s op).initialized = s.initialized) ∧
  (∀ s op, (h.dequeue_read s op).2.1.initialized = s.initialized) ∧
  (∀ s op, (h.dequeue_write s op).2.1.initialized = s.initialized) ∧
  (∀ s op, (h.dequeue_sync s op).2.1.initialized = s.initialized) ∧
  (∀ s op, (h.dequeue_stable s op).2.1.initialized = s.initialized) ∧
  (∀ s n, (h.ring_restore s n).initialized = s.initialized) ∧
  (∀ s, (h.flusher_loop s).initialized = s.initialized) ∧
  (∀ s, (h.ring_submit s).2.initialized = s.initialized)

/-- The initialisation readers leave `submit_queue` as it is. -/
def impl_hooks.readers_keep_queue (h : impl_hooks) : Prop :=
  (∀ s, (h.metadata_loop s).2.submit_queue = s.submit_queue) ∧
  (∀ s, (h.journal_loop s).2.submit_queue = s.submit_queue)

/-- How one iteration of the loop over `submit_queue` ended: with `break` (the
operation stays in the queue), by going on to the next operation (the operation
stays, or is erased when `none`; the number is the new `has_writes`), with an
exception, or with undefined behaviour. -/
inductive step_result (σ ω : Type) where
  | stop : σ → ω → submit_trace → step_result σ ω
  | next : σ → Option ω → Nat → submit_trace → step_result σ ω
  | thrown : σ → ω → submit_trace → step_result σ ω
  | undefined : step_result σ ω

namespace blockstore_impl_t

/-- The function `blockstore_impl_t::is_started`. -/
def is_started (s : blockstore_impl_t) : Bool :=
  decide (s.initialized = 10)

/-- The assignment `PRIV(op)->wait_for = 0`. -/
def clear_wait (op : blockstore_op_t) : blockstore_op_t :=
  { op with private_data := { op.private_data with wait_for := 0 } }

/-- The function `blockstore_impl_t::check_wait`: the operation as the call
leaves it; it throws on an unknown wait reason, and reading the usage count of
a sector outside `journal.sector_info` is undefined. -/
def check_wait (w : wait_consts) (s : blockstore_impl_t) (op : blockstore_op_t) :
    completion blockstore_op_t :=
  if op.private_data.wait_for = w.WAIT_SQE then
    if s.ring_space < op.private_data.wait_detail then .returned op
    else .returned (clear_wait op)
  else if op.private_data.wait_for = w.WAIT_IN_FLIGHT then
    match dirty_find s.dirty_db ⟨op.oid, op.private_data.wait_detail⟩ with
    | some e => if w.IS_IN_FLIGHT e.state = true then .returned op else .returned (clear_wait op)
    | none => .returned (clear_wait op)
  else if op.private_data.wait_for = w.WAIT_JOURNAL then
    if s.journal_used_start = op.private_data.wait_detail then .returned op
    else .returned (clear_wait op)
  else if op.private_data.wait_for = w.WAIT_JOURNAL_BUFFER then
    if s.journal_sector_count = 0 then .undefined
    else
      match s.sector_usage[(s.journal_cur_sector + 1) % s.journal_sector_count]? with
      | none => .undefined
      | some u => if u > 0 then .returned op else .returned (clear_wait op)
  else if op.private_data.wait_for = w.WAIT_FREE then
    if s.free_count = 0 ∧ s.flusher_active = false then .returned op
    else .returned (clear_wait op)
  else .thrown op

/-- Lines 169 to 182 of `loop`: what follows the `dequeue_*` call of an
iteration. `r` is the returned `int` with the state and the operation the call
left, `ring_space` and `prev_sqe_pos` are the values saved before the call. -/
def after_dequeue (w : wait_consts) (h : impl_hooks) (i ring_space prev_sqe_pos : Nat)
    (r : Int × blockstore_impl_t × blockstore_op_t) (has_writes : Nat) (tr : submit_trace) :
    step_result blockstore_impl_t blockstore_op_t :=
  if r.1 ≠ 0 then
    .next r.2.1 none has_writes { tr with erased := tr.erased ++ [i] }
  else if r.2.2.private_data.wait_for = w.WAIT_SQE then
    .stop (h.ring_restore r.2.1 prev_sqe_pos)
      { r.2.2 with private_data :=
        { r.2.2.private_data with wait_detail := (1 + ring_space) % 2 ^ 32 } } tr
  else
    .next (h.ring_restore r.2.1 prev_sqe_pos) (some r.2.2) has_writes tr

/-- Lines 134 to 168 of `loop`: the dispatch of an operation that does not wait,
by its type. During the call of a `dequeue_*` function the queue holds the
operations kept so far, this operation and the operations not yet visited. -/
def dispatch (c : impl_consts) (w : wait_consts) (h : impl_hooks)
    (kept rest : List blockstore_op_t) (i has_writes : Nat) (s : blockstore_impl_t)
    (tr : submit_trace) (op : blockstore_op_t) : step_result blockstore_impl_t blockstore_op_t :=
  let sq := { s with submit_queue := kept ++ op :: rest }
  if op_type c op = c.BS_OP_READ then
    after_dequeue w h i s.ring_space s.ring_sqe_pos (h.dequeue_read sq op) has_writes tr
  else if op_type c op = c.BS_OP_WRITE ∨ op_type c op = c.BS_OP_DELETE then
    if has_writes = 2 then .stop s op tr
    else
      after_dequeue w h i s.ring_space s.ring_sqe_pos (h.dequeue_write sq op)
        (if (h.dequeue_write sq op).1 ≠ 0 then 1 else 2) tr
  else if op_type c op = c.BS_OP_SYNC then
    if has_writes ≠ 0 then .next s (some op) has_writes tr
    else
      after_dequeue w h i s.ring_space s.ring_sqe_pos (h.dequeue_sync sq op) has_writes
        { tr with handed_sync := tr.handed_sync ++ [i] }
  else if op_type c op = c.BS_OP_STABLE then
    after_dequeue w h i s.ring_space s.ring_sqe_pos (h.dequeue_stable sq op) has_writes tr
  else
    after_dequeue w h i s.ring_space s.ring_sqe_pos (0, sq, op) has_writes tr

/-- Lines 112 to 182 of `loop`: one iteration of the loop over `submit_queue`,
for the operation `op` at position `i`. -/
def submit_step (c : impl_consts) (w : wait_consts) (h : impl_hooks)
    (kept rest : List blockstore_op_t) (i has_writes : Nat) (s : blockstore_impl_t)
    (tr : submit_trace) (op : blockstore_op_t) : step_result blockstore_impl_t blockstore_op_t :=
  if op.private_data.wait_for ≠ 0 then
    match check_wait w s op with
    | .undefined => .undefined
    | .thrown op1 => .thrown s op1 tr
    | .returned op1 =>
      if op1.private_data.wait_for = w.WAIT_SQE then .stop s op1 tr
      else if op1.private_data.wait_for ≠ 0 then
        .next s (some op1)
          (if op_type c op1 = c.BS_OP_WRITE ∨ op_type c op1 = c.BS_OP_DELETE then 2
           else has_writes) tr
      else dispatch c w h kept rest i has_writes s tr op1
  else dispatch c w h kept rest i has_writes s tr op

/-- Lines 108 to 183 of `loop`: the loop over `submit_queue`. `rest` holds the
operations not yet visited, `i` the position of the first of them, `kept` the
visited operations that stay in the queue. The functions of other files do not
get at the queue: when the pass ends, the queue is `kept` followed by what was
not visited. -/
def submit_ops (c : impl_consts) (w : wait_consts) (h : impl_hooks) :
    List blockstore_op_t → Nat → List blockstore_op_t → Nat → blockstore_impl_t → submit_trace →
      completion (blockstore_impl_t × submit_trace)
  | [], _, kept, _, s, tr => .returned ({ s with submit_queue := kept }, tr)
  | op :: rest, i, kept, has_writes, s, tr =>
    match submit_step c w h kept rest i has_writes s tr op with
    | .stop s1 op1 tr1 => .returned ({ s1 with submit_queue := kept ++ op1 :: rest }, tr1)
    | .next s1 keep hw tr1 => submit_ops c w h rest (i + 1) (kept ++ keep.toList) hw s1 tr1
    | .thrown s1 op1 tr1 => .thrown ({ s1 with submit_queue := kept ++ op1 :: rest }, tr1)
    | .undefined => .undefined

/-- Lines 73 to 77 of `loop`: the metadata reader is made. -/
def init_stage0 (s : blockstore_impl_t) : blockstore_impl_t :=
  if s.initialized = 0 then { s with metadata_init_reader := true, initialized := 1 } else s

/-- Lines 78 to 88 of `loop`: the metadata reader runs; when its `loop` returns 0
the journal reader takes its place. -/
def init_stage1 (h : impl_hooks) (s : blockstore_impl_t) : blockstore_impl_t :=
  if s.initialized = 1 then
    if (h.metadata_loop s).1 = 0 then
      { (h.metadata_loop s).2 with
        metadata_init_reader := false, journal_init_reader := true, initialized := 2 }
    else (h.metadata_loop s).2
  else s

/-- Lines 89 to 98 of `loop`: the journal reader runs; when its `loop` returns 0
the engine is started. -/
def init_stage2 (h : impl_hooks) (s : blockstore_impl_t) : blockstore_impl_t :=
  if s.initialized = 2 then
    if (h.journal_loop s).1 = 0 then
      { (h.journal_loop s).2 with journal_init_reader := false, initialized := 10 }
    else (h.journal_loop s).2
  else s

/-- Lines 184 to 192 of `loop`: the flusher and the submission to the ring. -/
def finish_loop (h : impl_hooks) (s : blockstore_impl_t) : completion blockstore_impl_t :=
  let s1 := if s.readonly = false then h.flusher_loop s else s
  if (h.ring_submit s1).1 < 0 then .thrown (h.ring_submit s1).2
  else .returned (h.ring_submit s1).2

/-- The function `blockstore_impl_t::loop`, with the trace of its pass over
`submit_queue`. -/
def loop_trace (c : impl_consts) (w : wait_consts) (h : impl_hooks) (s : blockstore_impl_t) :
    completion (blockstore_impl_t × submit_trace) :=
  if s.initialized ≠ 10 then
    .returned (init_stage2 h (init_stage1 h (init_stage0 s)), {})
  else
    let s1 := s.in_progress_syncs.foldl h.continue_sync s
    match submit_ops c w h s1.submit_queue 0 [] 0 s1 {} with
    | .returned (s2, tr) =>
      match finish_loop h s2 with
      | .returned s3 => .returned (s3, tr)
      | .thrown s3 => .thrown (s3, tr)
      | .undefined => .undefined
    | .thrown x => .thrown x
    | .undefined => .undefined

/-- The function `blockstore_impl_t::loop`. -/
def loop (c : impl_consts) (w : wait_consts) (h : impl_hooks) (s : blockstore_impl_t) :
    completion blockstore_impl_t :=
  match loop_trace c w h s with
  | .returned x => .returned x.1
  | .thrown x => .thrown x.1
  | .undefined => .undefined

/-- The states that calls of `loop` lead to from `s0`; a call that throws leaves
the state it had at the throw. -/
inductive loop_reachable (c : impl_consts) (w : wait_consts) (h : impl_hooks)
    (s0 : blockstore_impl_t) : blockstore_impl_t → Prop where
  | start : loop_reachable c w h s0 s0
  | returned (s s1 : blockstore_impl_t) :
      loop_reachable c w h s0 s → loop c w h s = .returned s1 → loop_reachable c w h s0 s1
  | thrown (s s1 : blockstore_impl_t) :
      loop_reachable c w h s0 s → loop c w h s = .thrown s1 → loop_reachable c w h s0 s1

/-- The function `blockstore_impl_t::is_safe_to_stop`, with the state it leaves.
`fresh` is the operation that `new blockstore_op_t` yields, whose members have
no defined value until they are assigned. -/
def is_safe_to_stop (c : impl_consts) (fresh : blockstore_op_t) (s : blockstore_impl_t) :
    Bool × blockstore_impl_t :=
  if s.submit_queue.length > 0 ∨ s.in_progress_syncs.length > 0 ∨
      (s.readonly = false ∧ s.flusher_active = true) then
    (false, s)
  else if s.unsynced_big_writes.length > 0 ∨ s.unsynced_small_writes.length > 0 then
    if s.readonly = false ∧ s.stop_sync_submitted = false then
      (false, { (enqueue_op c s { fresh with opcode := c.BS_OP_SYNC }).1 with
        stop_sync_submitted := true })
    else (false, s)
  else (true, s)

/-- Functions of other files that do nothing, for the concrete examples; every
`dequeue_*` call takes the operation off the queue. -/
def sample_hooks : impl_hooks :=
  { metadata_loop := fun s => (0, s), journal_loop := fun s => (0, s),
    continue_sync := fun s _ => s,
    dequeue_read := fun s op => (1, s, op), dequeue_write := fun s op => (1, s, op),
    dequeue_sync := fun s op => (1, s, op), dequeue_stable := fun s op => (1, s, op),
    ring_restore := fun s _ => s, flusher_loop := fun s => s, ring_submit := fun s => (0, s) }

end blockstore_impl_t

/-- A property of the state, the new `has_writes` (when the pass goes on) and the
trace holds of the way an iteration ended. -/
def step_result.all {σ ω : Type} (P : σ → Option Nat → submit_trace → Prop) :
    step_result σ ω → Prop
  | .stop s _ t => P s none t
  | .next s _ hw t => P s (some hw) t
  | .thrown s _ t => P s none t
  | .undefined => True

namespace blockstore_impl_t

/-- The operation is a WRITE or a DELETE. -/
def is_write (c : impl_consts) (op : blockstore_op_t) : Prop :=
  op_type c op = c.BS_OP_WRITE ∨ op_type c op = c.BS_OP_DELETE

instance (c : impl_consts) (op : blockstore_op_t) : Decidable (is_write c op) := by
  unfold is_write; infer_instance

/-- What one iteration for the operation `op` at position `i`, entered with
`has_writes` and the trace `tr`, does to the trace and to `has_writes`: the
operation is handed to `dequeue_sync` only if it is a SYNC and `has_writes` is
0; a SYNC is erased only if it was handed to `dequeue_sync`; and `has_writes`
is 0 afterwards only if it was 0 and the operation is no write. -/
def step_spec (c : impl_consts) (i has_writes : Nat) (tr : submit_trace) (op : blockstore_op_t)
    (_s1 : blockstore_impl_t) (hw1 : Option Nat) (tr1 : submit_trace) : Prop :=
  (tr1.handed_sync = tr.handed_sync ∨
    (tr1.handed_sync = tr.handed_sync ++ [i] ∧ has_writes = 0 ∧ op_type c op = c.BS_OP_SYNC)) ∧
  (tr1.erased = tr.erased ∨
    (tr1.erased = tr.erased ++ [i] ∧
      (op_type c op = c.BS_OP_SYNC → tr1.handed_sync = tr.handed_sync ++ [i]))) ∧
  (hw1 = some 0 → has_writes = 0 ∧ ¬ is_write c op)

end blockstore_impl_t

/-! ## The submission loop of the older engine -/

/-- The functions that `blockstore::loop` calls and that are defined in files
that are not among the sources. Each gets the engine state and returns its
`int` with the state it leaves. -/
structure legacy_hooks where
  metadata_loop : blockstore → Int × blockstore
  journal_loop : blockstore → Int × blockstore
  dequeue_read : blockstore → blockstore_operation → Int × blockstore × blockstore_operation
  dequeue_write : blockstore → blockstore_operation → Int × blockstore × blockstore_operation
  dequeue_sync : blockstore → blockstore_operation → Int × blockstore × blockstore_operation

/-- What the test of a waiting operation at the head of an iteration of
`blockstore::loop` leads to: `break`, `continue`, going on with `wait_for`
cleared, an exception, or undefined behaviour. -/
inductive wait_outcome where
  | stop : wait_outcome
  | skip : wait_outcome
  | go : blockstore_operation → wait_outcome
  | thrown : wait_outcome
  | undefined : wait_outcome
deriving DecidableEq, Repr

namespace blockstore

/-- The assignment `op->wait_for = 0`. -/
def clear_wait (op : blockstore_operation) : blockstore_operation :=
  { op with wait_for := 0 }

/-- Lines 177 to 219 of `blockstore::loop`: the test of an operation whose
`wait_for` is not 0. Reading the usage count of a sector outside
`journal.sector_info` is undefined. -/
def check_parked (w : wait_consts) (s : blockstore) (op : blockstore_operation) : wait_outcome :=
  if op.wait_for = w.WAIT_SQE then
    if s.ring_space < op.wait_detail then .stop else .go (clear_wait op)
  else if op.wait_for = w.WAIT_IN_FLIGHT then
    match dirty_find s.dirty_db ⟨op.oid, op.wait_detail⟩ with
    | some e => if w.IS_IN_FLIGHT e.state = true then .skip else .go (clear_wait op)
    | none => .go (clear_wait op)
  else if op.wait_for = w.WAIT_JOURNAL then
    if s.journal_used_start < op.wait_detail then .skip else .go (clear_wait op)
  else if op.wait_for = w.WAIT_JOURNAL_BUFFER then
    if s.journal_sector_count = 0 then .undefined
    else
      match s.sector_usage[(s.journal_cur_sector + 1) % s.journal_sector_count]? with
      | none => .undefined
      | some u => if u > 0 then .skip else .go (clear_wait op)
  else .thrown

/-- What follows a `dequeue_*` call in `blockstore::loop`: the operation is
erased when the call returned non-zero, the pass ends when the operation waits
for ring space, and otherwise the pass goes on with `has_writes` as given. -/
def after_dequeue (w : wait_consts) (i : Nat)
    (r : Int × blockstore × blockstore_operation) (has_writes : Nat) (tr : submit_trace) :
    step_result blockstore blockstore_operation :=
  if r.1 ≠ 0 then .next r.2.1 none has_writes { tr with erased := tr.erased ++ [i] }
  else if r.2.2.wait_for = w.WAIT_SQE then .stop r.2.1 r.2.2 tr
  else .next r.2.1 (some r.2.2) has_writes tr

/-- Lines 221 to 277 of `blockstore::loop`: the dispatch of an operation by its
type. `has_writes` is 1 for `true` and 0 for `false`. During the call of a
`dequeue_*` function the queue holds the operations kept so far, this operation
and the operations not yet visited. -/
def dispatch (c : legacy_consts) (w : wait_consts) (h : legacy_hooks)
    (kept rest : List blockstore_operation) (i has_writes : Nat) (s : blockstore)
    (tr : submit_trace) (op : blockstore_operation) :
    step_result blockstore blockstore_operation :=
  let sq := { s with submit_queue := kept ++ op :: rest }
  if op_type c op = c.OP_READ_DIRTY ∨ op_type c op = c.OP_READ then
    after_dequeue w i (h.dequeue_read sq op) has_writes tr
  else if op_type c op = c.OP_WRITE ∨ op_type c op = c.OP_DELETE then
    after_dequeue w i (h.dequeue_write sq op) 1 tr
  else if op_type c op = c.OP_SYNC then
    if has_writes ≠ 0 then .next s (some op) has_writes tr
    else
      after_dequeue w i (h.dequeue_sync sq op) has_writes
        { tr with handed_sync := tr.handed_sync ++ [i] }
  else .next s (some op) has_writes tr

/-- Lines 173 to 278 of `blockstore::loop`: one iteration of the loop over
`submit_queue`, for the operation `op` at position `i`. -/
def submit_step (c : legacy_consts) (w : wait_consts) (h : legacy_hooks)
    (kept rest : List blockstore_operation) (i has_writes : Nat) (s : blockstore)
    (tr : submit_trace) (op : blockstore_operation) :
    step_result blockstore blockstore_operation :=
  if op.wait_for ≠ 0 then
    match check_parked w s op with
    | .stop => .stop s op tr
    | .skip => .next s (some op) has_writes tr
    | .go op1 => dispatch c w h kept rest i has_writes s tr op1
    | .thrown => .thrown s op tr
    | .undefined => .undefined
  else dispatch c w h kept rest i has_writes s tr op

/-- Lines 169 to 279 of `blockstore::loop`: the loop over `submit_queue`. `rest`
holds the operations not yet visited, `i` the position of the first of them,
`kept` the visited operations that stay in the queue. The functions of other
files do not get at the queue: when the pass ends, the queue is `kept` followed
by what was not visited. -/
def submit_ops (c : legacy_consts) (w : wait_consts) (h : legacy_hooks) :
    List blockstore_operation → Nat → List blockstore_operation → Nat → blockstore →
      submit_trace → completion (blockstore × submit_trace)
  | [], _, kept, _, s, tr => .returned ({ s with submit_queue := kept }, tr)
  | op :: rest, i, kept, has_writes, s, tr =>
    match submit_step c w h kept rest i has_writes s tr op with
    | .stop s1 op1 tr1 => .returned ({ s1 with submit_queue := kept ++ op1 :: rest }, tr1)
    | .next s1 keep hw tr1 => submit_ops c w h rest (i + 1) (kept ++ keep.toList) hw s1 tr1
    | .thrown s1 op1 tr1 => .thrown ({ s1 with submit_queue := kept ++ op1 :: rest }, tr1)
    | .undefined => .undefined

/-- Lines 138 to 167 of `blockstore::loop`: one step of the initialisation. -/
def init_step (h : legacy_hooks) (s : blockstore) : blockstore :=
  if s.initialized = 0 then { s with metadata_init_reader := true, initialized := 1 }
  else if s.initialized = 1 then
    if (h.metadata_loop s).1 = 0 then
      { (h.metadata_loop s).2 with
        metadata_init_reader := false, journal_init_reader := true, initialized := 2 }
    else (h.metadata_loop s).2
  else if s.initialized = 2 then
    if (h.journal_loop s).1 = 0 then
      { (h.journal_loop s).2 with journal_init_reader := false, initialized := 10 }
    else (h.journal_loop s).2
  else s

/-- The function `blockstore::loop`, with the trace of its pass over
`submit_queue`. -/
def loop_trace (c : legacy_consts) (w : wait_consts) (h : legacy_hooks) (s : blockstore) :
    completion (blockstore × submit_trace) :=
  if s.initialized ≠ 10 then .returned (init_step h s, {})
  else submit_ops c w h s.submit_queue 0 [] 0 s {}

/-- The function `blockstore::loop`. -/
def loop (c : legacy_consts) (w : wait_consts) (h : legacy_hooks) (s : blockstore) :
    completion blockstore :=
  match loop_trace c w h s with
  | .returned x => .returned x.1
  | .thrown x => .thrown x.1
  | .undefined => .undefined

/-- The operation is parked with a wake-up condition that is not met: it waits
for an in-flight version, for journal space, or for a journal buffer. -/
def parked (w : wait_consts) (s : blockstore) (op : blockstore_operation) : Prop :=
  (op.wait_for = w.WAIT_IN_FLIGHT ∧
    ∃ e, dirty_find s.dirty_db ⟨op.oid, op.wait_detail⟩ = some e ∧ w.IS_IN_FLIGHT e.state = true) ∨
  (op.wait_for = w.WAIT_JOURNAL ∧ s.journal_used_start < op.wait_detail) ∨
  (op.wait_for = w.WAIT_JOURNAL_BUFFER ∧ s.journal_sector_count ≠ 0 ∧
    ∃ u, s.sector_usage[(s.journal_cur_sector + 1) % s.journal_sector_count]? = some u ∧ u > 0)

/-- Functions of other files that do nothing, for the concrete examples; every
`dequeue_*` call takes the operation off the queue. -/
def sample_hooks : legacy_hooks :=
  { metadata_loop := fun s => (0, s), journal_loop := fun s => (0, s),
    dequeue_read := fun s op => (1, s, op), dequeue_write := fun s op => (1, s, op),
    dequeue_sync := fun s op => (1, s, op) }

end blockstore

/-! ## Sequences of `is_safe_to_stop` calls -/

namespace blockstore_impl_t

/-- The state that a call of `is_safe_to_stop` finds has an empty queue, no sync
in progress, an idle flusher and some unsynced write. -/
def finds_unsynced (s : blockstore_impl_t) : Prop :=
  s.submit_queue = [] ∧ s.in_progress_syncs = [] ∧ s.flusher_active = false ∧
  (s.unsynced_big_writes ≠ [] ∨ s.unsynced_small_writes ≠ [])

instance (s : blockstore_impl_t) : Decidable (finds_unsynced s) := by
  unfold finds_unsynced; infer_instance

/-- The implicit SYNC as `enqueue_op` pushes it: the operation made by
`new blockstore_op_t` with its opcode assigned and its private area set up. -/
def implicit_sync (c : impl_consts) (fresh : blockstore_op_t) : blockstore_op_t :=
  { fresh with
    opcode := c.BS_OP_SYNC
    private_data := { fresh.private_data with wait_for := 0, sync_state := 0, pending_ops := 0 } }

/-- A sequence of `is_safe_to_stop` calls. Between the calls the rest of the
engine runs: `env` holds, for each call, what happens to the state before it.
The result lists, for each call, the state it found, the returned value and the
state it left. -/
def stop_calls (c : impl_consts) (fresh : blockstore_op_t) :
    List (blockstore_impl_t → blockstore_impl_t) → blockstore_impl_t →
      List (blockstore_impl_t × Bool × blockstore_impl_t)
  | [], _ => []
  | e :: rest, s =>
    (e s, is_safe_to_stop c fresh (e s)) ::
      stop_calls c fresh rest (is_safe_to_stop c fresh (e s)).2

/-- The code that runs between the calls leaves the engine writable and does
not assign `stop_sync_submitted`. -/
def keeps_stop_flags (env : List (blockstore_impl_t → blockstore_impl_t)) : Prop :=
  ∀ e ∈ env, ∀ s : blockstore_impl_t,
    (e s).readonly = s.readonly ∧ (e s).stop_sync_submitted = s.stop_sync_submitted

end blockstore_impl_t

namespace blockstore_impl_t

/-- An engine with one unsynced small write, for the concrete examples. -/
def sample_unsynced_engine : blockstore_impl_t :=
  { sample_engine with unsynced_small_writes := [⟨⟨1, 0⟩, 1⟩] }

/-- What runs before each of three `is_safe_to_stop` calls in the concrete
example: nothing before the first two, and before the third the queue is
drained while the write stays unsynced. -/
def sample_stop_env : List (blockstore_impl_t → blockstore_impl_t) :=
  [fun s => s, fun s => s, fun s => { s with submit_queue := [] }]

end blockstore_impl_t

namespace blockstore_impl_t

/-- The paths that `open_data`, `open_meta` and `open_journal` pass to `open`, in
the order of the calls, when none of them throws: the data device, the metadata
device unless its name is empty, the journal device unless its name is empty. -/
def opened_paths (s : impl_layout) : List String :=
  [s.data_device] ++ (if s.meta_device ≠ "" then [s.meta_device] else []) ++
    (if s.journal_device ≠ "" then [s.journal_device] else [])

end blockstore_impl_t

/-! ## Opening the devices -/

/-- What `check_size` finds for an open file: `fstat` fails, the file is a
regular file or a block device whose size and sector size are obtained, the
`ioctl` calls on a block device fail (with the text of `strerror(errno)`), or
the file is neither. -/
inductive stat_outcome where
  | fstat_failed : stat_outcome
  | sized : stat_outcome
  | ioctl_failed : String → stat_outcome
  | other_kind : stat_outcome
deriving DecidableEq, Repr

/-- What the operating system answers for a path: whether `open` succeeds, what
`check_size` finds, the size and the sector size of the device, and the text of
`strerror(errno)` when `flock` fails (`none` when it succeeds). -/
structure device_t where
  openable : Bool := true
  stat : stat_outcome := .sized
  size : Nat := 0
  sect : Nat := 512
  flock_error : Option String := none
deriving DecidableEq, Repr

/-- The environment of the `open_*` functions: the devices by path, the file
descriptor that the n-th `open` call returns, and whether `calloc` and
`memalign` succeed, by requested size. -/
structure open_env where
  device : String → device_t
  new_fd : Nat → Int
  calloc_ok : Nat → Bool
  memalign_ok : Nat → Bool

/-- The function `check_size`: the exception it throws, if it throws. -/
def check_size (d : device_t) (name : String) : Option String :=
  match d.stat with
  | .fstat_failed => some ("Failed to stat " ++ name)
  | .sized => none
  | .ioctl_failed e => some ("failed to get " ++ name ++ " size or block size: " ++ e)
  | .other_kind => some (name ++ " is neither a file nor a block device")

namespace blockstore_impl_t

/-- The function `blockstore_impl_t::open_data`. The descriptor is that of the
first `open` call. A sector size of 0 makes the remainder undefined. -/
def open_data (env : open_env) (s : impl_layout) : config_result impl_layout :=
  if (env.device s.data_device).openable = false ∨ env.new_fd 0 = -1 then
    .error "Failed to open data device"
  else
    match check_size (env.device s.data_device) "data device" with
    | some m => .error m
    | none =>
      if (env.device s.data_device).sect = 0 then .undefined
      else if s.disk_alignment % (env.device s.data_device).sect ≠ 0 then
        .error ("disk_alignment (" ++ toString s.disk_alignment ++
          ") is not a multiple of data device sector size (" ++
          toString (env.device s.data_device).sect ++ ")")
      else if s.data_offset ≥ (env.device s.data_device).size then
        .error ("data_offset exceeds device size = " ++
          toString (env.device s.data_device).size)
      else
        match (if s.disable_flock = false then (env.device s.data_device).flock_error
               else none) with
        | some e => .error ("Failed to lock data device: " ++ e)
        | none =>
          .ok { s with
            data_fd := env.new_fd 0
            data_size := (env.device s.data_device).size
            data_device_sect := (env.device s.data_device).sect }

/-- The function `blockstore_impl_t::open_meta`. A separate metadata device is
opened by the second `open` call of the engine; `meta_offset` is then set to 0. -/
def open_meta (env : open_env) (s : impl_layout) : config_result impl_layout :=
  config_result.andThen
    (if s.meta_device ≠ "" then
      if (env.device s.meta_device).openable = false ∨ env.new_fd 1 = -1 then
        .error "Failed to open metadata device"
      else
        match check_size (env.device s.meta_device) "metadata device" with
        | some m => .error m
        | none =>
          if 0 ≥ (env.device s.meta_device).size then
            .error ("meta_offset exceeds device size = " ++
              toString (env.device s.meta_device).size)
          else
            match (if s.disable_flock = false then (env.device s.meta_device).flock_error
                   else none) with
            | some e => .error ("Failed to lock metadata device: " ++ e)
            | none =>
              .ok { s with
                meta_offset := 0
                meta_fd := env.new_fd 1
                meta_size := (env.device s.meta_device).size
                meta_device_sect := (env.device s.meta_device).sect }
    else if s.meta_offset ≥ s.data_size then
      .error ("meta_offset exceeds device size = " ++ toString s.data_size)
    else
      .ok { s with meta_fd := s.data_fd, meta_device_sect := s.data_device_sect, meta_size := 0 })
    fun s1 =>
      if s1.meta_device_sect = 0 then .undefined
      else if s1.meta_block_size % s1.meta_device_sect ≠ 0 then
        .error ("meta_block_size (" ++ toString s1.meta_block_size ++
          ") is not a multiple of data device sector size (" ++
          toString s1.meta_device_sect ++ ")")
      else .ok s1

/-- The function `blockstore_impl_t::open_journal`. A separate journal device is
opened by the next `open` call of the engine (the third, or the second when
there is no separate metadata device); its offset is not tested. Without a
separate journal device the journal is on the metadata device and its offset is
tested against `data_size`. -/
def open_journal (env : open_env) (s : impl_layout) : config_result impl_layout :=
  config_result.andThen
    (if s.journal_device ≠ "" then
      if (env.device s.journal_device).openable = false ∨
          env.new_fd (if s.meta_device ≠ "" then 2 else 1) = -1 then
        .error "Failed to open journal device"
      else
        match check_size (env.device s.journal_device) "journal device" with
        | some m => .error m
        | none =>
          match (if s.disable_flock = false then (env.device s.journal_device).flock_error
                 else none) with
          | some e => .error ("Failed to lock journal device: " ++ e)
          | none =>
            .ok { s with
              journal := { s.journal with
                fd := env.new_fd (if s.meta_device ≠ "" then 2 else 1)
                device_size := (env.device s.journal_device).size }
              journal_device_sect := (env.device s.journal_device).sect }
    else if s.journal.offset ≥ s.data_size then
      .error "journal_offset exceeds device size"
    else
      .ok { s with
        journal := { s.journal with fd := s.meta_fd, device_size := 0 }
        journal_device_sect := s.meta_device_sect })
    fun s1 =>
      if env.calloc_ok s1.journal.sector_count = false then .error "std::bad_alloc"
      else if s1.journal.inmemory = false ∧
          env.memalign_ok ((s1.journal.sector_count * s1.journal_block_size) % 2 ^ 64) = false then
        .error "std::bad_alloc"
      else if s1.journal_device_sect = 0 then .undefined
      else if s1.journal_block_size % s1.journal_device_sect ≠ 0 then
        .error ("journal_block_size (" ++ toString s1.journal_block_size ++
          ") is not a multiple of journal device sector size (" ++
          toString s1.journal_device_sect ++ ")")
      else .ok s1

/-- The size of the device that holds the journal: the journal device when there
is a separate one, and otherwise the device of the metadata, which is the
metadata device when there is a separate one and the data device when not. -/
def journal_holder_size (env : open_env) (s : impl_layout) : Nat :=
  if s.journal_device ≠ "" then (env.device s.journal_device).size
  else if s.meta_device ≠ "" then (env.device s.meta_device).size
  else (env.device s.data_device).size

/-- The opening sequence of the engine: `parse_config`, `open_data`,
`open_meta`, `open_journal`, `calc_lengths`. -/
def open_engine (c : open_consts) (env : open_env) (al : alloc_oracle) (s : impl_layout)
    (cfg : blockstore_config_t) : config_result impl_layout :=
  config_result.andThen (parse_config c s cfg) fun s1 =>
  config_result.andThen (open_data env s1) fun s2 =>
  config_result.andThen (open_meta env s2) fun s3 =>
  config_result.andThen (open_journal env s3) fun s4 =>
  calc_lengths c al s4

/-- An environment for the concrete examples: a data device of 1 GiB at
`/dev/a`, a metadata device of 16 MiB at `/dev/m`, a journal device of 16 MiB at
`/dev/j`, descriptors 3, 4, 5 and allocations that succeed. -/
def sample_open_env : open_env :=
  { device := fun p =>
      if p = "/dev/a" then { size := 1073741824 }
      else if p = "/dev/m" then { size := 16777216 }
      else if p = "/dev/j" then { size := 16777216 }
      else { openable := false }
    new_fd := fun n => 3 + n
    calloc_ok := fun _ => true
    memalign_ok := fun _ => true }

end blockstore_impl_t

/-! ## The ring loop (src/ringloop.cpp) -/

/-- A consumer of the ring loop. The two callbacks are `std::function` objects;
the model names a callback by a number and has `none` for an empty one. -/
structure ring_consumer_t where
  number : Int
  handle_event : Option Nat
  loop : Option Nat
deriving DecidableEq, Repr

/-- The registry of `ring_loop_t`. -/
structure ring_loop_t where
  consumers : List ring_consumer_t := []
deriving DecidableEq, Repr

/-- A completion taken from the ring: the `source` of its `ring_data_t` and its
result. -/
structure ring_cqe where
  source : Int
  res : Int
deriving DecidableEq, Repr

/-- What a pass of `ring_loop_t::loop` called: the `handle_event` callbacks with
the consumer position and the result they got, and the `loop` callbacks with
the consumer position. -/
structure ring_trace where
  delivered : List (Nat × Nat × Int) := []
  ran : List (Nat × Nat) := []
deriving DecidableEq, Repr

namespace ring_loop_t

/-- The function `ring_loop_t::register_consumer`: the returned number and the
registry with the copy of the consumer that `push_back` makes. -/
def register_consumer (r : ring_loop_t) (consumer : ring_consumer_t) : Int × ring_loop_t :=
  (r.consumers.length,
    { r with consumers := r.consumers ++ [{ consumer with number := r.consumers.length }] })

/-- The function `ring_loop_t::unregister_consumer`. The comparison with
`consumers.size()` is unsigned, so a negative number compares as a large one. -/
def unregister_consumer (r : ring_loop_t) (number : Int) : ring_loop_t :=
  if 0 ≤ number ∧ number.toNat < r.consumers.length then
    { r with consumers :=
      r.consumers.modify (fun c => { c with handle_event := none, loop := none }) number.toNat }
  else r

/-- Lines 67 to 79 of `ring_loop_t::loop`: the delivery of the pending
completions. -/
def deliver_cqes (r : ring_loop_t) : List ring_cqe → List (Nat × Nat × Int)
  | [] => []
  | cqe :: rest =>
    (if 0 ≤ cqe.source ∧ cqe.source.toNat < r.consumers.length then
      match r.consumers[cqe.source.toNat]? with
      | some c =>
        match c.handle_event with
        | some f => [(cqe.source.toNat, f, cqe.res)]
        | none => []
      | none => []
    else []) ++ deliver_cqes r rest

/-- Lines 80 to 83 of `ring_loop_t::loop`: the call of every consumer's `loop`,
from position `i` on. Calling an empty `std::function` throws
`std::bad_function_call`; the result then holds the calls made before. -/
def run_loops : List ring_consumer_t → Nat → List (Nat × Nat) → completion (List (Nat × Nat))
  | [], _, ran => .returned ran
  | c :: rest, i, ran =>
    match c.loop with
    | some f => run_loops rest (i + 1) (ran ++ [(i, f)])
    | none => .thrown ran

/-- The function `ring_loop_t::loop`, given the completions that are pending.
The callbacks are taken not to change the registry. -/
def loop (r : ring_loop_t) (cqes : List ring_cqe) : completion ring_trace :=
  match run_loops r.consumers 0 [] with
  | .returned ran => .returned { delivered := deliver_cqes r cqes, ran := ran }
  | .thrown ran => .thrown { delivered := deliver_cqes r cqes, ran := ran }
  | .undefined => .undefined

/-- A registry with two consumers, for the concrete examples: callbacks 10 and
11 for the first, 20 and 21 for the second. -/
def sample_ring : ring_loop_t :=
  (register_consumer (register_consumer {} ⟨0, some 10, some 11⟩).2 ⟨0, some 20, some 21⟩).2

end ring_loop_t

/-! ## The cluster client (src/src/cluster_client.cpp) -/

/-- The constants and the macro `INODE_POOL` that `cluster_client.cpp` takes
from headers that are not among the sources. -/
structure client_consts where
  OSD_OP_READ : Nat
  OSD_OP_WRITE : Nat
  OSD_OP_SYNC : Nat
  POOL_SCHEME_REPLICATED : Nat
  INODE_POOL : Nat → Nat

/-- What the code relies on about the header: the three opcodes are distinct. -/
def client_consts.valid (c : client_consts) : Prop :=
  c.OSD_OP_READ ≠ c.OSD_OP_WRITE ∧ c.OSD_OP_READ ≠ c.OSD_OP_SYNC ∧
  c.OSD_OP_WRITE ≠ c.OSD_OP_SYNC

instance (c : client_consts) : Decidable c.valid := by
  unfold client_consts.valid; infer_instance

/-- The flag `OP_FLUSH_BUFFER` that `cluster_client.cpp` defines. -/
def OP_FLUSH_BUFFER : Nat := 2

/-- A part of a sliced operation. A piece of `iov` is the position of the
buffer in the operation's `iov`, the offset in that buffer and the length. -/
structure cluster_op_part_t where
  offset : Nat
  len : Nat
  pg_num : Nat
  flags : Nat
  iov : List (Nat × Nat × Nat)
deriving DecidableEq, Repr

/-- An operation of the cluster client; `iov` holds the lengths of its buffers.
An element of `parts` that no assignment has reached is `none`. -/
structure cluster_op_t where
  opcode : Nat
  inode : Nat := 0
  offset : Nat := 0
  len : Nat := 0
  flags : Nat := 0
  up_wait : Bool := false
  retval : Int := 0
  iov : List Nat := []
  parts : List (Option cluster_op_part_t) := []
deriving DecidableEq, Repr

/-- The configuration of a pool, as far as `slice_rw` and `affects_osd` read it;
`pg_config` maps a PG number to its current primary OSD. -/
structure pool_config_t where
  scheme : Nat
  pg_size : Nat
  parity_chunks : Nat
  pg_stripe_size : Nat
  real_pg_count : Nat
  pg_config : List (Nat × Nat)
deriving DecidableEq, Repr

/-- The part of the `cluster_client_t` state that `continue_ops`, `slice_rw` and
`affects_osd` read or write; `pool_config` is `st_cli.pool_config`, by pool. -/
structure cluster_client_t where
  pgs_loaded : Bool := true
  continuing_ops : Nat := 0
  op_queue : List cluster_op_t := []
  bs_block_size : Nat := 0
  pool_config : List (Nat × pool_config_t) := []
deriving DecidableEq, Repr

/-- The functions `continue_rw` and `continue_sync`, which `continue_ops` calls:
the returned int, the state and the operation as the call leaves them. A call
that re-enters `continue_ops` leaves `continuing_ops = 2`. -/
structure client_hooks where
  continue_rw : cluster_client_t → cluster_op_t → Int × cluster_client_t × cluster_op_t
  continue_sync : cluster_client_t → cluster_op_t → Int × cluster_client_t × cluster_op_t

/-- One iteration of the loop of `continue_ops`, as the pass goes on from it. -/
structure pass_step where
  state : cluster_client_t
  keep : Option cluster_op_t
  has_flushes : Bool
  has_writes : Bool
  trace : submit_trace

/-- How a pass of `continue_ops` over `op_queue` ended: the state it left (the
queue included), what it handed to `continue_sync` and what it erased, by
position in the queue at the start of the pass, the operations it visited and
kept, with their positions, and whether it ended at `goto restart`. -/
structure pass_outcome where
  state : cluster_client_t
  trace : submit_trace
  kept : List (Nat × cluster_op_t)
  restart : Bool

namespace cluster_client_t

/-- The test `op->flags & OP_FLUSH_BUFFER`. -/
def is_flush (op : cluster_op_t) : Bool :=
  op.flags &&& OP_FLUSH_BUFFER != 0

/-- Lines 119 to 121 of `continue_ops`: an operation that does not wait for a
PG, or any operation of a retry pass, has `up_wait` cleared. -/
def mark_visited (up_retry : Bool) (op : cluster_op_t) : cluster_op_t :=
  if op.up_wait = false ∨ up_retry = true then { op with up_wait := false } else op

/-- Lines 119 to 138 of `continue_ops`: the call of `continue_rw` or
`continue_sync` that the iteration makes for `op`, if it makes one. `sq` is the
state during the call and `op` the operation with `up_wait` cleared. -/
def hook_call (c : client_consts) (h : client_hooks) (up_retry has_flushes has_writes : Bool)
    (sq : cluster_client_t) (op : cluster_op_t) :
    Option (Int × cluster_client_t × cluster_op_t) :=
  if op.up_wait = false ∨ up_retry = true then
    if op.opcode = c.OSD_OP_READ ∨ op.opcode = c.OSD_OP_WRITE then
      if is_flush op = true ∨ has_flushes = false then
        some (h.continue_rw sq (mark_visited up_retry op))
      else none
    else if op.opcode = c.OSD_OP_SYNC then
      if has_writes = false then some (h.continue_sync sq (mark_visited up_retry op)) else none
    else none
  else none

/-- The value of `rm` after the call, if one was made. -/
def call_rm (r : Option (Int × cluster_client_t × cluster_op_t)) : Bool :=
  match r with
  | some x => x.1 != 0
  | none => false

/-- Lines 140 to 153 of `continue_ops`: the new `has_writes`. -/
def next_has_writes (c : client_consts) (op : cluster_op_t) (has_writes rm : Bool) : Bool :=
  if op.opcode = c.OSD_OP_WRITE then has_writes || !rm else has_writes

/-- Lines 140 to 153 of `continue_ops`: the new `has_flushes`. -/
def next_has_flushes (c : client_consts) (op : cluster_op_t) (has_flushes has_writes rm : Bool) :
    Bool :=
  if op.opcode = c.OSD_OP_WRITE then
    if is_flush op = true then (has_writes || !rm) || !rm else has_flushes
  else if op.opcode = c.OSD_OP_SYNC then has_writes || !rm
  else has_flushes

/-- Lines 116 to 160 of `continue_ops`: one iteration, for the operation `op` at
position `i`. During the call of `continue_rw` or `continue_sync` the queue
holds the operations kept so far, this operation and the operations not yet
visited. -/
def ops_step (c : client_consts) (h : client_hooks) (up_retry : Bool)
    (kept : List (Nat × cluster_op_t)) (rest : List cluster_op_t) (i : Nat)
    (has_flushes has_writes : Bool) (s : cluster_client_t) (tr : submit_trace)
    (op : cluster_op_t) : pass_step :=
  match hook_call c h up_retry has_flushes has_writes
      { s with op_queue := kept.map Prod.snd ++ mark_visited up_retry op :: rest } op with
  | some r =>
    { state := r.2.1
      keep := if r.1 ≠ 0 then none else some r.2.2
      has_flushes := next_has_flushes c op has_flushes has_writes (r.1 != 0)
      has_writes := next_has_writes c op has_writes (r.1 != 0)
      trace :=
        { handed_sync :=
            if op.opcode = c.OSD_OP_READ ∨ op.opcode = c.OSD_OP_WRITE then tr.handed_sync
            else tr.handed_sync ++ [i]
          erased := if r.1 ≠ 0 then tr.erased ++ [i] else tr.erased } }
  | none =>
    { state := s
      keep := some (mark_visited up_retry op)
      has_flushes := next_has_flushes c op has_flushes has_writes false
      has_writes := next_has_writes c op has_writes false
      trace := tr }

/-- Lines 114 to 165 of `continue_ops`: the loop over `op_queue`, up to its end
or to the first `goto restart`. `rest` holds the operations not yet visited, `i`
the position of the first of them, `kept` the visited operations that stay in
the queue. The two functions called do not get at the queue unless they
re-enter `continue_ops`: when the pass ends, the queue is `kept` followed by
what was not visited. -/
def ops_pass (c : client_consts) (h : client_hooks) (up_retry : Bool) :
    List cluster_op_t → Nat → List (Nat × cluster_op_t) → Bool → Bool → cluster_client_t →
      submit_trace → pass_outcome
  | [], _, kept, _, _, s, tr =>
    { state := { s with op_queue := kept.map Prod.snd }, trace := tr, kept := kept,
      restart := false }
  | op :: rest, i, kept, has_flushes, has_writes, s, tr =>
    if (ops_step c h up_retry kept rest i has_flushes has_writes s tr op).state.continuing_ops
        = 2 then
      { state :=
          { (ops_step c h up_retry kept rest i has_flushes has_writes s tr op).state with
            op_queue :=
              (kept ++ ((ops_step c h up_retry kept rest i has_flushes has_writes s tr op).keep.map
                (fun o => (i, o))).toList).map Prod.snd ++ rest }
        trace := (ops_step c h up_retry kept rest i has_flushes has_writes s tr op).trace
        kept := kept ++
          ((ops_step c h up_retry kept rest i has_flushes has_writes s tr op).keep.map
            (fun o => (i, o))).toList
        restart := true }
    else
      ops_pass c h up_retry rest (i + 1)
        (kept ++ ((ops_step c h up_retry kept rest i has_flushes has_writes s tr op).keep.map
          (fun o => (i, o))).toList)
        (ops_step c h up_retry kept rest i has_flushes has_writes s tr op).has_flushes
        (ops_step c h up_retry kept rest i has_flushes has_writes s tr op).has_writes
        (ops_step c h up_retry kept rest i has_flushes has_writes s tr op).state
        (ops_step c h up_retry kept rest i has_flushes has_writes s tr op).trace

/-- The assignment `continuing_ops = 0` that ends a pass that was not restarted. -/
def end_pass (r : pass_outcome) : pass_outcome :=
  if r.restart = true then r
  else { r with state := { r.state with continuing_ops := 0 } }

/-- The function `cluster_client_t::continue_ops`, up to its return or to its
first `goto restart`. -/
def continue_ops (c : client_consts) (h : client_hooks) (up_retry : Bool)
    (s : cluster_client_t) : pass_outcome :=
  if s.pgs_loaded = false then { state := s, trace := {}, kept := [], restart := false }
  else if s.continuing_ops ≠ 0 then
    { state := { s with continuing_ops := 2 }, trace := {}, kept := [], restart := false }
  else
    end_pass (ops_pass c h up_retry s.op_queue 0 [] false false { s with continuing_ops := 1 } {})

/-- The constants used for the concrete examples; `INODE_POOL` takes the bits
above the 48th. -/
def sample_consts : client_consts :=
  { OSD_OP_READ := 11, OSD_OP_WRITE := 12, OSD_OP_SYNC := 13, POOL_SCHEME_REPLICATED := 1,
    INODE_POOL := fun inode => inode / 2 ^ 48 }

/-- Callees that leave every operation unfinished, for the concrete examples. -/
def sample_hooks : client_hooks :=
  { continue_rw := fun s op => (0, s, op), continue_sync := fun s op => (0, s, op) }

end cluster_client_t

namespace cluster_client_t

/-- What one iteration of `continue_ops` for the operation `op` at position `i`,
entered with `has_writes` and the trace `tr`, does: it calls `continue_sync`
only for a SYNC and with `has_writes` false; it erases the operation or keeps
it; a SYNC is erased only after `continue_sync` was called for it;
`has_writes` is false afterwards only if it was false and the operation, if a
WRITE, was erased; and a SYNC that is kept without a call of `continue_sync`
is the operation with `up_wait` cleared as lines 119 to 121 clear it. -/
def ops_step_spec (c : client_consts) (up_retry : Bool) (i : Nat) (has_writes : Bool)
    (tr : submit_trace) (op : cluster_op_t) (st : pass_step) : Prop :=
  (st.trace.handed_sync = tr.handed_sync ∨
    (st.trace.handed_sync = tr.handed_sync ++ [i] ∧ has_writes = false ∧
      op.opcode = c.OSD_OP_SYNC)) ∧
  ((st.keep = none ∧ st.trace.erased = tr.erased ++ [i] ∧
      (op.opcode = c.OSD_OP_SYNC → st.trace.handed_sync = tr.handed_sync ++ [i])) ∨
    (∃ o, st.keep = some o ∧ st.trace.erased = tr.erased ∧
      (op.opcode = c.OSD_OP_SYNC → st.trace.handed_sync = tr.handed_sync →
        o = mark_visited up_retry op))) ∧
  (st.has_writes = false →
    has_writes = false ∧ (op.opcode = c.OSD_OP_WRITE → st.trace.erased = tr.erased ++ [i]))

end cluster_client_t

namespace cluster_client_t

/-- Callees that finish every operation at once, for the concrete examples. -/
def sample_finishing_hooks : client_hooks :=
  { continue_rw := fun s op => (1, s, op), continue_sync := fun s op => (1, s, op) }

end cluster_client_t

/-- How `slice_rw` or `affects_osd` ended: it returned, `pool_config.at` threw
`std::out_of_range`, the `assert` of `slice_rw` failed, or the behaviour is
undefined (a division by zero, or an element of `parts` beyond its size). -/
inductive slice_outcome (α : Type) where
  | done : α → slice_outcome α
  | out_of_range : slice_outcome α
  | assert_failed : slice_outcome α
  | undefined : slice_outcome α
deriving DecidableEq, Repr

/-- The position of `slice_rw` in the buffers of the operation: the buffers from
`iov_idx` on, `iov_idx` and `iov_pos`. -/
structure iov_cursor where
  rest : List Nat
  idx : Nat := 0
  pos : Nat := 0
deriving DecidableEq, Repr

/-- The value of an `int` that is assigned a 64-bit unsigned value. -/
def to_int32 (v : Nat) : Int :=
  if v % 2 ^ 32 < 2 ^ 31 then ((v % 2 ^ 32 : Nat) : Int) else ((v % 2 ^ 32 : Nat) : Int) - 2 ^ 32

namespace cluster_client_t

/-- The value `pg_data_size` of `slice_rw` and `affects_osd`, a `uint32_t`. -/
def pg_data_size (c : client_consts) (pool : pool_config_t) : Nat :=
  if pool.scheme = c.POOL_SCHEME_REPLICATED then 1
  else u64_sub pool.pg_size pool.parity_chunks % 2 ^ 32

/-- The value `pg_block_size` of `slice_rw` and `affects_osd`. -/
def pg_block_size (c : client_consts) (s : cluster_client_t) (pool : pool_config_t) : Nat :=
  (s.bs_block_size * pg_data_size c pool) % 2 ^ 64

/-- The value `first_stripe`: `(offset / pg_block_size) * pg_block_size`. -/
def first_stripe (offset pbs : Nat) : Nat :=
  ((offset / pbs) * pbs) % 2 ^ 64

/-- The value `last_stripe`:
`((offset + len + pg_block_size - 1) / pg_block_size - 1) * pg_block_size`, in
64-bit arithmetic. -/
def last_stripe (offset len pbs : Nat) : Nat :=
  (u64_sub (u64_sub (((offset + len) % 2 ^ 64 + pbs) % 2 ^ 64) 1 / pbs) 1 * pbs) % 2 ^ 64

/-- The size that `slice_rw` gives to `parts`. -/
def parts_count (offset len pbs : Nat) : Nat :=
  (u64_sub (last_stripe offset len pbs) (first_stripe offset pbs) / pbs + 1) % 2 ^ 64

/-- The value `begin` of an iteration of `slice_rw`. -/
def part_begin (offset stripe : Nat) : Nat :=
  if offset < stripe then stripe else offset

/-- The value `end` of an iteration of `slice_rw`. -/
def part_end (offset len stripe pbs : Nat) : Nat :=
  if (offset + len) % 2 ^ 64 > (stripe + pbs) % 2 ^ 64 then (stripe + pbs) % 2 ^ 64
  else (offset + len) % 2 ^ 64

/-- The PG number that `slice_rw` gives to the part of a stripe; the value is
taken to fit `pg_num_t`. -/
def slice_pg_num (pool : pool_config_t) (inode stripe : Nat) : Nat :=
  ((inode + stripe / pool.pg_stripe_size) % 2 ^ 64) % pool.real_pg_count + 1

/-- The PG number that `affects_osd` computes for a stripe. -/
def affects_pg_num (pool : pool_config_t) (stripe : Nat) : Nat :=
  (stripe / pool.pg_stripe_size) % pool.real_pg_count + 1

/-- Lines 621 to 636 of `slice_rw`: the loop that hands the next `left` bytes of
the buffers to a part. The result is the pieces added, the cursor and the value
of `left` when the loop ends. -/
def take_iov : List Nat → Nat → Nat → Nat → List (Nat × Nat × Nat) →
    List (Nat × Nat × Nat) × iov_cursor × Nat
  | [], idx, pos, left, acc => (acc, { rest := [], idx := idx, pos := pos }, left)
  | b :: bs, idx, pos, left, acc =>
    if left = 0 then (acc, { rest := b :: bs, idx := idx, pos := pos }, left)
    else if u64_sub b pos < left then
      take_iov bs (idx + 1) 0 (left - u64_sub b pos) (acc ++ [(idx, pos, u64_sub b pos)])
    else (acc ++ [(idx, pos, left)], { rest := b :: bs, idx := idx, pos := pos + left }, 0)

/-- Lines 609 to 638 of `slice_rw`: the part of one stripe, with the cursor after
it, or `none` when the `assert` fails. A negative `left` skips the loop. -/
def slice_part (pool : pool_config_t) (inode offset len pbs stripe : Nat) (cur : iov_cursor) :
    Option (cluster_op_part_t × iov_cursor) :=
  if to_int32 (u64_sub (part_end offset len stripe pbs) (part_begin offset stripe)) ≤ 0 then
    if to_int32 (u64_sub (part_end offset len stripe pbs) (part_begin offset stripe)) = 0 then
      some ({ offset := part_begin offset stripe,
              len := u64_sub (part_end offset len stripe pbs) (part_begin offset stripe) % 2 ^ 32,
              pg_num := slice_pg_num pool inode stripe, flags := 0, iov := [] }, cur)
    else none
  else if (take_iov cur.rest cur.idx cur.pos
      (to_int32 (u64_sub (part_end offset len stripe pbs) (part_begin offset stripe))).toNat
      []).2.2 = 0 then
    some ({ offset := part_begin offset stripe,
            len := u64_sub (part_end offset len stripe pbs) (part_begin offset stripe) % 2 ^ 32,
            pg_num := slice_pg_num pool inode stripe, flags := 0,
            iov := (take_iov cur.rest cur.idx cur.pos
              (to_int32 (u64_sub (part_end offset len stripe pbs)
                (part_begin offset stripe))).toNat []).1 },
      (take_iov cur.rest cur.idx cur.pos
        (to_int32 (u64_sub (part_end offset len stripe pbs) (part_begin offset stripe))).toNat
        []).2.1)
  else none

/-- Lines 607 to 639 of `slice_rw`: the loop over the stripes. The first argument
is the number of elements of `parts` not yet assigned; assigning beyond them is
undefined. The result lists the parts assigned, in order. -/
def slice_loop (pool : pool_config_t) (inode offset len pbs last : Nat) :
    Nat → Nat → iov_cursor → List cluster_op_part_t → slice_outcome (List cluster_op_part_t)
  | 0, stripe, _, acc => if stripe ≤ last then .undefined else .done acc
  | free + 1, stripe, cur, acc =>
    if stripe ≤ last then
      if pool.pg_stripe_size = 0 ∨ pool.real_pg_count = 0 then .undefined
      else
        match slice_part pool inode offset len pbs stripe cur with
        | none => .assert_failed
        | some r =>
          slice_loop pool inode offset len pbs last free ((stripe + pbs) % 2 ^ 64) r.2
            (acc ++ [r.1])
    else .done acc

/-- The vector `parts` after the loop: the parts assigned, then the elements that
`resize` made and no assignment reached. -/
def fill_parts (count : Nat) (assigned : List cluster_op_part_t) :
    List (Option cluster_op_part_t) :=
  assigned.map some ++ List.replicate (count - assigned.length) none

/-- The function `cluster_client_t::slice_rw`: the operation as the call leaves
it. The allocation of `parts` is taken to succeed. -/
def slice_rw (c : client_consts) (s : cluster_client_t) (op : cluster_op_t) :
    slice_outcome cluster_op_t :=
  match s.pool_config.lookup (c.INODE_POOL op.inode) with
  | none => .out_of_range
  | some pool =>
    if pg_block_size c s pool = 0 then .undefined
    else
      match slice_loop pool op.inode op.offset op.len (pg_block_size c s pool)
          (last_stripe op.offset op.len (pg_block_size c s pool))
          (parts_count op.offset op.len (pg_block_size c s pool))
          (first_stripe op.offset (pg_block_size c s pool)) { rest := op.iov } [] with
      | .done assigned =>
        .done { op with
          retval := 0
          parts := fill_parts (parts_count op.offset op.len (pg_block_size c s pool)) assigned }
      | .out_of_range => .out_of_range
      | .assert_failed => .assert_failed
      | .undefined => .undefined

/-- Lines 649 to 658 of `affects_osd`: the loop over the stripes, with the
number of iterations left; the loop runs longer than the range has stripes only
when `stripe` wraps around, and the model then gives `undefined`. -/
def affects_loop (pool : pool_config_t) (osd pbs last : Nat) : Nat → Nat → slice_outcome Bool
  | 0, stripe => if stripe ≤ last then .undefined else .done false
  | fuel + 1, stripe =>
    if stripe ≤ last then
      if pool.pg_stripe_size = 0 ∨ pool.real_pg_count = 0 then .undefined
      else if pool.pg_config.lookup (affects_pg_num pool stripe) = some osd then .done true
      else affects_loop pool osd pbs last fuel ((stripe + pbs) % 2 ^ 64)
    else .done false

/-- The function `cluster_client_t::affects_osd`. -/
def affects_osd (c : client_consts) (s : cluster_client_t) (inode offset len osd : Nat) :
    slice_outcome Bool :=
  match s.pool_config.lookup (c.INODE_POOL inode) with
  | none => .out_of_range
  | some pool =>
    if pg_block_size c s pool = 0 then .undefined
    else
      affects_loop pool osd (pg_block_size c s pool)
        (last_stripe offset len (pg_block_size c s pool))
        (parts_count offset len (pg_block_size c s pool))
        (first_stripe offset (pg_block_size c s pool))

/-- The OSDs that are the current primary of the PG of a part of the operation. -/
def part_primaries (pool : pool_config_t) (op : cluster_op_t) : List Nat :=
  op.parts.filterMap fun p =>
    match p with
    | some part => pool.pg_config.lookup part.pg_num
    | none => none

/-- A client with 128 KiB blocks whose replicated pool has the id 1, with two
PGs whose primaries are OSD 1 and OSD 2: `continue_rw` lets the requests to its
inodes through to `slice_rw`. -/
def sample_pool_client : cluster_client_t :=
  { bs_block_size := 131072,
    pool_config := [(1, { scheme := 1, pg_size := 2, parity_chunks := 0,
                          pg_stripe_size := 131072, real_pg_count := 2,
                          pg_config := [(1, 1), (2, 2)] })] }

end cluster_client_t

namespace cluster_client_t

end cluster_client_t

/-! ## Theorems -/

section impl_admission

open blockstore_impl_t

/-- For reads and writes on a writable engine the admission test is the range test. -/
theorem impl_verification_failed_iff (c : impl_consts) (s : blockstore_impl_t)
    (op : blockstore_op_t) (hc : c.valid) (hw : s.readonly = false)
    (ht : op_type c op = c.BS_OP_READ ∨ op_type c op = c.BS_OP_WRITE) :
    verification_failed c s op ↔ bad_range c s op := by
  obtain ⟨h1, _, _, h4, _, _, _, _, _, _⟩ := hc
  unfold verification_failed bad_range
  constructor
  · rintro (h | h | h | h)
    · rcases ht with ht | ht <;> omega
    · rcases ht with ht | ht <;> omega
    · exact h.2
    · rw [hw] at h; exact absurd h.1 (by decide)
  · intro h
    exact Or.inr (Or.inr (Or.inl ⟨ht, h⟩))

/-- The outcome "rejected" occurs exactly when the admission test fails. -/
theorem impl_rejected_iff (c : impl_consts) (s : blockstore_impl_t) (op : blockstore_op_t) :
    rejected c s op ↔ verification_failed c s op := by
  constructor
  · intro hr
    by_contra hv
    have h1 := hr.1
    unfold enqueue_op at h1
    rw [if_neg hv] at h1
    have h2 := congrArg List.length h1
    by_cases hwr : op_type c { op with private_data :=
        { op.private_data with wait_for := 0, sync_state := 0, pending_ops := 0 } } = c.BS_OP_WRITE
    · simp [hwr, enqueue_write] at h2
    · simp [hwr] at h2
  · intro hv
    unfold rejected enqueue_op
    rw [if_pos hv]
    exact ⟨rfl, rfl, rfl⟩

/-- What an admitted operation leaves behind: it is the last element of the
queue, its `wait_for` is 0, and no callback ran. -/
theorem impl_admitted_effect (c : impl_consts) (s : blockstore_impl_t) (op : blockstore_op_t)
    (hv : ¬ verification_failed c s op) :
    (enqueue_op c s op).1.submit_queue = s.submit_queue ++ [(enqueue_op c s op).2] ∧
    (enqueue_op c s op).2.private_data.wait_for = 0 ∧
    (enqueue_op c s op).1.callbacks = s.callbacks := by
  unfold enqueue_op
  rw [if_neg hv]
  by_cases hwr : op_type c { op with private_data :=
      { op.private_data with wait_for := 0, sync_state := 0, pending_ops := 0 } } = c.BS_OP_WRITE
  · simp [hwr, enqueue_write]
  · simp [hwr]

/-- C2: rejection by `blockstore_impl_t::enqueue_op` is atomic. For an operation
whose type is outside `BS_OP_READ..BS_OP_DELETE`, and for a non-READ operation
on a read-only engine, the callback runs exactly once, with `retval = -EINVAL`,
and `submit_queue`, the dirty index, the clean index and the private wait state
of the operation are as before. -/
theorem impl_enqueue_op_rejection_atomic (c : impl_consts) (s : blockstore_impl_t)
    (op : blockstore_op_t)
    (h : (op_type c op < c.BS_OP_READ ∨ op_type c op > c.BS_OP_DELETE) ∨
      (s.readonly = true ∧ op_type c op ≠ c.BS_OP_READ)) :
    (enqueue_op c s op).1.callbacks = s.callbacks ++ [(enqueue_op c s op).2] ∧
    (enqueue_op c s op).2 = { op with retval := -EINVAL } ∧
    (enqueue_op c s op).1.submit_queue = s.submit_queue ∧
    (enqueue_op c s op).1.dirty_db = s.dirty_db ∧
    (enqueue_op c s op).1.clean_db = s.clean_db ∧
    (enqueue_op c s op).2.private_data = op.private_data := by
  have hv : verification_failed c s op := by
    unfold verification_failed
    rcases h with (h | h) | h
    · exact Or.inl h
    · exact Or.inr (Or.inl h)
    · exact Or.inr (Or.inr (Or.inr h))
  unfold enqueue_op
  rw [if_pos hv]
  exact ⟨rfl, rfl, rfl, rfl, rfl, rfl⟩

/-- Witness for C2: a write handed to a read-only engine. -/
theorem impl_enqueue_op_rejection_atomic_witness :
    ((op_type sample_consts (sample_op 2 0 512) < sample_consts.BS_OP_READ ∨
        op_type sample_consts (sample_op 2 0 512) > sample_consts.BS_OP_DELETE) ∨
      (({ sample_engine with readonly := true } : blockstore_impl_t).readonly = true ∧
        op_type sample_consts (sample_op 2 0 512) ≠ sample_consts.BS_OP_READ)) ∧
    (enqueue_op sample_consts { sample_engine with readonly := true } (sample_op 2 0 512)).2 =
      { sample_op 2 0 512 with retval := -EINVAL } :=
  ⟨by decide,
    (impl_enqueue_op_rejection_atomic sample_consts { sample_engine with readonly := true }
      (sample_op 2 0 512) (by decide)).2.1⟩

end impl_admission

section legacy_admission

open blockstore

/-- The older `enqueue_op` when the admission test fails. -/
theorem legacy_enqueue_op_of_failed (c : legacy_consts) (s : blockstore)
    (op : blockstore_operation) (hv : verification_failed c s op) :
    enqueue_op c s op = some (-EINVAL, s, op) := by
  unfold enqueue_op
  rw [if_pos hv]

/-- The older `enqueue_op` on an admitted operation that is not a write. -/
theorem legacy_enqueue_op_of_not_write (c : legacy_consts) (s : blockstore)
    (op : blockstore_operation) (hv : ¬ verification_failed c s op)
    (ht : op_type c op ≠ c.OP_WRITE) :
    enqueue_op c s op =
      some (0, { s with submit_queue := s.submit_queue ++ [{ op with wait_for := 0 }] },
        { op with wait_for := 0 }) := by
  have ht1 : ¬ op_type c { op with wait_for := 0 } = c.OP_WRITE := ht
  unfold enqueue_op
  rw [if_neg hv]
  simp only [ht1, if_false]

/-- The older `enqueue_op` on an admitted write when `upper_bound` is `begin()`. -/
theorem legacy_enqueue_op_of_write_begin (c : legacy_consts) (s : blockstore)
    (op : blockstore_operation) (hv : ¬ verification_failed c s op)
    (ht : op_type c op = c.OP_WRITE)
    (hub : upper_bound s.dirty_db ⟨op.oid, UINT64_MAX⟩ = 0) :
    enqueue_op c s op = none := by
  have ht1 : op_type c { op with wait_for := 0 } = c.OP_WRITE := ht
  unfold enqueue_op
  rw [if_neg hv]
  simp only [ht1, if_true, hub]

/-- The older `enqueue_op` on an admitted write when `upper_bound` is not `begin()`. -/
theorem legacy_enqueue_op_of_write (c : legacy_consts) (s : blockstore)
    (op : blockstore_operation) (hv : ¬ verification_failed c s op)
    (ht : op_type c op = c.OP_WRITE)
    (hub : upper_bound s.dirty_db ⟨op.oid, UINT64_MAX⟩ ≠ 0) :
    enqueue_op c s op =
      some (0,
        { s with
          submit_queue := s.submit_queue ++ [{ op with wait_for := 0, version := new_version s op }],
          dirty_db := emplace s.dirty_db ⟨op.oid, new_version s op⟩ (new_entry c op) },
        { op with wait_for := 0, version := new_version s op }) := by
  have ht1 : op_type c { op with wait_for := 0 } = c.OP_WRITE := ht
  unfold enqueue_op
  rw [if_neg hv]
  simp only [ht1, if_true, hub, if_false, new_version, new_entry]

/-- The older `enqueue_op` returns `-EINVAL` exactly when its admission test
fails; the state and the operation are then as before. -/
theorem legacy_rejected_iff (c : legacy_consts) (s : blockstore) (op : blockstore_operation) :
    enqueue_op c s op = some (-EINVAL, s, op) ↔ verification_failed c s op := by
  constructor
  · intro h
    by_contra hv
    by_cases ht : op_type c op = c.OP_WRITE
    · by_cases hub : upper_bound s.dirty_db ⟨op.oid, UINT64_MAX⟩ = 0
      · rw [legacy_enqueue_op_of_write_begin c s op hv ht hub] at h
        exact absurd h (by simp)
      · rw [legacy_enqueue_op_of_write c s op hv ht hub] at h
        have h1 := congrArg (fun x => x.map Prod.fst) h
        simp [EINVAL] at h1
    · rw [legacy_enqueue_op_of_not_write c s op hv ht] at h
      have h1 := congrArg (fun x => x.map Prod.fst) h
      simp [EINVAL] at h1
  · exact legacy_enqueue_op_of_failed c s op

/-- C3 (the code at the failing inputs): the older `enqueue_op` rejects every
operation that ends exactly at the end of the block, `offset + len = block_size`,
whatever its type; a full-block operation (`offset = 0`, `len = block_size`) is
one of them. -/
theorem legacy_enqueue_op_rejects_block_end (c : legacy_consts) (s : blockstore)
    (op : blockstore_operation) (h : op.offset + op.len = s.block_size) :
    enqueue_op c s op = some (-EINVAL, s, op) := by
  rw [legacy_rejected_iff]
  unfold verification_failed
  by_cases h1 : op.offset ≥ s.block_size
  · exact Or.inl h1
  · exact Or.inr (Or.inl (by omega))

/-- Witness for C3: a full-block read, `offset = 0` and `len = block_size`. -/
theorem legacy_enqueue_op_rejects_block_end_witness :
    (sample_op 1 0 131072).offset + (sample_op 1 0 131072).len = (sample_engine [] []).block_size ∧
    enqueue_op sample_consts (sample_engine [] []) (sample_op 1 0 131072) =
      some (-EINVAL, sample_engine [] [], sample_op 1 0 131072) :=
  ⟨by decide,
    legacy_enqueue_op_rejects_block_end sample_consts (sample_engine [] [])
      (sample_op 1 0 131072) (by decide)⟩

/-- C4 (counterexample): a read at offset 7, which is not a multiple of the
alignment 512, with `len = 512` in a 128 KiB block, is admitted by both
`enqueue_op` functions. -/
theorem misaligned_offset_admitted :
    (blockstore_impl_t.sample_op 1 7 512).offset % blockstore_impl_t.sample_consts.DISK_ALIGNMENT ≠ 0 ∧
    ¬ blockstore_impl_t.rejected blockstore_impl_t.sample_consts blockstore_impl_t.sample_engine
        (blockstore_impl_t.sample_op 1 7 512) ∧
    (blockstore_impl_t.enqueue_op blockstore_impl_t.sample_consts blockstore_impl_t.sample_engine
        (blockstore_impl_t.sample_op 1 7 512)).1.submit_queue =
      [{ blockstore_impl_t.sample_op 1 7 512 with
          private_data := { wait_for := 0, wait_detail := 0, sync_state := 0, pending_ops := 0 } }] ∧
    enqueue_op sample_consts (sample_engine [] []) (sample_op 1 7 512) =
      some (0, { sample_engine [] [] with submit_queue := [sample_op 1 7 512] },
        sample_op 1 7 512) := by
  refine ⟨by decide, ?_, by decide, by decide⟩
  rw [impl_rejected_iff]
  decide

/-- C4 (amended): `enqueue_op` does not look at the alignment of the offset. A
READ or WRITE operation with `offset + len < block_size` is rejected with
`-EINVAL` exactly when its `len` is not a multiple of the disk alignment, by
`blockstore_impl_t::enqueue_op` on a writable engine and by
`blockstore::enqueue_op` alike. -/
theorem enqueue_op_checks_len_alignment_only (ci : impl_consts) (si : blockstore_impl_t)
    (opi : blockstore_op_t) (cl : legacy_consts) (sl : blockstore) (opl : blockstore_operation)
    (hci : ci.valid) (hcl : cl.valid) (hw : si.readonly = false)
    (hti : blockstore_impl_t.op_type ci opi = ci.BS_OP_READ ∨
      blockstore_impl_t.op_type ci opi = ci.BS_OP_WRITE)
    (htl : op_type cl opl = cl.OP_READ ∨ op_type cl opl = cl.OP_WRITE)
    (hri : opi.offset + opi.len < si.block_size) (hrl : opl.offset + opl.len < sl.block_size) :
    (blockstore_impl_t.rejected ci si opi ↔ opi.len % ci.DISK_ALIGNMENT ≠ 0) ∧
    (enqueue_op cl sl opl = some (-EINVAL, sl, opl) ↔ opl.len % cl.DISK_ALIGNMENT ≠ 0) := by
  constructor
  · rw [impl_rejected_iff, impl_verification_failed_iff ci si opi hci hw hti]
    unfold blockstore_impl_t.bad_range
    constructor
    · rintro (h | h | h)
      · omega
      · omega
      · exact h
    · intro h
      exact Or.inr (Or.inr h)
  · rw [legacy_rejected_iff]
    unfold verification_failed
    obtain ⟨_, h2, _, _, _, h6, _⟩ := hcl
    constructor
    · rintro (h | h | h | h | h)
      · omega
      · omega
      · exact h
      · rcases htl with ht | ht <;> omega
      · rcases htl with ht | ht <;> omega
    · intro h
      exact Or.inr (Or.inr (Or.inl h))

/-- Witness for C4 (amended): reads at the misaligned offset 7 with `len = 512`. -/
theorem enqueue_op_checks_len_alignment_only_witness :
    blockstore_impl_t.sample_consts.valid ∧ sample_consts.valid ∧
    (blockstore_impl_t.sample_op 1 7 512).offset + (blockstore_impl_t.sample_op 1 7 512).len <
      blockstore_impl_t.sample_engine.block_size ∧
    (sample_op 1 7 512).offset + (sample_op 1 7 512).len < (sample_engine [] []).block_size ∧
    ((blockstore_impl_t.rejected blockstore_impl_t.sample_consts blockstore_impl_t.sample_engine
          (blockstore_impl_t.sample_op 1 7 512) ↔
        (blockstore_impl_t.sample_op 1 7 512).len % blockstore_impl_t.sample_consts.DISK_ALIGNMENT ≠ 0) ∧
      (enqueue_op sample_consts (sample_engine [] []) (sample_op 1 7 512) =
          some (-EINVAL, sample_engine [] [], sample_op 1 7 512) ↔
        (sample_op 1 7 512).len % sample_consts.DISK_ALIGNMENT ≠ 0)) :=
  ⟨by decide, by decide, by decide, by decide,
    enqueue_op_checks_len_alignment_only blockstore_impl_t.sample_consts
      blockstore_impl_t.sample_engine (blockstore_impl_t.sample_op 1 7 512) sample_consts
      (sample_engine [] []) (sample_op 1 7 512) (by decide) (by decide) (by decide) (by decide)
      (by decide) (by decide) (by decide)⟩

/-- When no key of the dirty index is at or below `k`, `upper_bound` is `begin()`. -/
theorem upper_bound_eq_zero_of_all_gt (m : dirty_map) (k : obj_ver_id)
    (h : ∀ e ∈ m, k.lt e.1) : upper_bound m k = 0 := by
  cases m with
  | nil => rfl
  | cons e t =>
    unfold upper_bound
    rw [if_pos (h e (List.mem_cons_self e t))]

/-- C5 (the code at the failing inputs): when the dirty index is empty, or holds
only keys above `(op.oid, UINT64_MAX)`, a WRITE that passed the admission test
makes `enqueue_op` decrement the iterator `begin()`: the behaviour is undefined
and no version is assigned. -/
theorem legacy_enqueue_op_write_undefined_at_begin (c : legacy_consts) (s : blockstore)
    (op : blockstore_operation) (hv : ¬ verification_failed c s op)
    (ht : op_type c op = c.OP_WRITE)
    (hd : ∀ e ∈ s.dirty_db, (⟨op.oid, UINT64_MAX⟩ : obj_ver_id).lt e.1) :
    enqueue_op c s op = none := by
  exact legacy_enqueue_op_of_write_begin c s op hv ht
    (upper_bound_eq_zero_of_all_gt s.dirty_db ⟨op.oid, UINT64_MAX⟩ hd)

/-- Witness for C5: the first write to a never-written object, on an engine
whose dirty index is empty. -/
theorem legacy_enqueue_op_write_undefined_at_begin_witness :
    ¬ verification_failed sample_consts (sample_engine [] []) (sample_op 3 0 512) ∧
    (sample_engine [] []).dirty_db = [] ∧
    enqueue_op sample_consts (sample_engine [] []) (sample_op 3 0 512) = none :=
  ⟨by decide, rfl,
    legacy_enqueue_op_write_undefined_at_begin sample_consts (sample_engine [] [])
      (sample_op 3 0 512) (by decide) (by decide) (by decide)⟩

end legacy_admission

section dirty_index_order

/-- The key order is transitive. -/
theorem obj_ver_id.lt_trans {a b c : obj_ver_id} (h1 : a.lt b) (h2 : b.lt c) : a.lt c := by
  rcases a with ⟨⟨ai, as⟩, av⟩
  rcases b with ⟨⟨bi, bs⟩, bv⟩
  rcases c with ⟨⟨ci, cs⟩, cv⟩
  simp only [obj_ver_id.lt, object_id.lt, object_id.mk.injEq] at *
  omega

/-- No key is below itself. -/
theorem obj_ver_id.lt_irrefl (a : obj_ver_id) : ¬ a.lt a := by
  rcases a with ⟨⟨ai, as⟩, av⟩
  simp only [obj_ver_id.lt, object_id.lt, object_id.mk.injEq]
  omega

/-- Any two keys are comparable. -/
theorem obj_ver_id.lt_or_eq_or_gt (a b : obj_ver_id) : a.lt b ∨ a = b ∨ b.lt a := by
  rcases a with ⟨⟨ai, as⟩, av⟩
  rcases b with ⟨⟨bi, bs⟩, bv⟩
  simp only [obj_ver_id.lt, object_id.lt, object_id.mk.injEq, obj_ver_id.mk.injEq]
  omega

/-- An entry of the same object at or below another one has no greater version. -/
theorem obj_ver_id.version_le_of_not_gt {a b : obj_ver_id} (ho : a.oid = b.oid)
    (h : a = b ∨ a.lt b) : a.version ≤ b.version := by
  rcases a with ⟨⟨ai, as⟩, av⟩
  rcases b with ⟨⟨bi, bs⟩, bv⟩
  simp only [obj_ver_id.lt, object_id.lt, object_id.mk.injEq, obj_ver_id.mk.injEq] at *
  omega

/-- A key at or below `(oid, UINT64_MAX)` and at or above a key of `oid` is a key of `oid`. -/
theorem obj_ver_id.oid_eq_of_between {a b : obj_ver_id} {oid : object_id} {v : Nat}
    (ha : a.oid = oid) (hab : a = b ∨ a.lt b) (hb : ¬ (⟨oid, v⟩ : obj_ver_id).lt b) :
    b.oid = oid := by
  rcases a with ⟨⟨ai, as⟩, av⟩
  rcases b with ⟨⟨bi, bs⟩, bv⟩
  rcases oid with ⟨oi, os⟩
  simp only [obj_ver_id.lt, object_id.lt, object_id.mk.injEq, obj_ver_id.mk.injEq] at *
  omega

/-- A key of `oid` with a 64-bit version is not above `(oid, UINT64_MAX)`. -/
theorem obj_ver_id.not_max_lt {a : obj_ver_id} {oid : object_id} (ha : a.oid = oid)
    (hv : a.version ≤ UINT64_MAX) : ¬ (⟨oid, UINT64_MAX⟩ : obj_ver_id).lt a := by
  rcases a with ⟨⟨ai, as⟩, av⟩
  rcases oid with ⟨oi, os⟩
  simp only [obj_ver_id.lt, object_id.lt, object_id.mk.injEq, obj_ver_id.mk.injEq] at *
  omega

/-- In a key-ordered map, the entry before `upper_bound k` is the greatest entry
at or below `k`. -/
theorem upper_bound_pred (m : dirty_map) (k : obj_ver_id) (i : Nat)
    (hs : m.Pairwise (fun a b => a.1.lt b.1)) (hub : upper_bound m k = i + 1) :
    ∃ e, m[i]? = some e ∧ e ∈ m ∧ ¬ k.lt e.1 ∧
      ∀ x ∈ m, ¬ k.lt x.1 → (x.1 = e.1 ∨ x.1.lt e.1) := by
  induction m generalizing i with
  | nil => simp [upper_bound] at hub
  | cons e t ih =>
    unfold upper_bound at hub
    by_cases hk : k.lt e.1
    · rw [if_pos hk] at hub; omega
    · rw [if_neg hk] at hub
      have hub1 : upper_bound t k = i := by omega
      rw [List.pairwise_cons] at hs
      cases i with
      | zero =>
        refine ⟨e, by simp, List.mem_cons_self e t, hk, ?_⟩
        intro x hx hxk
        rcases List.mem_cons.mp hx with rfl | hxt
        · exact Or.inl rfl
        · exfalso
          cases t with
          | nil => simp at hxt
          | cons e2 t2 =>
            unfold upper_bound at hub1
            by_cases hk2 : k.lt e2.1
            · rcases List.mem_cons.mp hxt with rfl | hx2
              · exact hxk hk2
              · have := (List.pairwise_cons.mp hs.2).1 x hx2
                exact hxk (obj_ver_id.lt_trans hk2 this)
            · rw [if_neg hk2] at hub1; omega
      | succ j =>
        obtain ⟨e1, he1, hmem, hle, hall⟩ := ih j hs.2 hub1
        refine ⟨e1, by simpa using he1, List.mem_cons_of_mem e hmem, hle, ?_⟩
        intro x hx hxk
        rcases List.mem_cons.mp hx with rfl | hxt
        · exact Or.inr (hs.1 e1 hmem)
        · exact hall x hxt hxk

/-- In a well-formed dirty index, the entry before `upper_bound (oid, UINT64_MAX)`
is either the entry of `oid` with the greatest version, or an entry of another
object, and then `oid` has no dirty entry at all. -/
theorem upper_bound_pred_oid (m : dirty_map) (oid : object_id) (i : Nat)
    (hwf : dirty_map_wf m) (hub : upper_bound m ⟨oid, UINT64_MAX⟩ = i + 1) :
    ∃ e, m[i]? = some e ∧ e ∈ m ∧
      ((e.1.oid = oid ∧ ∀ x ∈ m, x.1.oid = oid → x.1.version ≤ e.1.version) ∨
       (e.1.oid ≠ oid ∧ ∀ x ∈ m, x.1.oid ≠ oid)) := by
  obtain ⟨e, he, hmem, hle, hall⟩ := upper_bound_pred m ⟨oid, UINT64_MAX⟩ i hwf.1 hub
  refine ⟨e, he, hmem, ?_⟩
  by_cases ho : e.1.oid = oid
  · left
    refine ⟨ho, ?_⟩
    intro x hx hxo
    exact obj_ver_id.version_le_of_not_gt (hxo.trans ho.symm)
      (hall x hx (obj_ver_id.not_max_lt hxo (hwf.2 x hx)))
  · right
    refine ⟨ho, ?_⟩
    intro x hx hxo
    exact ho (obj_ver_id.oid_eq_of_between hxo
      (hall x hx (obj_ver_id.not_max_lt hxo (hwf.2 x hx))) hle)

/-- Every entry of `emplace m k v` is the new pair or an entry of `m`. -/
theorem mem_emplace (m : dirty_map) (k : obj_ver_id) (v : dirty_entry)
    (x : obj_ver_id × dirty_entry) (hx : x ∈ emplace m k v) : x = (k, v) ∨ x ∈ m := by
  induction m with
  | nil => simpa [emplace] using hx
  | cons e t ih =>
    unfold emplace at hx
    by_cases h1 : k.lt e.1
    · rw [if_pos h1] at hx
      simpa using hx
    · rw [if_neg h1] at hx
      by_cases h2 : k = e.1
      · rw [if_pos h2] at hx
        exact Or.inr hx
      · rw [if_neg h2] at hx
        rcases List.mem_cons.mp hx with rfl | hxt
        · exact Or.inr (List.mem_cons_self _ _)
        · rcases ih hxt with h | h
          · exact Or.inl h
          · exact Or.inr (List.mem_cons_of_mem e h)

/-- The `std::map::emplace` operation keeps every entry of the map. -/
theorem subset_emplace (m : dirty_map) (k : obj_ver_id) (v : dirty_entry)
    (x : obj_ver_id × dirty_entry) (hx : x ∈ m) : x ∈ emplace m k v := by
  induction m with
  | nil => simp at hx
  | cons e t ih =>
    unfold emplace
    by_cases h1 : k.lt e.1
    · rw [if_pos h1]
      exact List.mem_cons_of_mem _ hx
    · rw [if_neg h1]
      by_cases h2 : k = e.1
      · rw [if_pos h2]; exact hx
      · rw [if_neg h2]
        rcases List.mem_cons.mp hx with rfl | hxt
        · exact List.mem_cons_self _ _
        · exact List.mem_cons_of_mem e (ih hxt)

/-- When the key is new, `emplace` adds exactly the new pair. -/
theorem emplace_perm (m : dirty_map) (k : obj_ver_id) (v : dirty_entry)
    (hk : ∀ e ∈ m, e.1 ≠ k) : (emplace m k v).Perm ((k, v) :: m) := by
  induction m with
  | nil => simp [emplace]
  | cons e t ih =>
    unfold emplace
    by_cases h1 : k.lt e.1
    · rw [if_pos h1]
    · rw [if_neg h1]
      have h2 : ¬ k = e.1 := fun h => hk e (List.mem_cons_self e t) h.symm
      rw [if_neg h2]
      have := ih (fun x hx => hk x (List.mem_cons_of_mem e hx))
      exact (List.Perm.cons e this).trans (List.Perm.swap _ _ _)

/-- The `std::map::emplace` operation keeps the keys in order. -/
theorem emplace_sorted (m : dirty_map) (k : obj_ver_id) (v : dirty_entry)
    (hs : m.Pairwise (fun a b => a.1.lt b.1)) :
    (emplace m k v).Pairwise (fun a b => a.1.lt b.1) := by
  induction m with
  | nil => simp [emplace]
  | cons e t ih =>
    rw [List.pairwise_cons] at hs
    unfold emplace
    by_cases h1 : k.lt e.1
    · rw [if_pos h1]
      refine List.pairwise_cons.mpr ⟨?_, List.pairwise_cons.mpr hs⟩
      intro x hx
      rcases List.mem_cons.mp hx with rfl | hxt
      · exact h1
      · exact obj_ver_id.lt_trans h1 (hs.1 x hxt)
    · rw [if_neg h1]
      by_cases h2 : k = e.1
      · rw [if_pos h2]; exact List.pairwise_cons.mpr hs
      · rw [if_neg h2]
        refine List.pairwise_cons.mpr ⟨?_, ih hs.2⟩
        intro x hx
        rcases mem_emplace t k v x hx with rfl | hxt
        · rcases obj_ver_id.lt_or_eq_or_gt k e.1 with h | h | h
          · exact absurd h h1
          · exact absurd h h2
          · exact h
        · exact hs.1 x hxt

end dirty_index_order

section legacy_versions

open blockstore

/-- A clean entry found by `clean_find` is an entry of the clean index. -/
theorem clean_find_mem (m : clean_map) (oid : object_id) (ce : clean_entry)
    (h : clean_find m oid = some ce) : ∃ e ∈ m, e.2 = ce := by
  unfold clean_find at h
  rw [Option.map_eq_some'] at h
  obtain ⟨e, he, hce⟩ := h
  exact ⟨e, List.mem_of_find?_eq_some he, hce⟩

/-- The version an admitted write gets, in a well-formed dirty index: one more
than the greatest dirty version of the object, or, when the object has no dirty
entry, the version derived from the clean index. -/
theorem new_version_cases (s : blockstore) (op : blockstore_operation)
    (hwf : dirty_map_wf s.dirty_db)
    (hub : upper_bound s.dirty_db ⟨op.oid, UINT64_MAX⟩ ≠ 0) :
    (∃ e ∈ s.dirty_db, e.1.oid = op.oid ∧
        (∀ x ∈ s.dirty_db, x.1.oid = op.oid → x.1.version ≤ e.1.version) ∧
        new_version s op = (e.1.version + 1) % 2 ^ 64) ∨
    ((∀ x ∈ s.dirty_db, x.1.oid ≠ op.oid) ∧ new_version s op = version_after_clean s op.oid) := by
  obtain ⟨i, hi⟩ := Nat.exists_eq_succ_of_ne_zero hub
  obtain ⟨e, he, hmem, hcase⟩ := upper_bound_pred_oid s.dirty_db op.oid i hwf hi
  have hnv : new_version s op =
      if e.1.oid = op.oid then (e.1.version + 1) % 2 ^ 64 else version_after_clean s op.oid := by
    unfold new_version assign_version
    rw [hi, Nat.succ_sub_one, he]
  rcases hcase with ⟨ho, hmax⟩ | ⟨ho, hnone⟩
  · left
    exact ⟨e, hmem, ho, hmax, by rw [hnv, if_pos ho]⟩
  · right
    exact ⟨hnone, by rw [hnv, if_neg ho]⟩

/-- The version derived from the clean index, when the clean versions are below
the 64-bit maximum: above the clean version, and at most one more than the bound. -/
theorem version_after_clean_bounds (s : blockstore) (oid : object_id) (b : Nat)
    (hb : ∀ e ∈ s.object_db, e.2.version ≤ b) (hov : b < UINT64_MAX) :
    clean_version s.object_db oid < version_after_clean s oid ∧
    version_after_clean s oid ≤ b + 1 := by
  unfold version_after_clean clean_version
  cases hf : clean_find s.object_db oid with
  | none => simp
  | some ce =>
    obtain ⟨e, he, hce⟩ := clean_find_mem s.object_db oid ce hf
    have h1 := hb e he
    rw [hce] at h1
    have h2 : (ce.version + 1) % 2 ^ 64 = ce.version + 1 := by
      apply Nat.mod_eq_of_lt
      unfold UINT64_MAX at hov
      omega
    simp only [h2]
    omega

/-- The invariant on versions, stated per object, is the finite check over the
entries of the dirty index. -/
theorem version_invariant_iff_entries (s : blockstore) :
    version_invariant s ↔ version_invariant_entries s := by
  unfold version_invariant version_invariant_entries
  constructor
  · intro h
    refine ⟨fun e _ => (h e.1.oid).1, fun e he => (h e.1.oid).2 e.1.version ?_⟩
    unfold dirty_versions
    exact List.mem_map.mpr ⟨e, List.mem_filter.mpr ⟨he, by simp⟩, rfl⟩
  · rintro ⟨h1, h2⟩ oid
    constructor
    · by_cases hex : ∃ e ∈ s.dirty_db, e.1.oid = oid
      · obtain ⟨e, he, ho⟩ := hex
        rw [← ho]
        exact h1 e he
      · have : dirty_versions s.dirty_db oid = [] := by
          unfold dirty_versions
          rw [List.map_eq_nil_iff, List.filter_eq_nil_iff]
          intro e he
          simp only [decide_eq_true_eq]
          exact fun ho => hex ⟨e, he, ho⟩
        rw [this]
        exact List.Pairwise.nil
    · intro v hv
      unfold dirty_versions at hv
      obtain ⟨e, he, hev⟩ := List.mem_map.mp hv
      obtain ⟨hem, heo⟩ := List.mem_filter.mp he
      simp only [decide_eq_true_eq] at heo
      rw [← hev, ← heo]
      exact h2 e hem

/-- In a key-ordered dirty index the versions of each object are strictly increasing. -/
theorem dirty_versions_increasing (m : dirty_map) (oid : object_id)
    (hs : m.Pairwise (fun a b => a.1.lt b.1)) :
    (dirty_versions m oid).Pairwise (fun a b => a < b) := by
  unfold dirty_versions
  rw [List.pairwise_map]
  have hf := List.Pairwise.filter (fun e => decide (e.1.oid = oid)) hs
  refine List.Pairwise.imp_of_mem ?_ hf
  intro a b ha hb hab
  have hao := (List.mem_filter.mp ha).2
  have hbo := (List.mem_filter.mp hb).2
  simp only [decide_eq_true_eq] at hao hbo
  rcases a with ⟨⟨⟨ai, as⟩, av⟩, ae⟩
  rcases b with ⟨⟨⟨bi, bs⟩, bv⟩, be⟩
  rcases oid with ⟨oi, os⟩
  simp only [obj_ver_id.lt, object_id.lt, object_id.mk.injEq] at *
  omega

end legacy_versions

section legacy_write_admission

open blockstore

/-- What `enqueue_op` does when it returns 0 for a write: the admission test
passed, `upper_bound` was not `begin()`, and the state and operation are the
ones of the admitted-write branch. -/
theorem legacy_admitted_write_inv (c : legacy_consts) (s s1 : blockstore)
    (op op1 : blockstore_operation) (ret : Int) (ht : op_type c op = c.OP_WRITE)
    (h : enqueue_op c s op = some (ret, s1, op1)) (hret : ret = 0) :
    upper_bound s.dirty_db ⟨op.oid, UINT64_MAX⟩ ≠ 0 ∧
    s1 = { s with
      submit_queue := s.submit_queue ++ [{ op with wait_for := 0, version := new_version s op }],
      dirty_db := emplace s.dirty_db ⟨op.oid, new_version s op⟩ (new_entry c op) } ∧
    op1 = { op with wait_for := 0, version := new_version s op } := by
  by_cases hv : verification_failed c s op
  · rw [legacy_enqueue_op_of_failed c s op hv] at h
    simp only [Option.some.injEq, Prod.mk.injEq] at h
    rw [← h.1] at hret
    simp [EINVAL] at hret
  · by_cases hub : upper_bound s.dirty_db ⟨op.oid, UINT64_MAX⟩ = 0
    · rw [legacy_enqueue_op_of_write_begin c s op hv ht hub] at h
      exact absurd h (by simp)
    · rw [legacy_enqueue_op_of_write c s op hv ht hub] at h
      simp only [Option.some.injEq, Prod.mk.injEq] at h
      exact ⟨hub, h.2.1.symm, h.2.2.symm⟩

/-- The key an admitted write gets is not yet in a well-formed dirty index, as
long as the dirty versions of the object are below the 64-bit maximum. -/
theorem new_version_fresh (s : blockstore) (op : blockstore_operation)
    (hwf : dirty_map_wf s.dirty_db)
    (hub : upper_bound s.dirty_db ⟨op.oid, UINT64_MAX⟩ ≠ 0)
    (hmax : ∀ e ∈ s.dirty_db, e.1.oid = op.oid → e.1.version < UINT64_MAX) :
    ∀ e ∈ s.dirty_db, e.1 ≠ (⟨op.oid, new_version s op⟩ : obj_ver_id) := by
  intro x hx hxk
  have hxo : x.1.oid = op.oid := by rw [hxk]
  have hxv : x.1.version = new_version s op := by rw [hxk]
  rcases new_version_cases s op hwf hub with ⟨e, he, heo, hemax, hnv⟩ | ⟨hnone, _⟩
  · have h1 := hmax e he heo
    have h2 := hemax x hx hxo
    have h3 : (e.1.version + 1) % 2 ^ 64 = e.1.version + 1 := by
      apply Nat.mod_eq_of_lt
      unfold UINT64_MAX at h1
      omega
    rw [hnv, h3] at hxv
    omega
  · exact hnone x hx hxo

end legacy_write_admission

section legacy_write_claims

open blockstore

/-- C6 (counterexample): with dirty versions 0 and 2^64 - 1 of object (1, 0), an
admitted write gets the wrapped version 0, whose key is already present:
`enqueue_op` returns 0 and the dirty index is exactly as before, the entry keyed
`(op.oid, op.version)` being the old one, not in state `IN_FLIGHT`. -/
theorem legacy_enqueue_op_write_adds_no_entry_on_wrap :
    dirty_map_wf [(⟨⟨1, 0⟩, 0⟩, ⟨3, 0, 0, 0, 512⟩), (⟨⟨1, 0⟩, UINT64_MAX⟩, ⟨3, 0, 0, 0, 512⟩)] ∧
    op_type sample_consts (sample_op 3 0 512) = sample_consts.OP_WRITE ∧
    enqueue_op sample_consts
        (sample_engine
          [(⟨⟨1, 0⟩, 0⟩, ⟨3, 0, 0, 0, 512⟩), (⟨⟨1, 0⟩, UINT64_MAX⟩, ⟨3, 0, 0, 0, 512⟩)] [])
        (sample_op 3 0 512) =
      some (0,
        { sample_engine
            [(⟨⟨1, 0⟩, 0⟩, ⟨3, 0, 0, 0, 512⟩), (⟨⟨1, 0⟩, UINT64_MAX⟩, ⟨3, 0, 0, 0, 512⟩)] [] with
          submit_queue := [sample_op 3 0 512] },
        sample_op 3 0 512) := by
  decide

/-- C6 (amended): for a WRITE operation on an object whose dirty versions are all
below 2^64 - 1, `blockstore::enqueue_op` accepts (returns 0) whenever the
admission test passes and `upper_bound` is not `begin()`, and every accepted
call adds exactly one entry to the dirty index: its key `(op.oid, op.version)`
was not present, its state is `IN_FLIGHT`, its offset and size are those of the
operation, every entry present before is still there unchanged, and the clean
index is unchanged. -/
theorem legacy_enqueue_op_write_adds_one_dirty_entry (c : legacy_consts) (s : blockstore)
    (op : blockstore_operation) (hwf : dirty_map_wf s.dirty_db)
    (ht : op_type c op = c.OP_WRITE)
    (hmax : ∀ e ∈ s.dirty_db, e.1.oid = op.oid → e.1.version < UINT64_MAX) :
    (¬ verification_failed c s op → upper_bound s.dirty_db ⟨op.oid, UINT64_MAX⟩ ≠ 0 →
      ∃ s1 op1, enqueue_op c s op = some (0, s1, op1)) ∧
    ∀ s1 op1, enqueue_op c s op = some (0, s1, op1) →
      op1.oid = op.oid ∧
      (∀ e ∈ s.dirty_db, e.1 ≠ (⟨op1.oid, op1.version⟩ : obj_ver_id)) ∧
      s1.dirty_db.Perm
        ((⟨op1.oid, op1.version⟩,
          { state := c.ST_IN_FLIGHT, flags := 0, location := 0, offset := op.offset,
            size := op.len }) :: s.dirty_db) ∧
      s1.object_db = s.object_db := by
  constructor
  · intro hv hub
    exact ⟨_, _, legacy_enqueue_op_of_write c s op hv ht hub⟩
  · intro s1 op1 hacc
    obtain ⟨hub, hs1, hop1⟩ := legacy_admitted_write_inv c s s1 op op1 0 ht hacc rfl
    have hfresh := new_version_fresh s op hwf hub hmax
    subst hs1 hop1
    exact ⟨rfl, hfresh, emplace_perm s.dirty_db _ _ hfresh, rfl⟩

/-- Witness for C6 (amended): a write to object (1, 0), whose latest dirty
version is 4. -/
theorem legacy_enqueue_op_write_adds_one_dirty_entry_witness :
    dirty_map_wf (sample_engine [(⟨⟨1, 0⟩, 4⟩, ⟨3, 0, 0, 0, 512⟩)] []).dirty_db ∧
    enqueue_op sample_consts (sample_engine [(⟨⟨1, 0⟩, 4⟩, ⟨3, 0, 0, 0, 512⟩)] [])
        (sample_op 3 0 512) =
      some (0,
        { sample_engine
            [(⟨⟨1, 0⟩, 4⟩, ⟨3, 0, 0, 0, 512⟩), (⟨⟨1, 0⟩, 5⟩, ⟨1, 0, 0, 0, 512⟩)] [] with
          submit_queue := [{ sample_op 3 0 512 with version := 5 }] },
        { sample_op 3 0 512 with version := 5 }) ∧
    ({ sample_engine
          [(⟨⟨1, 0⟩, 4⟩, ⟨3, 0, 0, 0, 512⟩), (⟨⟨1, 0⟩, 5⟩, ⟨1, 0, 0, 0, 512⟩)] [] with
        submit_queue := [{ sample_op 3 0 512 with version := 5 }] } : blockstore).dirty_db.Perm
      ((⟨⟨1, 0⟩, 5⟩, ⟨1, 0, 0, 0, 512⟩) ::
        (sample_engine [(⟨⟨1, 0⟩, 4⟩, ⟨3, 0, 0, 0, 512⟩)] []).dirty_db) :=
  ⟨by decide, by decide,
    ((legacy_enqueue_op_write_adds_one_dirty_entry sample_consts
      (sample_engine [(⟨⟨1, 0⟩, 4⟩, ⟨3, 0, 0, 0, 512⟩)] []) (sample_op 3 0 512)
      (by decide) (by decide) (by decide)).2 _ _
      (show enqueue_op sample_consts (sample_engine [(⟨⟨1, 0⟩, 4⟩, ⟨3, 0, 0, 0, 512⟩)] [])
          (sample_op 3 0 512) =
        some (0,
          { sample_engine
              [(⟨⟨1, 0⟩, 4⟩, ⟨3, 0, 0, 0, 512⟩), (⟨⟨1, 0⟩, 5⟩, ⟨1, 0, 0, 0, 512⟩)] [] with
            submit_queue := [{ sample_op 3 0 512 with version := 5 }] },
          { sample_op 3 0 512 with version := 5 }) by decide)).2.2.1⟩

end legacy_write_claims

section legacy_invariant

open blockstore

/-- One call of `enqueue_op` that returns: a well-formed dirty index stays
well-formed, every dirty version stays above the clean version of its object,
the versions grow by at most one, no dirty entry disappears, and an admitted
write gets a key that was not present and is present afterwards. -/
theorem legacy_enqueue_op_step (c : legacy_consts) (s s1 : blockstore)
    (op op1 : blockstore_operation) (ret : Int) (b : Nat)
    (hwf : dirty_map_wf s.dirty_db)
    (habove : ∀ e ∈ s.dirty_db, clean_version s.object_db e.1.oid < e.1.version)
    (hb : versions_at_most s b) (hov : b < UINT64_MAX)
    (h : enqueue_op c s op = some (ret, s1, op1)) :
    dirty_map_wf s1.dirty_db ∧
    (∀ e ∈ s1.dirty_db, clean_version s1.object_db e.1.oid < e.1.version) ∧
    versions_at_most s1 (b + 1) ∧
    (∀ e ∈ s.dirty_db, e ∈ s1.dirty_db) ∧
    (ret = 0 → op_type c op1 = c.OP_WRITE →
      (∀ e ∈ s.dirty_db, e.1 ≠ (⟨op1.oid, op1.version⟩ : obj_ver_id)) ∧
      ∃ e ∈ s1.dirty_db, e.1 = (⟨op1.oid, op1.version⟩ : obj_ver_id)) := by
  have hmono : versions_at_most s (b + 1) :=
    ⟨fun e he => Nat.le_succ_of_le (hb.1 e he), fun e he => Nat.le_succ_of_le (hb.2 e he)⟩
  by_cases hv : verification_failed c s op
  · rw [legacy_enqueue_op_of_failed c s op hv] at h
    simp only [Option.some.injEq, Prod.mk.injEq] at h
    obtain ⟨hr, hs, _⟩ := h
    subst hs
    refine ⟨hwf, habove, hmono, fun e he => he, ?_⟩
    intro h0
    rw [← hr] at h0
    simp [EINVAL] at h0
  · by_cases ht : op_type c op = c.OP_WRITE
    · by_cases hub : upper_bound s.dirty_db ⟨op.oid, UINT64_MAX⟩ = 0
      · rw [legacy_enqueue_op_of_write_begin c s op hv ht hub] at h
        exact absurd h (by simp)
      · rw [legacy_enqueue_op_of_write c s op hv ht hub] at h
        simp only [Option.some.injEq, Prod.mk.injEq] at h
        obtain ⟨_, hs, hop⟩ := h
        subst hs hop
        -- the facts about the new version
        have hnew : clean_version s.object_db op.oid < new_version s op ∧
            new_version s op ≤ b + 1 ∧
            ∀ e ∈ s.dirty_db, e.1 ≠ (⟨op.oid, new_version s op⟩ : obj_ver_id) := by
          have hfresh := new_version_fresh s op hwf hub
            (fun e he _ => Nat.lt_of_le_of_lt (hb.1 e he) hov)
          rcases new_version_cases s op hwf hub with ⟨e, he, heo, _, hnv⟩ | ⟨_, hnv⟩
          · have h1 := hb.1 e he
            have h2 := habove e he
            rw [heo] at h2
            have h3 : (e.1.version + 1) % 2 ^ 64 = e.1.version + 1 := by
              apply Nat.mod_eq_of_lt
              unfold UINT64_MAX at hov
              omega
            rw [hnv, h3]
            exact ⟨by omega, by omega, by rw [hnv, h3] at hfresh; exact hfresh⟩
          · have h1 := version_after_clean_bounds s op.oid b hb.2 hov
            rw [hnv]
            exact ⟨h1.1, h1.2, by rw [hnv] at hfresh; exact hfresh⟩
        obtain ⟨hn1, hn2, hn3⟩ := hnew
        have hmem : ∀ x ∈ emplace s.dirty_db ⟨op.oid, new_version s op⟩ (new_entry c op),
            x = ((⟨op.oid, new_version s op⟩ : obj_ver_id), new_entry c op) ∨ x ∈ s.dirty_db :=
          fun x hx => mem_emplace s.dirty_db _ _ x hx
        refine ⟨⟨emplace_sorted s.dirty_db _ _ hwf.1, ?_⟩, ?_, ⟨?_, hmono.2⟩, ?_, ?_⟩
        · intro x hx
          rcases hmem x hx with rfl | hxm
          · exact le_trans hn2 (by omega)
          · exact hwf.2 x hxm
        · intro x hx
          rcases hmem x hx with rfl | hxm
          · exact hn1
          · exact habove x hxm
        · intro x hx
          rcases hmem x hx with rfl | hxm
          · exact hn2
          · exact hmono.1 x hxm
        · intro x hx
          exact subset_emplace s.dirty_db _ _ x hx
        · intro _ _
          refine ⟨hn3, _, (emplace_perm s.dirty_db _ (new_entry c op) hn3).symm.subset
            (List.mem_cons_self _ _), rfl⟩
    · rw [legacy_enqueue_op_of_not_write c s op hv ht] at h
      simp only [Option.some.injEq, Prod.mk.injEq] at h
      obtain ⟨_, hs, hop⟩ := h
      subst hs hop
      refine ⟨hwf, habove, hmono, fun e he => he, ?_⟩
      intro _ hw
      exact absurd hw ht

/-- A sequence of `enqueue_op` calls that all return, started below the 64-bit
maximum by at least the number of calls. -/
theorem legacy_enqueue_ops_steps (c : legacy_consts) (ops : List blockstore_operation) :
    ∀ (s s1 : blockstore) (out : List (Int × blockstore_operation)) (b : Nat),
    dirty_map_wf s.dirty_db →
    (∀ e ∈ s.dirty_db, clean_version s.object_db e.1.oid < e.1.version) →
    versions_at_most s b → b + ops.length ≤ UINT64_MAX →
    enqueue_ops c s ops = some (s1, out) →
    dirty_map_wf s1.dirty_db ∧
    (∀ e ∈ s1.dirty_db, clean_version s1.object_db e.1.oid < e.1.version) ∧
    (∀ k ∈ admitted_writes c out, ∀ e ∈ s.dirty_db, e.1 ≠ k) ∧
    (admitted_writes c out).Nodup := by
  induction ops with
  | nil =>
    intro s s1 out b hwf habove _ _ h
    simp only [enqueue_ops, Option.some.injEq, Prod.mk.injEq] at h
    obtain ⟨hs, ho⟩ := h
    subst hs ho
    exact ⟨hwf, habove, by simp [admitted_writes], by simp [admitted_writes]⟩
  | cons op rest ih =>
    intro s s2 out b hwf habove hb hov h
    simp only [List.length_cons] at hov
    unfold enqueue_ops at h
    cases h1 : enqueue_op c s op with
    | none => rw [h1] at h; exact absurd h (by simp)
    | some r1 =>
      obtain ⟨ret, s1, op1⟩ := r1
      rw [h1] at h
      simp only at h
      cases h2 : enqueue_ops c s1 rest with
      | none => rw [h2] at h; exact absurd h (by simp)
      | some r2 =>
        obtain ⟨s3, out2⟩ := r2
        rw [h2] at h
        simp only [Option.some.injEq, Prod.mk.injEq] at h
        obtain ⟨hs, ho⟩ := h
        subst hs ho
        obtain ⟨hwf1, habove1, hb1, hsub, hw⟩ :=
          legacy_enqueue_op_step c s s1 op op1 ret b hwf habove hb (by omega) h1
        obtain ⟨hwf2, habove2, hfresh2, hnodup2⟩ :=
          ih s1 s3 out2 (b + 1) hwf1 habove1 hb1 (by omega) h2
        have hfresh_s : ∀ k ∈ admitted_writes c out2, ∀ e ∈ s.dirty_db, e.1 ≠ k :=
          fun k hk e he => hfresh2 k hk e (hsub e he)
        by_cases hadm : ret = 0 ∧ op_type c op1 = c.OP_WRITE
        · obtain ⟨hf1, e1, he1, hk1⟩ := hw hadm.1 hadm.2
          have hcons : admitted_writes c ((ret, op1) :: out2) =
              (⟨op1.oid, op1.version⟩ : obj_ver_id) :: admitted_writes c out2 := by
            simp [admitted_writes, List.filter_cons, hadm]
          rw [hcons]
          refine ⟨hwf2, habove2, ?_, List.nodup_cons.mpr ⟨?_, hnodup2⟩⟩
          · intro k hk
            rcases List.mem_cons.mp hk with rfl | hk2
            · exact hf1
            · exact hfresh_s k hk2
          · intro hin
            exact hfresh2 _ hin e1 he1 hk1
        · have hcons : admitted_writes c ((ret, op1) :: out2) = admitted_writes c out2 := by
            simp [admitted_writes, List.filter_cons, hadm]
          rw [hcons]
          exact ⟨hwf2, habove2, hfresh_s, hnodup2⟩

end legacy_invariant

section legacy_invariant_claims

open blockstore

/-- C7 (counterexample): object (1, 0) has clean version 5 and one dirty version,
2^64 - 1, so the invariant holds; an admitted write gets the wrapped version 0,
and afterwards the dirty version 0 is not greater than the clean version 5. -/
theorem legacy_enqueue_op_breaks_version_invariant_on_wrap :
    dirty_map_wf [(⟨⟨1, 0⟩, UINT64_MAX⟩, ⟨3, 0, 0, 0, 512⟩)] ∧
    version_invariant
      (sample_engine [(⟨⟨1, 0⟩, UINT64_MAX⟩, ⟨3, 0, 0, 0, 512⟩)] [(⟨1, 0⟩, ⟨5, 0⟩)]) ∧
    enqueue_op sample_consts
        (sample_engine [(⟨⟨1, 0⟩, UINT64_MAX⟩, ⟨3, 0, 0, 0, 512⟩)] [(⟨1, 0⟩, ⟨5, 0⟩)])
        (sample_op 3 0 512) =
      some (0,
        { sample_engine
            [(⟨⟨1, 0⟩, 0⟩, ⟨1, 0, 0, 0, 512⟩), (⟨⟨1, 0⟩, UINT64_MAX⟩, ⟨3, 0, 0, 0, 512⟩)]
            [(⟨1, 0⟩, ⟨5, 0⟩)] with
          submit_queue := [sample_op 3 0 512] },
        sample_op 3 0 512) ∧
    ¬ version_invariant
      { sample_engine
          [(⟨⟨1, 0⟩, 0⟩, ⟨1, 0, 0, 0, 512⟩), (⟨⟨1, 0⟩, UINT64_MAX⟩, ⟨3, 0, 0, 0, 512⟩)]
          [(⟨1, 0⟩, ⟨5, 0⟩)] with
        submit_queue := [sample_op 3 0 512] } := by
  refine ⟨by decide, ?_, by decide, ?_⟩
  · rw [version_invariant_iff_entries]
    decide
  · rw [version_invariant_iff_entries]
    decide

/-- C7 (amended): the invariant "for every object, the dirty versions are
strictly increasing and all greater than the clean version" is preserved by
every sequence of `blockstore::enqueue_op` calls that return, admitted or
rejected, as long as the versions stay below 2^64 - 1: when every version in the
two indexes is at most `b` and `b` plus the number of calls is at most
2^64 - 1. In such a sequence no two admitted writes get the same
`(oid, version)`. -/
theorem legacy_enqueue_ops_preserve_version_invariant (c : legacy_consts) (s s1 : blockstore)
    (ops : List blockstore_operation) (out : List (Int × blockstore_operation)) (b : Nat)
    (hwf : dirty_map_wf s.dirty_db) (hinv : version_invariant s)
    (hb : versions_at_most s b) (hov : b + ops.length ≤ UINT64_MAX)
    (hrun : enqueue_ops c s ops = some (s1, out)) :
    dirty_map_wf s1.dirty_db ∧ version_invariant s1 ∧ (admitted_writes c out).Nodup := by
  have habove := ((version_invariant_iff_entries s).mp hinv).2
  obtain ⟨hwf1, habove1, _, hnodup⟩ :=
    legacy_enqueue_ops_steps c ops s s1 out b hwf habove hb hov hrun
  refine ⟨hwf1, ?_, hnodup⟩
  rw [version_invariant_iff_entries]
  exact ⟨fun e _ => dirty_versions_increasing s1.dirty_db e.1.oid hwf1.1, habove1⟩

/-- Witness for C7 (amended): two writes and a rejected read on object (1, 0),
whose clean version is 3 and latest dirty version is 4. -/
theorem legacy_enqueue_ops_preserve_version_invariant_witness :
    dirty_map_wf (sample_engine [(⟨⟨1, 0⟩, 4⟩, ⟨3, 0, 0, 0, 512⟩)] [(⟨1, 0⟩, ⟨3, 0⟩)]).dirty_db ∧
    version_invariant (sample_engine [(⟨⟨1, 0⟩, 4⟩, ⟨3, 0, 0, 0, 512⟩)] [(⟨1, 0⟩, ⟨3, 0⟩)]) ∧
    versions_at_most (sample_engine [(⟨⟨1, 0⟩, 4⟩, ⟨3, 0, 0, 0, 512⟩)] [(⟨1, 0⟩, ⟨3, 0⟩)]) 4 ∧
    enqueue_ops sample_consts
        (sample_engine [(⟨⟨1, 0⟩, 4⟩, ⟨3, 0, 0, 0, 512⟩)] [(⟨1, 0⟩, ⟨3, 0⟩)])
        [sample_op 3 0 512, sample_op 1 0 7, sample_op 3 512 512] =
      some
        ({ sample_engine
              [(⟨⟨1, 0⟩, 4⟩, ⟨3, 0, 0, 0, 512⟩), (⟨⟨1, 0⟩, 5⟩, ⟨1, 0, 0, 0, 512⟩),
                (⟨⟨1, 0⟩, 6⟩, ⟨1, 0, 0, 512, 512⟩)]
              [(⟨1, 0⟩, ⟨3, 0⟩)] with
            submit_queue :=
              [{ sample_op 3 0 512 with version := 5 }, { sample_op 3 512 512 with version := 6 }] },
          [(0, { sample_op 3 0 512 with version := 5 }), (-22, sample_op 1 0 7),
            (0, { sample_op 3 512 512 with version := 6 })]) ∧
    (admitted_writes sample_consts
      [(0, { sample_op 3 0 512 with version := 5 }), (-22, sample_op 1 0 7),
        (0, { sample_op 3 512 512 with version := 6 })]).Nodup :=
  ⟨by decide, by rw [version_invariant_iff_entries]; decide, by decide, by decide,
    (legacy_enqueue_ops_preserve_version_invariant sample_consts
      (sample_engine [(⟨⟨1, 0⟩, 4⟩, ⟨3, 0, 0, 0, 512⟩)] [(⟨1, 0⟩, ⟨3, 0⟩)]) _
      [sample_op 3 0 512, sample_op 1 0 7, sample_op 3 512 512] _ 4
      (by decide) (by rw [version_invariant_iff_entries]; decide) (by decide) (by decide)
      (show enqueue_ops sample_consts
          (sample_engine [(⟨⟨1, 0⟩, 4⟩, ⟨3, 0, 0, 0, 512⟩)] [(⟨1, 0⟩, ⟨3, 0⟩)])
          [sample_op 3 0 512, sample_op 1 0 7, sample_op 3 512 512] =
        some
          ({ sample_engine
                [(⟨⟨1, 0⟩, 4⟩, ⟨3, 0, 0, 0, 512⟩), (⟨⟨1, 0⟩, 5⟩, ⟨1, 0, 0, 0, 512⟩),
                  (⟨⟨1, 0⟩, 6⟩, ⟨1, 0, 0, 512, 512⟩)]
                [(⟨1, 0⟩, ⟨3, 0⟩)] with
              submit_queue :=
                [{ sample_op 3 0 512 with version := 5 },
                  { sample_op 3 512 512 with version := 6 }] },
            [(0, { sample_op 3 0 512 with version := 5 }), (-22, sample_op 1 0 7),
              (0, { sample_op 3 512 512 with version := 6 })]) by decide)).2.2⟩

/-- C8 (the code at the failing inputs): an admitted DELETE operation only enters
`submit_queue`. `blockstore::enqueue_op` returns 0 with the dirty index, the
clean index and the version of the operation as they were, and
`blockstore_impl_t::enqueue_op` leaves its dirty index as it was: no dirty entry
is made for the delete. -/
theorem enqueue_op_delete_adds_no_dirty_entry (cl : legacy_consts) (sl : blockstore)
    (opl : blockstore_operation) (ci : impl_consts) (si : blockstore_impl_t)
    (opi : blockstore_op_t) (hcl : cl.valid) (hci : ci.valid)
    (hvl : ¬ verification_failed cl sl opl) (htl : op_type cl opl = cl.OP_DELETE)
    (hvi : ¬ blockstore_impl_t.verification_failed ci si opi)
    (hti : blockstore_impl_t.op_type ci opi = ci.BS_OP_DELETE) :
    enqueue_op cl sl opl =
      some (0, { sl with submit_queue := sl.submit_queue ++ [{ opl with wait_for := 0 }] },
        { opl with wait_for := 0 }) ∧
    (blockstore_impl_t.enqueue_op ci si opi).1.dirty_db = si.dirty_db ∧
    (blockstore_impl_t.enqueue_op ci si opi).1.submit_queue =
      si.submit_queue ++ [(blockstore_impl_t.enqueue_op ci si opi).2] := by
  obtain ⟨_, _, _, _, _, hl6, _⟩ := hcl
  obtain ⟨_, _, _, hi4, _⟩ := hci
  refine ⟨legacy_enqueue_op_of_not_write cl sl opl hvl (by omega), ?_,
    (impl_admitted_effect ci si opi hvi).1⟩
  have hnw : ¬ blockstore_impl_t.op_type ci { opi with private_data :=
      { opi.private_data with wait_for := 0, sync_state := 0, pending_ops := 0 } } =
      ci.BS_OP_WRITE := by
    have : blockstore_impl_t.op_type ci { opi with private_data :=
      { opi.private_data with wait_for := 0, sync_state := 0, pending_ops := 0 } } =
      blockstore_impl_t.op_type ci opi := rfl
    rw [this]
    omega
  unfold blockstore_impl_t.enqueue_op
  rw [if_neg hvi]
  simp [hnw]

/-- Witness for C8: a delete of object (1, 0), which has a clean entry and no
dirty entry; the dirty index is still empty after the call. -/
theorem enqueue_op_delete_adds_no_dirty_entry_witness :
    sample_consts.valid ∧ blockstore_impl_t.sample_consts.valid ∧
    op_type sample_consts (sample_op 6 0 0) = sample_consts.OP_DELETE ∧
    blockstore_impl_t.op_type blockstore_impl_t.sample_consts (blockstore_impl_t.sample_op 5 0 0) =
      blockstore_impl_t.sample_consts.BS_OP_DELETE ∧
    enqueue_op sample_consts (sample_engine [] [(⟨1, 0⟩, ⟨3, 0⟩)]) (sample_op 6 0 0) =
      some (0,
        { sample_engine [] [(⟨1, 0⟩, ⟨3, 0⟩)] with submit_queue := [sample_op 6 0 0] },
        sample_op 6 0 0) :=
  ⟨by decide, by decide, by decide, by decide,
    (enqueue_op_delete_adds_no_dirty_entry sample_consts (sample_engine [] [(⟨1, 0⟩, ⟨3, 0⟩)])
      (sample_op 6 0 0) blockstore_impl_t.sample_consts blockstore_impl_t.sample_engine
      (blockstore_impl_t.sample_op 5 0 0) (by decide) (by decide) (by decide) (by decide)
      (by decide) (by decide)).1⟩

end legacy_invariant_claims

section legacy_read_completion

open blockstore

/-- The last negative result of `x :: t` is the one of `t` if there is one, and
otherwise `x` if it is negative. -/
theorem last_negative_cons (x : Int) (t : List Int) :
    last_negative (x :: t) =
      match last_negative t with
      | some e => some e
      | none => if x < 0 then some x else none := by
  unfold last_negative
  by_cases hx : x < 0
  · rw [List.filter_cons_of_pos (by simpa using hx)]
    cases hf : List.filter (fun x => decide (x < 0)) t with
    | nil => simp [hx]
    | cons y l =>
      rw [List.getLast?_cons_cons]
      obtain ⟨e, he⟩ : ∃ e, (y :: l).getLast? = some e :=
        ⟨_, List.getLast?_eq_getLast _ (List.cons_ne_nil y l)⟩
      rw [he]
  · rw [List.filter_cons_of_neg (by simpa using hx)]
    cases hf : (List.filter (fun x => decide (x < 0)) t).getLast? with
    | none => simp [hx]
    | some e => simp

/-- A read completion that is not the last outstanding one: only the operation
changes. -/
theorem legacy_read_event_pending (c : legacy_consts) (r : init_readers) (s : blockstore)
    (op : blockstore_operation) (res : Int) (h10 : s.initialized = 10)
    (ht : op_type c op = c.OP_READ) (hp : op.pending_ops ≠ 1) :
    handle_event c r s op res =
      .returned (s, { op with pending_ops := op.pending_ops - 1,
                              retval := if res < 0 then res else op.retval }) := by
  have hp1 : ¬ op.pending_ops - 1 = 0 := by omega
  unfold handle_event
  by_cases hres : res < 0 <;> simp [h10, ht, hres, hp1]

/-- The read completion of the last outstanding sub-read: the callback runs. -/
theorem legacy_read_event_last (c : legacy_consts) (r : init_readers) (s : blockstore)
    (op : blockstore_operation) (res : Int) (h10 : s.initialized = 10)
    (ht : op_type c op = c.OP_READ) (hp : op.pending_ops = 1) :
    handle_event c r s op res =
      .returned
        ({ s with
            callbacks := s.callbacks ++ [{ op with pending_ops := 0, retval :=
              if res < 0 then res else if op.retval = 0 then (op.len : Int) else op.retval }],
            in_process_ops := s.in_process_ops.filter (fun a => a ≠ op.addr) },
          { op with pending_ops := 0, retval :=
              if res < 0 then res else if op.retval = 0 then (op.len : Int) else op.retval }) := by
  unfold handle_event
  by_cases hres : res < 0
  · have hne : ¬ res = 0 := by omega
    simp [h10, ht, hres, hp, hne]
  · by_cases h0 : op.retval = 0 <;> simp [h10, ht, hres, hp, h0]

end legacy_read_completion

section legacy_read_claims

open blockstore

/-- Delivering fewer results than there are outstanding sub-reads leaves the
engine state as it is. -/
theorem legacy_deliver_read_before_last (c : legacy_consts) (r : init_readers) (s : blockstore)
    (h10 : s.initialized = 10) (rs : List Int) :
    ∀ op : blockstore_operation, op_type c op = c.OP_READ →
      (rs.length : Int) < op.pending_ops →
      ∃ op1, deliver c r s op rs = .returned (s, op1) := by
  induction rs with
  | nil => intro op _ _; exact ⟨op, rfl⟩
  | cons res rest ih =>
    intro op ht hlt
    simp only [List.length_cons, Nat.cast_add, Nat.cast_one] at hlt
    have hp : op.pending_ops ≠ 1 := by omega
    unfold deliver
    rw [legacy_read_event_pending c r s op res h10 ht hp]
    exact ih _ ht (by simp only; omega)

/-- Delivering as many results as there are outstanding sub-reads: the callback
runs once, at the end, with the last negative result, or with `len` when the
stored `retval` is 0. -/
theorem legacy_deliver_read_all (c : legacy_consts) (r : init_readers) (s : blockstore)
    (h10 : s.initialized = 10) (rs : List Int) :
    ∀ op : blockstore_operation, op_type c op = c.OP_READ → rs ≠ [] →
      op.pending_ops = (rs.length : Int) →
      ∃ s1 op1, deliver c r s op rs = .returned (s1, op1) ∧ s1.callbacks = s.callbacks ++ [op1] ∧
        op1.retval = (match last_negative rs with
          | some e => e
          | none => if op.retval = 0 then (op.len : Int) else op.retval) := by
  induction rs with
  | nil => intro op _ hne; exact absurd rfl hne
  | cons res rest ih =>
    intro op ht _ hp
    simp only [List.length_cons, Nat.cast_add, Nat.cast_one] at hp
    cases rest with
    | nil =>
      simp only [List.length_nil, Nat.cast_zero, zero_add] at hp
      unfold deliver
      rw [legacy_read_event_last c r s op res h10 ht hp]
      refine ⟨_, _, rfl, rfl, ?_⟩
      rw [last_negative_cons]
      by_cases hres : res < 0 <;> simp [last_negative, hres]
    | cons r2 rest2 =>
      have hp1 : op.pending_ops ≠ 1 := by
        simp only [List.length_cons, Nat.cast_add, Nat.cast_one] at hp
        omega
      unfold deliver
      rw [legacy_read_event_pending c r s op res h10 ht hp1]
      obtain ⟨s1, op1, hd, hcb, hrv⟩ := ih
        { op with pending_ops := op.pending_ops - 1,
                  retval := if res < 0 then res else op.retval } ht (by simp)
        (by simp only [List.length_cons, Nat.cast_add, Nat.cast_one] at hp ⊢; omega)
      refine ⟨s1, op1, hd, hcb, ?_⟩
      rw [hrv, last_negative_cons res (r2 :: rest2)]
      cases hl : last_negative (r2 :: rest2) with
      | some e => rfl
      | none =>
        by_cases hres : res < 0
        · have hne : ¬ res = 0 := by omega
          simp [hres, hne]
        · simp [hres]

/-- C9 (counterexample): a read with two outstanding sub-reads whose results
are -5 and then -7 completes with `retval = -7`, the last negative result; the
first negative result in delivery order is -5. -/
theorem legacy_read_completion_reports_last_error :
    deliver sample_consts sample_readers (sample_engine [] [])
        { sample_op 1 0 512 with pending_ops := 2 } [-5, -7] =
      .returned
        ({ sample_engine [] [] with
            callbacks := [{ sample_op 1 0 512 with pending_ops := 0, retval := -7 }] },
          { sample_op 1 0 512 with pending_ops := 0, retval := -7 }) ∧
    first_negative [-5, -7] = some (-5) := by
  decide

/-- C9 (amended): for a READ operation with `n >= 1` outstanding sub-reads (and
`retval` 0, as at submission) and every sequence of `n` completion results,
`blockstore::handle_event` leaves the engine state alone for the first `n - 1`
completions and invokes the callback exactly once, on the `n`-th, with
`retval = op.len` if no result was negative and otherwise with `retval` equal to
the last negative result in delivery order. -/
theorem legacy_read_completion (c : legacy_consts) (r : init_readers) (s : blockstore)
    (op : blockstore_operation) (rs : List Int) (h10 : s.initialized = 10)
    (ht : op_type c op = c.OP_READ) (hn : rs ≠ [])
    (hp : op.pending_ops = (rs.length : Int)) (h0 : op.retval = 0) :
    (∀ k, k < rs.length → ∃ op1, deliver c r s op (rs.take k) = .returned (s, op1)) ∧
    ∃ s1 op1, deliver c r s op rs = .returned (s1, op1) ∧
      s1.callbacks = s.callbacks ++ [op1] ∧
      op1.retval = (match last_negative rs with
        | some e => e
        | none => (op.len : Int)) := by
  constructor
  · intro k hk
    apply legacy_deliver_read_before_last c r s h10 (rs.take k) op ht
    rw [hp, List.length_take]
    have : min k rs.length = k := by omega
    rw [this]
    exact_mod_cast hk
  · obtain ⟨s1, op1, hd, hcb, hrv⟩ := legacy_deliver_read_all c r s h10 rs op ht hn hp
    refine ⟨s1, op1, hd, hcb, ?_⟩
    rw [hrv, h0]
    simp

/-- Witness for C9 (amended): three sub-reads with results 512, -5 and -7. -/
theorem legacy_read_completion_witness :
    (sample_engine [] []).initialized = 10 ∧
    ({ sample_op 1 0 512 with pending_ops := 3 } : blockstore_operation).pending_ops =
      (([512, -5, -7] : List Int).length : Int) ∧
    ∃ s1 op1, deliver sample_consts sample_readers (sample_engine [] [])
        { sample_op 1 0 512 with pending_ops := 3 } [512, -5, -7] = .returned (s1, op1) ∧
      s1.callbacks = (sample_engine [] []).callbacks ++ [op1] ∧
      op1.retval = (match last_negative [512, -5, -7] with
        | some e => e
        | none => ((sample_op 1 0 512).len : Int)) :=
  ⟨by decide, by decide,
    (legacy_read_completion sample_consts sample_readers (sample_engine [] [])
      { sample_op 1 0 512 with pending_ops := 3 } [512, -5, -7] (by decide) (by decide)
      (by decide) (by decide) (by decide)).2⟩

end legacy_read_claims

section legacy_write_completion

open blockstore

/-- The lookup `dirty_find` on a non-empty map. -/
theorem dirty_find_cons (x : obj_ver_id × dirty_entry) (t : dirty_map) (k : obj_ver_id) :
    dirty_find (x :: t) k = if x.1 = k then some x.2 else dirty_find t k := by
  unfold dirty_find
  by_cases hx : x.1 = k
  · simp [List.find?_cons, hx]
  · simp [List.find?_cons, hx]

/-- The assignment `set_state` on a non-empty map. -/
theorem set_state_cons (x : obj_ver_id × dirty_entry) (t : dirty_map) (k : obj_ver_id)
    (st : Nat) :
    set_state (x :: t) k st =
      (if x.1 = k then (x.1, { x.2 with state := st }) else x) :: set_state t k st := rfl

/-- The lookup of the key whose state `set_state` assigned. -/
theorem dirty_find_set_state_self (m : dirty_map) (k : obj_ver_id) (st : Nat) (e : dirty_entry)
    (h : dirty_find m k = some e) :
    dirty_find (set_state m k st) k = some { e with state := st } := by
  induction m with
  | nil => simp [dirty_find] at h
  | cons x t ih =>
    rw [dirty_find_cons] at h
    rw [set_state_cons, dirty_find_cons]
    by_cases hx : x.1 = k
    · rw [if_pos hx] at h
      simp only [Option.some.injEq] at h
      rw [if_pos hx, if_pos hx, h]
    · rw [if_neg hx] at h
      rw [if_neg hx, if_neg hx]
      exact ih h

/-- The lookup of any other key is not affected by `set_state`. -/
theorem dirty_find_set_state_other (m : dirty_map) (k k1 : obj_ver_id) (st : Nat)
    (hk : k1 ≠ k) : dirty_find (set_state m k st) k1 = dirty_find m k1 := by
  induction m with
  | nil => rfl
  | cons x t ih =>
    rw [set_state_cons, dirty_find_cons, dirty_find_cons, ih]
    by_cases hx : x.1 = k
    · have hx1 : ¬ x.1 = k1 := fun h => hk (h.symm.trans hx)
      rw [if_pos hx, if_neg hx1, if_neg hx1]
    · rw [if_neg hx]

/-- The release of the journal sector buffer, for a sector index inside
`journal.sector_info`: it touches only the usage counts and the sector field of
the operation. -/
theorem release_sector_some (s : blockstore) (op : blockstore_operation)
    (hsec : op.used_journal_sector ≤ s.sector_usage.length) :
    ∃ s1 op1, release_sector s op = some (s1, op1) ∧
      s1.dirty_db = s.dirty_db ∧ s1.callbacks = s.callbacks ∧
      s1.unsynced_writes = s.unsynced_writes ∧ s1.in_process_ops = s.in_process_ops ∧
      op1.oid = op.oid ∧ op1.version = op.version ∧ op1.len = op.len ∧
      op1.pending_ops = op.pending_ops ∧ op1.addr = op.addr := by
  unfold release_sector
  by_cases hu : op.used_journal_sector > 0
  · rw [if_pos hu]
    have hlt : op.used_journal_sector - 1 < s.sector_usage.length := by omega
    rw [List.getElem?_eq_getElem hlt]
    by_cases hc : s.sector_usage[op.used_journal_sector - 1] > 0
    · simp only [hc, if_true]
      exact ⟨_, _, rfl, rfl, rfl, rfl, rfl, rfl, rfl, rfl, rfl, rfl⟩
    · simp only [hc, if_false]
      exact ⟨_, _, rfl, rfl, rfl, rfl, rfl, rfl, rfl, rfl, rfl, rfl⟩
  · rw [if_neg hu]
    exact ⟨s, op, rfl, rfl, rfl, rfl, rfl, rfl, rfl, rfl, rfl, rfl⟩

end legacy_write_completion

section legacy_write_completion_claims

open blockstore

/-- The write branch of `handle_event`, for a non-negative result on a started
engine. -/
theorem legacy_write_event (c : legacy_consts) (r : init_readers) (s : blockstore)
    (op : blockstore_operation) (res : Int) (hc : c.valid) (h10 : s.initialized = 10)
    (ht : op_type c op = c.OP_WRITE ∨ op_type c op = c.OP_DELETE) (hres : 0 ≤ res) :
    handle_event c r s op res =
      match release_sector s { op with pending_ops := op.pending_ops - 1 } with
      | none => .undefined
      | some (s1, op2) =>
        if op2.pending_ops = 0 then
          match dirty_find s1.dirty_db ⟨op2.oid, op2.version⟩ with
          | none => .undefined
          | some e =>
            .returned ({ s1 with
                dirty_db := set_state s1.dirty_db ⟨op2.oid, op2.version⟩ (written_state c e.state),
                callbacks := s1.callbacks ++ [{ op2 with retval := (op2.len : Int) }],
                in_process_ops := s1.in_process_ops.filter (fun a => a ≠ op2.addr),
                unsynced_writes := s1.unsynced_writes ++ [⟨op2.oid, op2.version⟩] },
              { op2 with retval := (op2.len : Int) })
        else
          .returned (s1, op2) := by
  obtain ⟨h1, h2, _, _, h5, h6, _, _, h9, _⟩ := hc
  have hnr : ¬ (op_type c op = c.OP_READ_DIRTY ∨ op_type c op = c.OP_READ) := by
    rcases ht with ht | ht <;> omega
  have hres1 : ¬ res < 0 := by omega
  unfold handle_event
  simp only [h10, ne_eq, not_true_eq_false, if_false, hnr, ht, if_true, hres1]

/-- C10: write completion in `blockstore::handle_event`, on a started engine, for
a WRITE or DELETE operation and a non-negative result (the journal sector of
the operation, if any, lying inside `journal.sector_info`). When the completion
is the last outstanding one, the dirty entry of the operation goes to the
written state matching its state (`J_SUBMITTED` to `J_WRITTEN`, `DEL_SUBMITTED`
to `DEL_WRITTEN`, otherwise `D_WRITTEN`) while every other dirty entry stays as
it is, the callback runs once with `retval = op.len`, and `(op.oid, op.version)`
is appended to the unsynced writes. A completion that leaves `pending_ops`
non-zero changes neither the dirty index nor the unsynced writes and runs no
callback. -/
theorem legacy_write_completion (c : legacy_consts) (r : init_readers) (s : blockstore)
    (op : blockstore_operation) (res : Int) (hc : c.valid) (h10 : s.initialized = 10)
    (ht : op_type c op = c.OP_WRITE ∨ op_type c op = c.OP_DELETE) (hres : 0 ≤ res)
    (hsec : op.used_journal_sector ≤ s.sector_usage.length) :
    (∀ e, dirty_find s.dirty_db ⟨op.oid, op.version⟩ = some e → op.pending_ops = 1 →
      ∃ s1 op1, handle_event c r s op res = .returned (s1, op1) ∧
        dirty_find s1.dirty_db ⟨op.oid, op.version⟩ =
          some { e with state := written_state c e.state } ∧
        (∀ k, k ≠ (⟨op.oid, op.version⟩ : obj_ver_id) →
          dirty_find s1.dirty_db k = dirty_find s.dirty_db k) ∧
        s1.callbacks = s.callbacks ++ [op1] ∧ op1.retval = (op.len : Int) ∧
        s1.unsynced_writes = s.unsynced_writes ++ [⟨op.oid, op.version⟩]) ∧
    (op.pending_ops ≠ 1 →
      ∃ s1 op1, handle_event c r s op res = .returned (s1, op1) ∧
        s1.dirty_db = s.dirty_db ∧ s1.unsynced_writes = s.unsynced_writes ∧
        s1.callbacks = s.callbacks) ∧
    (written_state c c.ST_J_SUBMITTED = c.ST_J_WRITTEN ∧
      written_state c c.ST_DEL_SUBMITTED = c.ST_DEL_WRITTEN ∧
      ∀ st, st ≠ c.ST_J_SUBMITTED → st ≠ c.ST_DEL_SUBMITTED →
        written_state c st = c.ST_D_WRITTEN) := by
  have hev := legacy_write_event c r s op res hc h10 ht hres
  obtain ⟨s1, op2, hrel, hd, hcb, hun, _, ho, hver, hlen, hpend, _⟩ :=
    release_sector_some s { op with pending_ops := op.pending_ops - 1 } hsec
  rw [hrel] at hev
  simp only at hev ho hver hlen hpend
  refine ⟨?_, ?_, ?_⟩
  · intro e hfind hp
    have hp0 : op2.pending_ops = 0 := by rw [hpend, hp]; rfl
    rw [if_pos hp0, ho, hver, hd, hfind] at hev
    simp only at hev
    refine ⟨_, _, hev, ?_, ?_, ?_, ?_, ?_⟩
    · exact dirty_find_set_state_self s.dirty_db _ _ e hfind
    · intro k hk
      exact dirty_find_set_state_other s.dirty_db _ k _ hk
    · simp only [hcb]
    · simp only [hlen]
    · simp only [hun]
  · intro hp
    have hp0 : ¬ op2.pending_ops = 0 := by rw [hpend]; omega
    rw [if_neg hp0] at hev
    exact ⟨s1, op2, hev, hd, hun, hcb⟩
  · obtain ⟨_, _, _, _, _, _, _, _, _, _, _, _, _, _, hst, _⟩ := hc
    refine ⟨by simp [written_state], ?_, ?_⟩
    · unfold written_state
      rw [if_neg (Ne.symm hst), if_pos rfl]
    · intro st h1 h2
      unfold written_state
      rw [if_neg h1, if_neg h2]

/-- Witness for C10: the only outstanding submission of a write with version 5,
whose dirty entry is in state `J_SUBMITTED`, completes with result 512. -/
theorem legacy_write_completion_witness :
    sample_consts.valid ∧
    (sample_engine [(⟨⟨1, 0⟩, 5⟩, ⟨2, 0, 0, 0, 512⟩)] []).initialized = 10 ∧
    dirty_find (sample_engine [(⟨⟨1, 0⟩, 5⟩, ⟨2, 0, 0, 0, 512⟩)] []).dirty_db ⟨⟨1, 0⟩, 5⟩ =
      some ⟨2, 0, 0, 0, 512⟩ ∧
    ∃ s1 op1, handle_event sample_consts sample_readers
        (sample_engine [(⟨⟨1, 0⟩, 5⟩, ⟨2, 0, 0, 0, 512⟩)] [])
        { sample_op 3 0 512 with version := 5, pending_ops := 1, used_journal_sector := 1 }
        512 = .returned (s1, op1) ∧
      dirty_find s1.dirty_db ⟨⟨1, 0⟩, 5⟩ = some ⟨3, 0, 0, 0, 512⟩ ∧
      s1.unsynced_writes = [⟨⟨1, 0⟩, 5⟩] ∧ op1.retval = 512 :=
  ⟨by decide, by decide, by decide,
    by
      obtain ⟨s1, op1, h1, h2, _, _, h5, h6⟩ :=
        (legacy_write_completion sample_consts sample_readers
          (sample_engine [(⟨⟨1, 0⟩, 5⟩, ⟨2, 0, 0, 0, 512⟩)] [])
          { sample_op 3 0 512 with version := 5, pending_ops := 1, used_journal_sector := 1 }
          512 (by decide) (by decide) (by decide) (by decide) (by decide)).1
          ⟨2, 0, 0, 0, 512⟩ (by decide) (by decide)
      exact ⟨s1, op1, h1, h2, h6, h5⟩⟩

end legacy_write_completion_claims

section legacy_version_assignment

open blockstore

/-- The version assignment where the iterator decrement is defined: in a
well-formed dirty index whose versions of the object exceed its clean version,
an admitted write gets `max(latest dirty, clean) + 1` in 64-bit arithmetic, the
latest dirty version being that of the greatest dirty entry of the object, or 0
when it has none, and the clean version being 0 when it has no clean entry. -/
theorem legacy_new_version_eq_max_succ (s : blockstore) (op : blockstore_operation)
    (hwf : dirty_map_wf s.dirty_db)
    (hub : upper_bound s.dirty_db ⟨op.oid, UINT64_MAX⟩ ≠ 0)
    (habove : ∀ e ∈ s.dirty_db, e.1.oid = op.oid →
      clean_version s.object_db op.oid < e.1.version) :
    (∃ e ∈ s.dirty_db, e.1.oid = op.oid ∧
        (∀ x ∈ s.dirty_db, x.1.oid = op.oid → x.1.version ≤ e.1.version) ∧
        new_version s op =
          (max e.1.version (clean_version s.object_db op.oid) + 1) % 2 ^ 64) ∨
    ((∀ x ∈ s.dirty_db, x.1.oid ≠ op.oid) ∧
      new_version s op = (max 0 (clean_version s.object_db op.oid) + 1) % 2 ^ 64) := by
  rcases new_version_cases s op hwf hub with ⟨e, he, heo, hemax, hnv⟩ | ⟨hnone, hnv⟩
  · left
    refine ⟨e, he, heo, hemax, ?_⟩
    have h1 := habove e he heo
    rw [hnv, max_eq_left (le_of_lt h1)]
  · right
    refine ⟨hnone, ?_⟩
    rw [hnv]
    unfold version_after_clean clean_version
    cases clean_find s.object_db op.oid with
    | none => simp
    | some ce => simp

end legacy_version_assignment

section legacy_write_error

open blockstore

/-- C11: a device write error is fatal. On a started engine, for a WRITE or
DELETE operation, a completion with a negative result makes
`blockstore::handle_event` throw; at the throw the engine state is exactly as
before the call (no callback ran, the dirty index, so the state of the dirty
entry of the operation, and the unsynced writes are unchanged), and of the
operation only `pending_ops` has changed. -/
theorem legacy_write_error_is_fatal (c : legacy_consts) (r : init_readers) (s : blockstore)
    (op : blockstore_operation) (res : Int) (hc : c.valid) (h10 : s.initialized = 10)
    (ht : op_type c op = c.OP_WRITE ∨ op_type c op = c.OP_DELETE) (hres : res < 0) :
    handle_event c r s op res = .thrown (s, { op with pending_ops := op.pending_ops - 1 }) := by
  obtain ⟨h1, h2, _, _, h5, h6, _, _, h9, _⟩ := hc
  have hnr : ¬ (op_type c op = c.OP_READ_DIRTY ∨ op_type c op = c.OP_READ) := by
    rcases ht with ht | ht <;> omega
  unfold handle_event
  simp only [h10, ne_eq, not_true_eq_false, if_false, hnr, ht, if_true, hres]

/-- Witness for C11: the write with version 5 of the sample engine completes
with result -5. -/
theorem legacy_write_error_is_fatal_witness :
    sample_consts.valid ∧
    handle_event sample_consts sample_readers
        (sample_engine [(⟨⟨1, 0⟩, 5⟩, ⟨2, 0, 0, 0, 512⟩)] [])
        { sample_op 3 0 512 with version := 5, pending_ops := 1 } (-5) =
      .thrown (sample_engine [(⟨⟨1, 0⟩, 5⟩, ⟨2, 0, 0, 0, 512⟩)] [],
        { sample_op 3 0 512 with version := 5, pending_ops := 0 }) :=
  ⟨by decide,
    legacy_write_error_is_fatal sample_consts sample_readers
      (sample_engine [(⟨⟨1, 0⟩, 5⟩, ⟨2, 0, 0, 0, 512⟩)] [])
      { sample_op 3 0 512 with version := 5, pending_ops := 1 } (-5)
      (by decide) (by decide) (by decide) (by decide)⟩

end legacy_write_error

section parse_config_block_size

open blockstore_impl_t

/-- The loop of `is_power_of_two` on a positive value that the remaining
iterations can consume: it counts the exponent of a power of two and returns 64
for any other value. -/
theorem is_power_of_two_loop_spec (fuel : Nat) :
    ∀ v l : Nat, 0 < v → v < 2 ^ fuel → l + fuel ≤ 64 →
      (∃ k, v = 2 ^ k ∧ is_power_of_two_loop fuel v l = l + k ∧ l + k < 64) ∨
      ((∀ k, v ≠ 2 ^ k) ∧ is_power_of_two_loop fuel v l = 64) := by
  induction fuel with
  | zero => intro v l hv hf _; simp at hf; omega
  | succ n ih =>
    intro v l hv hf hl
    unfold is_power_of_two_loop
    by_cases h1 : v > 1
    · rw [if_pos h1]
      have hand : v &&& 1 = v % 2 := Nat.and_one_is_mod v
      have hshift : v >>> 1 = v / 2 := by rw [Nat.shiftRight_eq_div_pow]
      by_cases hodd : v % 2 = 0
      · rw [hand, hshift]
        simp only [hodd, ne_eq, not_true_eq_false, if_false]
        have hv2 : 0 < v / 2 := by omega
        have hf2 : v / 2 < 2 ^ n := by
          rw [pow_succ] at hf
          omega
        rcases ih (v / 2) (l + 1) hv2 hf2 (by omega) with ⟨k, hk, hr, hlt⟩ | ⟨hnp, hr⟩
        · left
          refine ⟨k + 1, ?_, by rw [hr]; omega, by omega⟩
          rw [pow_succ]
          omega
        · right
          refine ⟨?_, hr⟩
          intro k hk
          cases k with
          | zero => simp at hk; omega
          | succ k =>
            apply hnp k
            rw [hk, pow_succ]
            simp
      · right
        rw [hand]
        simp only [hodd, ne_eq, not_false_eq_true, if_true, and_true]
        intro k hk
        cases k with
        | zero => simp at hk; omega
        | succ k =>
          rw [hk, pow_succ] at hodd
          omega
    · rw [if_neg h1]
      left
      exact ⟨0, by simp; omega, by simp, by omega⟩

/-- The function `is_power_of_two` on a positive 64-bit value: below 64 exactly
for the powers of two, and then the exponent. -/
theorem is_power_of_two_spec (v : Nat) (hv : 0 < v) (h64 : v < 2 ^ 64) :
    (∃ k, v = 2 ^ k ∧ is_power_of_two v = k ∧ k < 64) ∨
    ((∀ k, v ≠ 2 ^ k) ∧ is_power_of_two v = 64) := by
  unfold is_power_of_two
  rcases is_power_of_two_loop_spec 64 v 0 hv h64 (by omega) with ⟨k, hk, hr, hlt⟩ | h
  · left
    exact ⟨k, hk, by rw [hr]; omega, by omega⟩
  · right
    exact h

end parse_config_block_size

section parse_config_stages

open blockstore_impl_t

/-- A sequence of two steps returns exactly when both steps return. -/
theorem andThen_eq_ok {α β : Type} (r : config_result α) (f : α → config_result β) (b : β) :
    config_result.andThen r f = .ok b ↔ ∃ a, r = .ok a ∧ f a = .ok b := by
  cases r with
  | ok a => simp [config_result.andThen]
  | error m => simp [config_result.andThen]
  | undefined => simp [config_result.andThen]

/-- The steps of a `parse_config` call that returned. -/
theorem parse_config_ok_stages (c : open_consts) (s0 s : impl_layout)
    (cfg : blockstore_config_t) (h : parse_config c s0 cfg = .ok s) :
    ∃ s1 s2 s3 s4 s5,
      validate_block_size c (parse_options c s0 cfg) = .ok s1 ∧
      validate_alignments c (default_flusher_counts s1) = .ok s2 ∧
      validate_granularity c s2 = .ok s3 ∧
      validate_offsets (normalize_devices s3) = .ok s4 ∧
      validate_immediate_commit c (inherit_fsync s4) = .ok s5 ∧
      s = init_fields c s5 := by
  unfold parse_config at h
  obtain ⟨s1, h1, h⟩ := (andThen_eq_ok _ _ _).mp h
  obtain ⟨s2, h2, h⟩ := (andThen_eq_ok _ _ _).mp h
  obtain ⟨s3, h3, h⟩ := (andThen_eq_ok _ _ _).mp h
  obtain ⟨s4, h4, h⟩ := (andThen_eq_ok _ _ _).mp h
  obtain ⟨s5, h5, h⟩ := (andThen_eq_ok _ _ _).mp h
  simp only [config_result.ok.injEq] at h
  exact ⟨s1, s2, s3, s4, s5, h1, h2, h3, h4, h5, h.symm⟩

/-- A test that throws when it holds returned: it did not hold. -/
theorem ite_error_eq_ok {α : Type} {p : Prop} [Decidable p] {m : String}
    {r : config_result α} {b : α}
    (h : (if p then config_result.error m else r) = .ok b) : ¬ p ∧ r = .ok b := by
  by_cases hp : p
  · rw [if_pos hp] at h; exact absurd h (by simp)
  · rw [if_neg hp] at h; exact ⟨hp, h⟩

/-- What a returning `validate_block_size` leaves. -/
theorem validate_block_size_ok (c : open_consts) (s s1 : impl_layout)
    (h : validate_block_size c s = .ok s1) :
    s1 = { s with
      block_size := if s.block_size = 0 then 2 ^ c.DEFAULT_ORDER else s.block_size
      block_order :=
        is_power_of_two (if s.block_size = 0 then 2 ^ c.DEFAULT_ORDER else s.block_size) } ∧
    s1.block_order < 64 ∧ c.MIN_BLOCK_SIZE ≤ s1.block_size ∧ s1.block_size < c.MAX_BLOCK_SIZE := by
  unfold validate_block_size at h
  simp only at h
  obtain ⟨hbad, h⟩ := ite_error_eq_ok h
  simp only [config_result.ok.injEq] at h
  subst h
  simp only [not_or, not_le, not_lt] at hbad
  exact ⟨rfl, hbad.1, hbad.2.1, hbad.2.2⟩

/-- What a returning `validate_alignments` leaves. -/
theorem validate_alignments_ok (c : open_consts) (s s1 : impl_layout)
    (h : validate_alignments c s = .ok s1) :
    s1 = { s with
      disk_alignment := if s.disk_alignment = 0 then 4096 else s.disk_alignment
      journal_block_size := if s.journal_block_size = 0 then 4096 else s.journal_block_size
      meta_block_size := if s.meta_block_size = 0 then 4096 else s.meta_block_size } ∧
    (s.disk_alignment ≠ 0 → s.disk_alignment % c.MEM_ALIGNMENT = 0) ∧
    (s.journal_block_size ≠ 0 → s.journal_block_size % c.MEM_ALIGNMENT = 0) ∧
    (s.meta_block_size ≠ 0 → s.meta_block_size % c.MEM_ALIGNMENT = 0) := by
  unfold validate_alignments at h
  obtain ⟨h1, h⟩ := ite_error_eq_ok h
  obtain ⟨h2, h⟩ := ite_error_eq_ok h
  obtain ⟨h3, h⟩ := ite_error_eq_ok h
  simp only [config_result.ok.injEq] at h
  subst h
  refine ⟨rfl, ?_, ?_, ?_⟩
  · intro hne; by_contra hm; exact h1 ⟨hne, hm⟩
  · intro hne; by_contra hm; exact h2 ⟨hne, hm⟩
  · intro hne; by_contra hm; exact h3 ⟨hne, hm⟩

/-- What a returning `validate_granularity` leaves. -/
theorem validate_granularity_ok (c : open_consts) (s s1 : impl_layout)
    (h : validate_granularity c s = .ok s1) :
    s1 = { s with bitmap_granularity :=
      if s.bitmap_granularity = 0 then c.DEFAULT_BITMAP_GRANULARITY else s.bitmap_granularity } ∧
    s.data_offset % s.disk_alignment = 0 ∧
    (s.bitmap_granularity ≠ 0 → s.bitmap_granularity % s.disk_alignment = 0) ∧
    s1.block_size % s1.bitmap_granularity = 0 := by
  unfold validate_granularity at h
  simp only at h
  obtain ⟨h1, h⟩ := ite_error_eq_ok h
  obtain ⟨h2, h⟩ := ite_error_eq_ok h
  obtain ⟨h3, h⟩ := ite_error_eq_ok h
  simp only [config_result.ok.injEq] at h
  subst h
  refine ⟨rfl, by simpa using h1, ?_, by simpa using h3⟩
  intro hne; by_contra hm; exact h2 ⟨hne, hm⟩

/-- A returning `validate_offsets` leaves its argument as it is. -/
theorem validate_offsets_ok (s s1 : impl_layout) (h : validate_offsets s = .ok s1) :
    s1 = s ∧ s.meta_offset % s.meta_block_size = 0 ∧
    s.journal.offset % s.journal_block_size = 0 := by
  unfold validate_offsets at h
  obtain ⟨h1, h⟩ := ite_error_eq_ok h
  obtain ⟨h2, h⟩ := ite_error_eq_ok h
  simp only [config_result.ok.injEq] at h
  exact ⟨h.symm, by simpa using h1, by simpa using h2⟩

/-- A returning `validate_immediate_commit` leaves its argument as it is, and
the fsync flags that the commit mode requires are set. -/
theorem validate_immediate_commit_ok (c : open_consts) (s s1 : impl_layout)
    (h : validate_immediate_commit c s = .ok s1) :
    s1 = s ∧ (s.immediate_commit ≠ c.IMMEDIATE_NONE → s.disable_journal_fsync = true) ∧
    (s.immediate_commit = c.IMMEDIATE_ALL → s.disable_data_fsync = true) := by
  unfold validate_immediate_commit at h
  obtain ⟨h1, h⟩ := ite_error_eq_ok h
  obtain ⟨h2, h⟩ := ite_error_eq_ok h
  simp only [config_result.ok.injEq] at h
  refine ⟨h.symm, ?_, ?_⟩
  · intro hne
    by_contra hf
    exact h1 ⟨hne, by simpa using hf⟩
  · intro he
    by_contra hf
    exact h2 ⟨he, by simpa using hf⟩

end parse_config_stages


section parse_config_claims

open blockstore_impl_t

/-- C15: block size validation in `parse_config`. With `b` the configured
`block_size`, or `2^DEFAULT_ORDER` when that is 0: `parse_config` throws
"Bad block size" unless `b` is a power of two with
`MIN_BLOCK_SIZE <= b < MAX_BLOCK_SIZE`; and whenever `parse_config` returns,
`block_size = b = 2^block_order`. -/
theorem parse_config_validates_block_size (c : open_consts) (s0 : impl_layout)
    (cfg : blockstore_config_t) (hc : c.valid) (hb : cfg.block_size < 2 ^ 64) :
    (¬ ((∃ k, effective_block_size c cfg = 2 ^ k) ∧
          c.MIN_BLOCK_SIZE ≤ effective_block_size c cfg ∧
          effective_block_size c cfg < c.MAX_BLOCK_SIZE) →
      parse_config c s0 cfg = .error "Bad block size") ∧
    (∀ s, parse_config c s0 cfg = .ok s →
      s.block_size = effective_block_size c cfg ∧ s.block_size = 2 ^ s.block_order) := by
  have hpos : 0 < effective_block_size c cfg := by
    unfold effective_block_size
    split_ifs with h0
    · exact Nat.pow_pos (by decide)
    · omega
  have h64 : effective_block_size c cfg < 2 ^ 64 := by
    unfold effective_block_size
    split_ifs with h0
    · exact Nat.pow_lt_pow_right (by decide) (by have := hc.1; omega)
    · exact hb
  have hspec := is_power_of_two_spec (effective_block_size c cfg) hpos h64
  have hbs : (parse_options c s0 cfg).block_size = cfg.block_size := rfl
  constructor
  · intro hbad
    have hv : validate_block_size c (parse_options c s0 cfg) = .error "Bad block size" := by
      unfold validate_block_size
      simp only [hbs]
      rw [if_pos]
      change is_power_of_two (effective_block_size c cfg) ≥ 64 ∨
        effective_block_size c cfg < c.MIN_BLOCK_SIZE ∨
        effective_block_size c cfg ≥ c.MAX_BLOCK_SIZE
      rcases hspec with ⟨k, hk, _, _⟩ | ⟨_, h64'⟩
      · by_contra hcon
        simp only [not_or, not_le, not_lt] at hcon
        exact hbad ⟨⟨k, hk⟩, hcon.2.1, hcon.2.2⟩
      · left; omega
    unfold parse_config
    rw [hv]
    rfl
  · intro s hs
    obtain ⟨s1, s2, s3, s4, s5, h1, h2, h3, h4, h5, hfin⟩ := parse_config_ok_stages c s0 s cfg hs
    obtain ⟨e1, ho1, _, _⟩ := validate_block_size_ok c _ s1 h1
    obtain ⟨e2, _⟩ := validate_alignments_ok c _ s2 h2
    obtain ⟨e3, _⟩ := validate_granularity_ok c _ s3 h3
    obtain ⟨e4, _⟩ := validate_offsets_ok _ s4 h4
    obtain ⟨e5, _⟩ := validate_immediate_commit_ok c _ s5 h5
    have hsize : s.block_size = effective_block_size c cfg := by
      rw [hfin, e5, e4, e3, e2, e1]
      rfl
    have hord : s.block_order = is_power_of_two (effective_block_size c cfg) := by
      rw [hfin, e5, e4, e3, e2, e1]
      rfl
    have ho : s1.block_order = is_power_of_two (effective_block_size c cfg) := by
      rw [e1]; rfl
    refine ⟨hsize, ?_⟩
    rw [hsize, hord]
    rcases hspec with ⟨k, hk, hpk, _⟩ | ⟨_, h64'⟩
    · rw [hpk]; exact hk
    · rw [ho] at ho1; omega

/-- Witness for C15: the configured block size 2048 is below `MIN_BLOCK_SIZE`. -/
theorem parse_config_validates_block_size_witness :
    sample_open_consts.valid ∧
    (({ block_size := 2048 } : blockstore_config_t).block_size < 2 ^ 64) ∧
    parse_config sample_open_consts {} { block_size := 2048 } = .error "Bad block size" :=
  ⟨by decide, by decide,
    (parse_config_validates_block_size sample_open_consts {} { block_size := 2048 }
      (by decide) (by decide)).1 (fun h => absurd h.2.1 (by decide))⟩

/-- A call whose returned value exists returned. -/
theorem config_result_ok_of_isSome {α : Type} (r : config_result α)
    (h : r.toOption.isSome = true) : ∃ a, r = .ok a := by
  cases r with
  | ok a => exact ⟨a, rfl⟩
  | error m => simp [config_result.toOption] at h
  | undefined => simp [config_result.toOption] at h

/-- C16 (the code at the failing input): with `disk_alignment = 8192` configured
and `bitmap_granularity` left unset, `parse_config` returns with the default
granularity 4096, which is not a multiple of the resulting disk alignment 8192
(it does divide the block size). -/
theorem parse_config_default_granularity_unchecked :
    (parse_config sample_open_consts {} { disk_alignment := 8192 }).toOption.map
        (fun s => (s.disk_alignment, s.bitmap_granularity,
          s.bitmap_granularity % s.disk_alignment, s.block_size % s.bitmap_granularity)) =
      some (8192, 4096, 4096, 0) := by
  decide

/-- C17: whenever `parse_config` returns, `immediate_commit != IMMEDIATE_NONE`
implies that `disable_journal_fsync` is set and `immediate_commit = IMMEDIATE_ALL`
implies that `disable_data_fsync` is set, the flags being those left after the
rules for shared devices: metadata on the data device has the data flag, a
journal on the metadata device has the metadata flag. -/
theorem parse_config_immediate_commit_needs_fsync_off (c : open_consts) (s0 s : impl_layout)
    (cfg : blockstore_config_t) (h : parse_config c s0 cfg = .ok s) :
    (s.immediate_commit ≠ c.IMMEDIATE_NONE → s.disable_journal_fsync = true) ∧
    (s.immediate_commit = c.IMMEDIATE_ALL → s.disable_data_fsync = true) ∧
    (s.meta_device = "" → s.disable_meta_fsync = s.disable_data_fsync) ∧
    (s.journal_device = "" → s.disable_journal_fsync = s.disable_meta_fsync) := by
  obtain ⟨s1, s2, s3, s4, s5, _, _, _, _, h5, hfin⟩ := parse_config_ok_stages c s0 s cfg h
  obtain ⟨e5, hj, hd⟩ := validate_immediate_commit_ok c _ s5 h5
  subst hfin e5
  refine ⟨hj, hd, ?_, ?_⟩
  · intro hm
    have hm1 : s4.meta_device = "" := hm
    show (inherit_fsync s4).disable_meta_fsync = (inherit_fsync s4).disable_data_fsync
    unfold inherit_fsync
    simp only [hm1, if_true]
  · intro hjd
    have hj1 : s4.journal_device = "" := hjd
    show (inherit_fsync s4).disable_journal_fsync = (inherit_fsync s4).disable_meta_fsync
    unfold inherit_fsync
    simp only [hj1, if_true]

/-- Witness for C17: `immediate_commit=all` with `disable_data_fsync` set and
both the metadata and the journal on the data device. -/
theorem parse_config_immediate_commit_needs_fsync_off_witness :
    ∃ s, parse_config sample_open_consts {}
        { immediate_commit := "all", disable_data_fsync := "1" } = .ok s ∧
      s.immediate_commit = sample_open_consts.IMMEDIATE_ALL ∧
      s.disable_journal_fsync = true ∧ s.disable_data_fsync = true := by
  obtain ⟨s, hs⟩ := config_result_ok_of_isSome
    (parse_config sample_open_consts {} { immediate_commit := "all", disable_data_fsync := "1" })
    (by decide)
  have hall : s.immediate_commit = sample_open_consts.IMMEDIATE_ALL := by
    have h1 : (parse_config sample_open_consts {}
        { immediate_commit := "all", disable_data_fsync := "1" }).toOption.map
        (fun s => s.immediate_commit) = some sample_open_consts.IMMEDIATE_ALL := by decide
    rw [hs] at h1
    simpa [config_result.toOption] using h1
  have hthm := parse_config_immediate_commit_needs_fsync_off sample_open_consts {} s
    { immediate_commit := "all", disable_data_fsync := "1" } hs
  exact ⟨s, hs, hall, hthm.1 (by rw [hall]; decide), hthm.2.1 hall⟩

end parse_config_claims

section calc_lengths_regions

open blockstore_impl_t

/-- The 64-bit subtraction of 64-bit values is below 2^64, and exact when it
does not wrap. -/
theorem u64_sub_exact (a b : Nat) (h : b ≤ a) (ha : a < 2 ^ 64) : u64_sub a b = a - b := by
  unfold u64_sub
  have : a + 2 ^ 64 - b = (a - b) + 2 ^ 64 := by omega
  rw [this, Nat.add_mod_right]
  exact Nat.mod_eq_of_lt (by omega)

/-- The derived data length ends the data area before a metadata area or a
journal that lies behind it on the same device. -/
theorem derived_data_len_bound (s : impl_layout) (hf : layout_fits_u64 s) :
    (s.data_fd = s.meta_fd → s.data_offset < s.meta_offset →
      derived_data_len s ≤ s.meta_offset - s.data_offset) ∧
    (s.data_fd = s.journal.fd → s.data_offset < s.journal.offset →
      derived_data_len s ≤ s.journal.offset - s.data_offset) := by
  obtain ⟨_, _, _, h4, h5, h6, _⟩ := hf
  constructor
  · intro hfd hlt
    have e1 := u64_sub_exact s.meta_offset s.data_offset (by omega) h5
    unfold derived_data_len
    simp only [hfd, hlt, and_self, if_true]
    split_ifs <;> omega
  · intro hfd hlt
    have e1 := u64_sub_exact s.journal.offset s.data_offset (by omega) h6
    unfold derived_data_len
    simp only [hfd, hlt, and_self, if_true]
    split_ifs <;> omega

/-- The derived metadata area ends before a data area or a journal that lies at
or behind it on the same device. -/
theorem derived_meta_area_bound (s : impl_layout) (hf : layout_fits_u64 s) :
    (s.meta_fd = s.data_fd → s.meta_offset ≤ s.data_offset →
      derived_meta_area s ≤ s.data_offset - s.meta_offset) ∧
    (s.meta_fd = s.journal.fd → s.meta_offset ≤ s.journal.offset →
      derived_meta_area s ≤ s.journal.offset - s.meta_offset) := by
  obtain ⟨_, _, _, h4, h5, h6, _⟩ := hf
  constructor
  · intro hfd hle
    have e1 := u64_sub_exact s.data_offset s.meta_offset hle h4
    unfold derived_meta_area
    simp only [hfd, hle, and_self, if_true]
    split_ifs <;> omega
  · intro hfd hle
    have e1 := u64_sub_exact s.journal.offset s.meta_offset hle h6
    unfold derived_meta_area
    simp only [hfd, hle, and_self, if_true]
    split_ifs <;> omega

/-- The derived journal length ends the journal before a data area or a
metadata area that lies at or behind it on the same device. -/
theorem derived_journal_len_bound (s : impl_layout) (hf : layout_fits_u64 s) :
    (s.journal.fd = s.data_fd → s.journal.offset ≤ s.data_offset →
      derived_journal_len s ≤ s.data_offset - s.journal.offset) ∧
    (s.journal.fd = s.meta_fd → s.journal.offset ≤ s.meta_offset →
      derived_journal_len s ≤ s.meta_offset - s.journal.offset) := by
  obtain ⟨_, _, _, h4, h5, h6, _⟩ := hf
  constructor
  · intro hfd hle
    have e1 := u64_sub_exact s.data_offset s.journal.offset hle h4
    unfold derived_journal_len
    simp only [hfd, hle, and_self, if_true]
    split_ifs <;> omega
  · intro hfd hle
    have e1 := u64_sub_exact s.meta_offset s.journal.offset hle h5
    unfold derived_journal_len
    simp only [hfd, hle, and_self, if_true]
    split_ifs <;> omega

end calc_lengths_regions

section calc_lengths_stages

open blockstore_impl_t

/-- The metadata area does not depend on the members that `calc_lengths`
assigns before it. -/
theorem derived_meta_area_frame (s : impl_layout) (d : Nat) :
    derived_meta_area { s with data_len := d } = derived_meta_area s := by
  unfold derived_meta_area
  rfl

/-- The journal length does not depend on the members that `calc_lengths`
assigns before it. -/
theorem derived_journal_len_frame (s : impl_layout) (d m : Nat) :
    derived_journal_len { s with data_len := d, meta_area := m } = derived_journal_len s := by
  unfold derived_journal_len
  rfl

/-- What a returning `size_areas` leaves. -/
theorem size_areas_ok (s s1 : impl_layout) (h : size_areas s = .ok s1) :
    s1 = { s with
      data_len := if s.cfg_data_size ≠ 0 then s.cfg_data_size else derived_data_len s
      meta_area := derived_meta_area s
      journal := { s.journal with len := derived_journal_len s }
      block_count :=
        (if s.cfg_data_size ≠ 0 then s.cfg_data_size else derived_data_len s) / s.block_size
      meta_len := required_meta_len
        ((if s.cfg_data_size ≠ 0 then s.cfg_data_size else derived_data_len s) / s.block_size)
        s.meta_block_size s.clean_entry_size } ∧
    s1.data_len ≤ derived_data_len s ∧ s1.meta_len ≤ s1.meta_area ∧
    s.block_size ≠ 0 ∧ s.clean_entry_size ≠ 0 ∧ s.meta_block_size / s.clean_entry_size ≠ 0 := by
  unfold size_areas at h
  obtain ⟨h1, h⟩ := ite_error_eq_ok h
  by_cases hub : s.block_size = 0 ∨ s.clean_entry_size = 0 ∨
      s.meta_block_size / s.clean_entry_size = 0
  · rw [if_pos hub] at h
    exact absurd h (by simp)
  · rw [if_neg hub] at h
    obtain ⟨h2, h⟩ := ite_error_eq_ok h
    simp only [config_result.ok.injEq] at h
    subst h
    simp only [not_or] at hub
    refine ⟨by simp only [set_required_meta, set_journal_len, set_meta_area, set_data_len,
        derived_meta_area_frame, derived_journal_len_frame],
      ?_, Nat.le_of_not_lt h2, hub.1, hub.2.1, hub.2.2⟩
    show (if s.cfg_data_size ≠ 0 then s.cfg_data_size else derived_data_len s) ≤ derived_data_len s
    by_cases hc : s.cfg_data_size ≠ 0
    · rw [if_pos hc]
      by_contra hlt
      exact h1 ⟨hc, by omega⟩
    · rw [if_neg hc]

/-- A returning `allocate_metadata` changes the two buffer members only. -/
theorem allocate_metadata_ok (env : alloc_oracle) (s s1 : impl_layout)
    (h : allocate_metadata env s = .ok s1) :
    ∃ a b, s1 = { s with metadata_buffer := a, clean_bitmap := b } := by
  unfold allocate_metadata at h
  by_cases h1 : s.inmemory_meta = true
  · rw [if_pos h1] at h
    by_cases h2 : env.memalign_ok s.meta_len = true
    · rw [if_pos h2] at h
      simp only [config_result.ok.injEq] at h
      exact ⟨_, _, h.symm⟩
    · rw [if_neg h2] at h
      exact absurd h (by simp)
  · rw [if_neg h1] at h
    by_cases h2 : s.clean_entry_bitmap_size ≠ 0
    · rw [if_pos h2] at h
      by_cases h3 : env.malloc_ok ((s.block_count * (2 * s.clean_entry_bitmap_size)) % 2 ^ 64) = true
      · rw [if_pos h3] at h
        simp only [config_result.ok.injEq] at h
        exact ⟨_, _, h.symm⟩
      · rw [if_neg h3] at h
        exact absurd h (by simp)
    · rw [if_neg h2] at h
      simp only [config_result.ok.injEq] at h
      exact ⟨_, _, h.symm⟩

/-- A returning `size_journal` changes the journal length only, and does not
make it longer. -/
theorem size_journal_ok (c : open_consts) (env : alloc_oracle) (s s1 : impl_layout)
    (h : size_journal c env s = .ok s1) :
    (∃ l, s1 = { s with journal := { s.journal with len := l } }) ∧
    s1.journal.len ≤ s.journal.len ∧ c.MIN_JOURNAL_SIZE ≤ s1.journal.len := by
  unfold size_journal at h
  obtain ⟨h1, h⟩ := ite_error_eq_ok h
  simp only at h
  obtain ⟨h2, h⟩ := ite_error_eq_ok h
  obtain ⟨_, h⟩ := ite_error_eq_ok h
  simp only [config_result.ok.injEq] at h
  subst h
  by_cases hc : s.cfg_journal_size > 0
  · simp only [hc, if_true] at h2 ⊢
    exact ⟨⟨_, rfl⟩, by omega, by omega⟩
  · simp only [hc, if_false] at h2 ⊢
    exact ⟨⟨_, rfl⟩, le_refl _, by omega⟩

/-- The steps of a `calc_lengths` call that returned. -/
theorem calc_lengths_ok_stages (c : open_consts) (env : alloc_oracle) (s s3 : impl_layout)
    (h : calc_lengths c env s = .ok s3) :
    ∃ s1 s2, size_areas s = .ok s1 ∧ allocate_metadata env s1 = .ok s2 ∧
      size_journal c env s2 = .ok s3 := by
  unfold calc_lengths at h
  obtain ⟨s1, h1, h⟩ := (andThen_eq_ok _ _ _).mp h
  obtain ⟨s2, h2, h⟩ := (andThen_eq_ok _ _ _).mp h
  exact ⟨s1, s2, h1, h2, h⟩

/-- What `calc_lengths` returns: the offsets and descriptors are those given,
and each of the three lengths is at most the length derived from the offsets. -/
theorem calc_lengths_ok_lengths (c : open_consts) (env : alloc_oracle) (s s3 : impl_layout)
    (h : calc_lengths c env s = .ok s3) :
    s3.data_fd = s.data_fd ∧ s3.meta_fd = s.meta_fd ∧ s3.journal.fd = s.journal.fd ∧
    s3.data_offset = s.data_offset ∧ s3.meta_offset = s.meta_offset ∧
    s3.journal.offset = s.journal.offset ∧
    s3.data_len ≤ derived_data_len s ∧ s3.meta_len ≤ derived_meta_area s ∧
    s3.journal.len ≤ derived_journal_len s := by
  obtain ⟨s1, s2, h1, h2, h3⟩ := calc_lengths_ok_stages c env s s3 h
  obtain ⟨e1, hd, hm, _⟩ := size_areas_ok s s1 h1
  obtain ⟨a, b, e2⟩ := allocate_metadata_ok env s1 s2 h2
  obtain ⟨⟨l, e3⟩, hj, _⟩ := size_journal_ok c env s2 s3 h3
  have hma : s1.meta_area = derived_meta_area s := by rw [e1]
  have hjl : s2.journal.len = derived_journal_len s := by rw [e2, e1]
  rw [hma] at hm
  rw [hjl] at hj
  have hd3 : s3.data_len = s1.data_len := by rw [e3, e2]
  have hm3 : s3.meta_len = s1.meta_len := by rw [e3, e2]
  refine ⟨?_, ?_, ?_, ?_, ?_, ?_, by rw [hd3]; exact hd, by rw [hm3]; exact hm, hj⟩
  all_goals rw [e3, e2, e1]

end calc_lengths_stages

section calc_lengths_claims

open blockstore_impl_t

/-- C18: no region overlap. Whenever `calc_lengths` returns, any two of the
regions data `[data_offset, data_offset + data_len)`, metadata
`[meta_offset, meta_offset + meta_len)` and journal
`[journal.offset, journal.offset + journal.len)` that are on the same file
descriptor have no byte in common, whatever the order of the three offsets and
whether or not `data_size` or `journal_size` is configured. -/
theorem calc_lengths_regions_disjoint (c : open_consts) (env : alloc_oracle)
    (s s1 : impl_layout) (hf : layout_fits_u64 s) (h : calc_lengths c env s = .ok s1) :
    (s1.data_fd = s1.meta_fd →
      regions_disjoint s1.data_offset s1.data_len s1.meta_offset s1.meta_len) ∧
    (s1.data_fd = s1.journal.fd →
      regions_disjoint s1.data_offset s1.data_len s1.journal.offset s1.journal.len) ∧
    (s1.meta_fd = s1.journal.fd →
      regions_disjoint s1.meta_offset s1.meta_len s1.journal.offset s1.journal.len) := by
  obtain ⟨e1, e2, e3, e4, e5, e6, hd, hm, hj⟩ := calc_lengths_ok_lengths c env s s1 h
  obtain ⟨hd1, hd2⟩ := derived_data_len_bound s hf
  obtain ⟨hm1, hm2⟩ := derived_meta_area_bound s hf
  obtain ⟨hj1, hj2⟩ := derived_journal_len_bound s hf
  rw [e1, e2, e3, e4, e5, e6]
  refine ⟨?_, ?_, ?_⟩
  · intro hfd x hx
    by_cases hlt : s.data_offset < s.meta_offset
    · have := hd1 hfd hlt
      omega
    · have := hm1 hfd.symm (by omega)
      omega
  · intro hfd x hx
    by_cases hlt : s.data_offset < s.journal.offset
    · have := hd2 hfd hlt
      omega
    · have := hj1 hfd.symm (by omega)
      omega
  · intro hfd x hx
    by_cases hle : s.meta_offset ≤ s.journal.offset
    · have := hm2 hfd hle
      omega
    · have := hj2 hfd.symm (by omega)
      omega

/-- Witness for C18: metadata, journal and data on one device, in that order. -/
theorem calc_lengths_regions_disjoint_witness :
    layout_fits_u64 sample_layout ∧
    ∃ s1, calc_lengths sample_open_consts sample_alloc sample_layout = .ok s1 ∧
      regions_disjoint s1.data_offset s1.data_len s1.meta_offset s1.meta_len ∧
      regions_disjoint s1.data_offset s1.data_len s1.journal.offset s1.journal.len ∧
      regions_disjoint s1.meta_offset s1.meta_len s1.journal.offset s1.journal.len := by
  refine ⟨by decide, ?_⟩
  obtain ⟨s1, hs⟩ := config_result_ok_of_isSome
    (calc_lengths sample_open_consts sample_alloc sample_layout) (by decide)
  have hfd : (calc_lengths sample_open_consts sample_alloc sample_layout).toOption.map
      (fun r => (r.data_fd, r.meta_fd, r.journal.fd)) = some (3, 3, 3) := by decide
  rw [hs] at hfd
  simp only [config_result.toOption, Option.map_some', Option.some.injEq, Prod.mk.injEq] at hfd
  obtain ⟨f1, f2, f3⟩ := hfd
  have hthm := calc_lengths_regions_disjoint sample_open_consts sample_alloc sample_layout s1
    (by decide) hs
  exact ⟨s1, hs, hthm.1 (by rw [f1, f2]), hthm.2.1 (by rw [f1, f3]), hthm.2.2 (by rw [f2, f3])⟩

/-- Rounding up: `ceil_div m n` groups of `n` hold `m` items. -/
theorem ceil_div_mul_ge (m n : Nat) (hn : 0 < n) : m ≤ ceil_div m n * n := by
  unfold ceil_div
  have h1 := Nat.div_add_mod (m + n - 1) n
  have h2 := Nat.mod_lt (m + n - 1) hn
  have h3 : n * ((m + n - 1) / n) = (m + n - 1) / n * n := Nat.mul_comm _ _
  omega

/-- Line 260 of `calc_lengths` without overflow: the 64-bit computation gives
`(1 + ceil(block_count / n)) * meta_block_size` whenever that number is below
2^64, also for `block_count = 0`, where `block_count - 1` wraps. -/
theorem required_meta_len_exact (bc mbs ces : Nat) (hn : 1 ≤ mbs / ces)
    (hov : (1 + ceil_div bc (mbs / ces)) * mbs < 2 ^ 64) :
    required_meta_len bc mbs ces = (1 + ceil_div bc (mbs / ces)) * mbs := by
  have hnm : mbs / ces ≤ mbs := Nat.div_le_self mbs ces
  have hmbs : 1 ≤ mbs := le_trans hn hnm
  have hge := ceil_div_mul_ge bc (mbs / ces) (by omega)
  have hq : 1 + ceil_div bc (mbs / ces) < 2 ^ 64 := by
    calc 1 + ceil_div bc (mbs / ces) = (1 + ceil_div bc (mbs / ces)) * 1 := by rw [Nat.mul_one]
      _ ≤ (1 + ceil_div bc (mbs / ces)) * mbs := Nat.mul_le_mul_left _ hmbs
      _ < 2 ^ 64 := hov
  have hsum : bc + mbs / ces ≤ (1 + ceil_div bc (mbs / ces)) * mbs := by
    have h1 : ceil_div bc (mbs / ces) * (mbs / ces) ≤ ceil_div bc (mbs / ces) * mbs :=
      Nat.mul_le_mul_left _ hnm
    rw [Nat.add_mul, Nat.one_mul]
    omega
  have hinner : (u64_sub bc 1 + mbs / ces) % 2 ^ 64 = bc + mbs / ces - 1 := by
    unfold u64_sub
    by_cases h0 : bc = 0
    · subst h0
      have : (0 + 2 ^ 64 - 1) % 2 ^ 64 = 2 ^ 64 - 1 := by decide
      rw [this]
      have h2 : 2 ^ 64 - 1 + mbs / ces = (mbs / ces - 1) + 2 ^ 64 := by omega
      rw [h2, Nat.add_mod_right, Nat.mod_eq_of_lt (by omega)]
      omega
    · have h1 : bc + 2 ^ 64 - 1 = (bc - 1) + 2 ^ 64 := by omega
      rw [h1, Nat.add_mod_right, Nat.mod_eq_of_lt (by omega), Nat.mod_eq_of_lt (by omega)]
      omega
  unfold required_meta_len
  rw [hinner]
  have hc : (bc + mbs / ces - 1) / (mbs / ces) = ceil_div bc (mbs / ces) := rfl
  rw [hc, Nat.mod_eq_of_lt hq, Nat.mod_eq_of_lt hov]

/-- C19 (counterexample): with `meta_block_size = 2^63`, 24-byte entries and one
data block, line 260 wraps: `calc_lengths` returns with `meta_len = 0` although
the metadata area has 4096 bytes and `(1 + ceil(1 / n)) * meta_block_size` is
2^64. -/
theorem calc_lengths_meta_len_wraps :
    layout_fits_u64 sample_layout_wide ∧
    1 ≤ sample_layout_wide.meta_block_size / sample_layout_wide.clean_entry_size ∧
    (calc_lengths sample_open_consts sample_alloc sample_layout_wide).toOption.map
        (fun s => (s.block_count, s.meta_area, s.meta_len)) = some (1, 4096, 0) ∧
    (1 + ceil_div 1
        (sample_layout_wide.meta_block_size / sample_layout_wide.clean_entry_size)) *
      sample_layout_wide.meta_block_size = 2 ^ 64 := by
  decide

/-- C19 (amended): metadata sizing in `calc_lengths`. With
`n = meta_block_size / clean_entry_size >= 1`, whenever the sizing step returns,
`block_count = data_len / block_size` and `meta_len` is the 64-bit value of
line 260, which is `(1 + ceil(block_count / n)) * meta_block_size` for every
`block_count` for which that number is below 2^64 (also `block_count = 0`,
where the subtraction wraps); the metadata then has one header block and at
least `block_count` slots; and `calc_lengths` does not return when the
available metadata area is smaller than `meta_len`. -/
theorem calc_lengths_meta_len (c : open_consts) (env : alloc_oracle) (s : impl_layout)
    (hn : 1 ≤ s.meta_block_size / s.clean_entry_size) :
    (∀ s1, size_areas s = .ok s1 →
      s1.block_count = s1.data_len / s.block_size ∧
      s1.meta_len = required_meta_len s1.block_count s.meta_block_size s.clean_entry_size ∧
      s1.meta_len ≤ s1.meta_area) ∧
    (∀ bc, (1 + ceil_div bc (s.meta_block_size / s.clean_entry_size)) * s.meta_block_size <
        2 ^ 64 →
      required_meta_len bc s.meta_block_size s.clean_entry_size =
        (1 + ceil_div bc (s.meta_block_size / s.clean_entry_size)) * s.meta_block_size ∧
      bc ≤ ceil_div bc (s.meta_block_size / s.clean_entry_size) *
        (s.meta_block_size / s.clean_entry_size)) ∧
    (derived_meta_area s <
        required_meta_len
          ((if s.cfg_data_size ≠ 0 then s.cfg_data_size else derived_data_len s) / s.block_size)
          s.meta_block_size s.clean_entry_size →
      ∀ s1, calc_lengths c env s ≠ .ok s1) := by
  refine ⟨?_, ?_, ?_⟩
  · intro s1 h1
    obtain ⟨e1, _, hm, _⟩ := size_areas_ok s s1 h1
    refine ⟨by rw [e1], by rw [e1], hm⟩
  · intro bc hov
    exact ⟨required_meta_len_exact bc _ _ hn hov, ceil_div_mul_ge bc _ (by omega)⟩
  · intro hlt s3 h
    obtain ⟨s1, s2, h1, _, _⟩ := calc_lengths_ok_stages c env s s3 h
    obtain ⟨e1, _, hm, _⟩ := size_areas_ok s s1 h1
    have hma : s1.meta_area = derived_meta_area s := by rw [e1]
    have hml : s1.meta_len = required_meta_len
        ((if s.cfg_data_size ≠ 0 then s.cfg_data_size else derived_data_len s) / s.block_size)
        s.meta_block_size s.clean_entry_size := by rw [e1]
    rw [hma, hml] at hm
    omega

/-- Witness for C19 (amended): the sample layout, where 7936 blocks at 170
entries per metadata block need 1 + 47 metadata blocks. -/
theorem calc_lengths_meta_len_witness :
    1 ≤ sample_layout.meta_block_size / sample_layout.clean_entry_size ∧
    (1 + ceil_div 7936 (sample_layout.meta_block_size / sample_layout.clean_entry_size)) *
        sample_layout.meta_block_size < 2 ^ 64 ∧
    required_meta_len 7936 sample_layout.meta_block_size sample_layout.clean_entry_size =
      (1 + ceil_div 7936 (sample_layout.meta_block_size / sample_layout.clean_entry_size)) *
        sample_layout.meta_block_size :=
  ⟨by decide, by decide,
    ((calc_lengths_meta_len sample_open_consts sample_alloc sample_layout (by decide)).2.1
      7936 (by decide)).1⟩

end calc_lengths_claims

section safe_to_stop
open blockstore_impl_t

theorem list_length_pos_iff_ne_nil {α : Type} (l : List α) : l.length > 0 ↔ l ≠ [] := by
  cases l <;> simp

/-- C20: `blockstore_impl_t::is_safe_to_stop` returns true if and only if
`submit_queue` is empty, there are no in-progress syncs, the flusher is not
active or the engine is read-only, and both lists of unsynced writes are
empty. -/
theorem is_safe_to_stop_iff (c : impl_consts) (fresh : blockstore_op_t) (s : blockstore_impl_t) :
    (is_safe_to_stop c fresh s).1 = true ↔
      s.submit_queue = [] ∧ s.in_progress_syncs = [] ∧
      (s.flusher_active = false ∨ s.readonly = true) ∧
      s.unsynced_big_writes = [] ∧ s.unsynced_small_writes = [] := by
  unfold is_safe_to_stop
  simp only [list_length_pos_iff_ne_nil]
  by_cases hq : s.submit_queue = []
  · by_cases hs : s.in_progress_syncs = []
    · by_cases hb : s.unsynced_big_writes = []
      · by_cases hsm : s.unsynced_small_writes = []
        · cases hr : s.readonly <;> cases hf : s.flusher_active <;> simp [hq, hs, hb, hsm]
        · cases hr : s.readonly <;> cases hf : s.flusher_active <;>
            cases hst : s.stop_sync_submitted <;> simp [hq, hs, hb, hsm]
      · cases hr : s.readonly <;> cases hf : s.flusher_active <;>
          cases hst : s.stop_sync_submitted <;> simp [hq, hs, hb]
    · simp [hq, hs]
  · simp [hq]

end safe_to_stop

section impl_loop_init
open blockstore_impl_t

theorem step_result_all_mono {σ ω : Type} {P Q : σ → Option Nat → submit_trace → Prop}
    (hPQ : ∀ s hw t, P s hw t → Q s hw t) (r : step_result σ ω) (hr : r.all P) : r.all Q := by
  cases r <;> simp only [step_result.all] at hr ⊢ <;> exact hPQ _ _ _ hr

theorem check_wait_returned (w : wait_consts) (s : blockstore_impl_t) (op op1 : blockstore_op_t)
    (hcw : check_wait w s op = .returned op1) : op1 = op ∨ op1 = clear_wait op := by
  unfold check_wait at hcw
  split_ifs at hcw <;>
    first
    | (injection hcw with hcw; subst hcw; first | exact Or.inl rfl | exact Or.inr rfl)
    | (split at hcw <;> (try split_ifs at hcw) <;>
        first
        | (injection hcw with hcw; subst hcw; first | exact Or.inl rfl | exact Or.inr rfl)
        | exact absurd hcw (by simp))

theorem check_wait_opcode (w : wait_consts) (s : blockstore_impl_t) (op op1 : blockstore_op_t)
    (hcw : check_wait w s op = .returned op1) : op1.opcode = op.opcode := by
  rcases check_wait_returned w s op op1 hcw with h | h <;> subst h <;> rfl


theorem after_dequeue_initialized (w : wait_consts) (h : impl_hooks) (hk : h.keep_initialized)
    (i ring_space prev_sqe_pos : Nat) (r : Int × blockstore_impl_t × blockstore_op_t)
    (has_writes n : Nat) (tr : submit_trace) (hr : r.2.1.initialized = n) :
    (after_dequeue w h i ring_space prev_sqe_pos r has_writes tr).all
      (fun s1 _ _ => s1.initialized = n) := by
  obtain ⟨-, -, -, -, -, -, -, hrest, -, -⟩ := hk
  unfold after_dequeue
  split_ifs <;> simp only [step_result.all, hrest, hr]

theorem dispatch_initialized (c : impl_consts) (w : wait_consts) (h : impl_hooks)
    (hk : h.keep_initialized) (kept rest : List blockstore_op_t) (i has_writes : Nat)
    (s : blockstore_impl_t) (tr : submit_trace) (op : blockstore_op_t) :
    (dispatch c w h kept rest i has_writes s tr op).all
      (fun s1 _ _ => s1.initialized = s.initialized) := by
  have hk1 := hk
  obtain ⟨-, -, -, hrd, hwr, hsy, hst, -, -, -⟩ := hk1
  unfold dispatch
  simp only
  split_ifs <;>
    first
    | exact after_dequeue_initialized w h hk _ _ _ _ _ _ _ (by simp only [hrd, hwr, hsy, hst])
    | simp only [step_result.all]

theorem submit_step_initialized (c : impl_consts) (w : wait_consts) (h : impl_hooks)
    (hk : h.keep_initialized) (kept rest : List blockstore_op_t) (i has_writes : Nat)
    (s : blockstore_impl_t) (tr : submit_trace) (op : blockstore_op_t) :
    (submit_step c w h kept rest i has_writes s tr op).all
      (fun s1 _ _ => s1.initialized = s.initialized) := by
  unfold submit_step
  split_ifs with hwf
  · cases hcw : check_wait w s op with
    | undefined => simp only [step_result.all]
    | thrown op1 => simp only [step_result.all]
    | returned op1 =>
      simp only
      split_ifs <;>
        first
        | exact dispatch_initialized c w h hk kept rest i has_writes s tr op1
        | simp only [step_result.all]
  · exact dispatch_initialized c w h hk kept rest i has_writes s tr op

theorem submit_ops_initialized (c : impl_consts) (w : wait_consts) (h : impl_hooks)
    (hk : h.keep_initialized) (rest : List blockstore_op_t) :
    ∀ (i : Nat) (kept : List blockstore_op_t) (has_writes : Nat) (s : blockstore_impl_t)
      (tr : submit_trace) (r : blockstore_impl_t × submit_trace),
      (submit_ops c w h rest i kept has_writes s tr = .returned r ∨
        submit_ops c w h rest i kept has_writes s tr = .thrown r) →
      r.1.initialized = s.initialized := by
  induction rest with
  | nil =>
    intro i kept has_writes s tr r hres
    simp only [submit_ops] at hres
    rcases hres with hres | hres
    · injection hres with hres; subst hres; rfl
    · exact absurd hres (by simp)
  | cons op rest ih =>
    intro i kept has_writes s tr r hres
    have hstep := submit_step_initialized c w h hk kept rest i has_writes s tr op
    simp only [submit_ops] at hres
    cases hs : submit_step c w h kept rest i has_writes s tr op with
    | stop s1 op1 tr1 =>
      rw [hs] at hres hstep
      simp only [step_result.all] at hstep
      rcases hres with hres | hres
      · injection hres with hres; subst hres; exact hstep
      · exact absurd hres (by simp)
    | next s1 keep hw tr1 =>
      rw [hs] at hres hstep
      simp only [step_result.all] at hstep
      rw [← hstep]
      exact ih _ _ _ _ _ _ hres
    | thrown s1 op1 tr1 =>
      rw [hs] at hres hstep
      simp only [step_result.all] at hstep
      rcases hres with hres | hres
      · exact absurd hres (by simp)
      · injection hres with hres; subst hres; exact hstep
    | undefined =>
      rw [hs] at hres
      rcases hres with hres | hres <;> exact absurd hres (by simp)

end impl_loop_init

section impl_loop_state_machine
open blockstore_impl_t

theorem continue_sync_fold_initialized (h : impl_hooks) (hk : h.keep_initialized)
    (l : List blockstore_op_t) :
    ∀ s : blockstore_impl_t, (l.foldl h.continue_sync s).initialized = s.initialized := by
  induction l with
  | nil => intro s; rfl
  | cons op l ih => intro s; rw [List.foldl_cons, ih, hk.2.2.1]

theorem finish_loop_initialized (h : impl_hooks) (hk : h.keep_initialized)
    (s s1 : blockstore_impl_t)
    (hres : finish_loop h s = .returned s1 ∨ finish_loop h s = .thrown s1) :
    s1.initialized = s.initialized := by
  obtain ⟨-, -, -, -, -, -, -, -, hfl, hsub⟩ := hk
  unfold finish_loop at hres
  simp only at hres
  split_ifs at hres <;> rcases hres with hres | hres <;> cases hres <;> simp only [hsub, hfl]

theorem loop_of_not_started (c : impl_consts) (w : wait_consts) (h : impl_hooks)
    (s : blockstore_impl_t) (hs : s.initialized ≠ 10) :
    loop c w h s = .returned (init_stage2 h (init_stage1 h (init_stage0 s))) := by
  unfold loop loop_trace
  rw [if_pos hs]

theorem loop_started_initialized (c : impl_consts) (w : wait_consts) (h : impl_hooks)
    (hk : h.keep_initialized) (s s1 : blockstore_impl_t) (hs : s.initialized = 10)
    (hres : loop c w h s = .returned s1 ∨ loop c w h s = .thrown s1) :
    s1.initialized = 10 := by
  unfold loop loop_trace at hres
  rw [if_neg (by simpa using hs)] at hres
  simp only at hres
  cases hp : submit_ops c w h (s.in_progress_syncs.foldl h.continue_sync s).submit_queue 0 [] 0
      (s.in_progress_syncs.foldl h.continue_sync s) {} with
  | undefined => rw [hp] at hres; rcases hres with hres | hres <;> exact absurd hres (by simp)
  | thrown x =>
    rw [hp] at hres
    have hx := submit_ops_initialized c w h hk _ _ _ _ _ _ x (Or.inr hp)
    rw [continue_sync_fold_initialized h hk, hs] at hx
    rcases hres with hres | hres
    · exact absurd hres (by simp)
    · simp only at hres; injection hres with hres; subst hres; exact hx
  | returned x =>
    rw [hp] at hres
    have hx := submit_ops_initialized c w h hk _ _ _ _ _ _ x (Or.inl hp)
    rw [continue_sync_fold_initialized h hk, hs] at hx
    obtain ⟨s2, tr⟩ := x
    simp only at hres hx
    cases hf : finish_loop h s2 with
    | undefined => rw [hf] at hres; rcases hres with hres | hres <;> exact absurd hres (by simp)
    | thrown s3 =>
      rw [hf] at hres
      have h3 := finish_loop_initialized h hk s2 s3 (Or.inr hf)
      rcases hres with hres | hres
      · exact absurd hres (by simp)
      · simp only at hres; injection hres with hres; subst hres; rw [h3, hx]
    | returned s3 =>
      rw [hf] at hres
      have h3 := finish_loop_initialized h hk s2 s3 (Or.inl hf)
      rcases hres with hres | hres
      · simp only at hres; injection hres with hres; subst hres; rw [h3, hx]
      · exact absurd hres (by simp)

theorem init_stage0_initialized (s : blockstore_impl_t) :
    (init_stage0 s).initialized = if s.initialized = 0 then 1 else s.initialized := by
  unfold init_stage0; split_ifs <;> rfl

theorem init_stage0_queue (s : blockstore_impl_t) :
    (init_stage0 s).submit_queue = s.submit_queue := by
  unfold init_stage0; split_ifs <;> rfl

theorem init_stage1_initialized (h : impl_hooks) (hk : h.keep_initialized)
    (s : blockstore_impl_t) :
    (init_stage1 h s).initialized =
      if s.initialized = 1 ∧ (h.metadata_loop s).1 = 0 then 2 else s.initialized := by
  unfold init_stage1
  by_cases h1 : s.initialized = 1
  · by_cases hm : (h.metadata_loop s).1 = 0
    · rw [if_pos h1, if_pos hm, if_pos ⟨h1, hm⟩]
    · rw [if_pos h1, if_neg hm, if_neg (fun hh => hm hh.2), hk.1]
  · rw [if_neg h1, if_neg (fun hh => h1 hh.1)]

theorem init_stage1_queue (h : impl_hooks) (hq : h.readers_keep_queue) (s : blockstore_impl_t) :
    (init_stage1 h s).submit_queue = s.submit_queue := by
  unfold init_stage1
  split_ifs <;> first | rfl | exact hq.1 s

theorem init_stage2_initialized (h : impl_hooks) (hk : h.keep_initialized)
    (s : blockstore_impl_t) :
    (init_stage2 h s).initialized =
      if s.initialized = 2 ∧ (h.journal_loop s).1 = 0 then 10 else s.initialized := by
  unfold init_stage2
  by_cases h1 : s.initialized = 2
  · by_cases hm : (h.journal_loop s).1 = 0
    · rw [if_pos h1, if_pos hm, if_pos ⟨h1, hm⟩]
    · rw [if_pos h1, if_neg hm, if_neg (fun hh => hm hh.2), hk.2.1]
  · rw [if_neg h1, if_neg (fun hh => h1 hh.1)]

theorem init_stage2_queue (h : impl_hooks) (hq : h.readers_keep_queue) (s : blockstore_impl_t) :
    (init_stage2 h s).submit_queue = s.submit_queue := by
  unfold init_stage2
  split_ifs <;> first | rfl | exact hq.2 s

/-- One call of `loop`, whether it returns or throws: `initialized` stays in
{0, 1, 2, 10} and does not decrease. -/
theorem loop_step_initialized (c : impl_consts) (w : wait_consts) (h : impl_hooks)
    (hk : h.keep_initialized) (s s1 : blockstore_impl_t)
    (hres : loop c w h s = .returned s1 ∨ loop c w h s = .thrown s1) :
    s.initialized ≤ s1.initialized ∧ (s.initialized ∈ [0, 1, 2, 10] → s1.initialized ∈ [0, 1, 2, 10]) := by
  by_cases hs : s.initialized = 10
  · have h1 := loop_started_initialized c w h hk s s1 hs hres
    rw [h1, hs]; exact ⟨le_refl _, fun hh => hh⟩
  · rw [loop_of_not_started c w h s hs] at hres
    rcases hres with hres | hres
    · injection hres with hres
      subst hres
      rw [init_stage2_initialized h hk, init_stage1_initialized h hk, init_stage0_initialized]
      simp only [List.mem_cons, List.mem_singleton, List.not_mem_nil, or_false]
      split_ifs <;> omega
    · exact absurd hres (by simp)

theorem loop_reachable_trans (c : impl_consts) (w : wait_consts) (h : impl_hooks)
    (s0 s s1 : blockstore_impl_t) (h0 : loop_reachable c w h s0 s)
    (h1 : loop_reachable c w h s s1) : loop_reachable c w h s0 s1 := by
  induction h1 with
  | start => exact h0
  | returned a b _ hl ih => exact .returned a b ih hl
  | thrown a b _ hl ih => exact .thrown a b ih hl

theorem loop_reachable_initialized (c : impl_consts) (w : wait_consts) (h : impl_hooks)
    (hk : h.keep_initialized) (s0 s : blockstore_impl_t) (hr : loop_reachable c w h s0 s) :
    s0.initialized ≤ s.initialized ∧
      (s0.initialized ∈ [0, 1, 2, 10] → s.initialized ∈ [0, 1, 2, 10]) := by
  induction hr with
  | start => exact ⟨le_refl _, fun hh => hh⟩
  | returned a b _ hl ih =>
    have hstep := loop_step_initialized c w h hk a b (Or.inl hl)
    exact ⟨le_trans ih.1 hstep.1, fun hh => hstep.2 (ih.2 hh)⟩
  | thrown a b _ hl ih =>
    have hstep := loop_step_initialized c w h hk a b (Or.inr hl)
    exact ⟨le_trans ih.1 hstep.1, fun hh => hstep.2 (ih.2 hh)⟩

/-- C14: the initialisation state machine of `blockstore_impl_t::loop`. In every
state that calls of `loop` lead to from `initialized = 0`, `initialized` is one
of 0, 1, 2, 10 and no later state has a smaller value; `is_started` is true
exactly when it is 10; and while it is not 10 a call of `loop` returns, leaves
`submit_queue` as it was, gets from below 2 to 2 or more only when the metadata
reader's `loop` returned 0 in that call, and gets to 10 only when the journal
reader's `loop`, called in state 2, returned 0. The functions of other files
are taken not to assign `initialized`, and the two readers not to touch
`submit_queue`. -/
theorem impl_loop_initialization_state_machine (c : impl_consts) (w : wait_consts)
    (h : impl_hooks) (hk : h.keep_initialized) (hq : h.readers_keep_queue)
    (s0 s : blockstore_impl_t) (h0 : s0.initialized = 0) (hr : loop_reachable c w h s0 s) :
    s.initialized ∈ [0, 1, 2, 10] ∧
    (∀ s1, loop_reachable c w h s s1 → s.initialized ≤ s1.initialized) ∧
    (is_started s = true ↔ s.initialized = 10) ∧
    (s.initialized ≠ 10 →
      ∃ s1, loop c w h s = .returned s1 ∧ s1.submit_queue = s.submit_queue ∧
        (s.initialized < 2 → 2 ≤ s1.initialized → (h.metadata_loop (init_stage0 s)).1 = 0) ∧
        (s1.initialized = 10 →
          (init_stage1 h (init_stage0 s)).initialized = 2 ∧
          (h.journal_loop (init_stage1 h (init_stage0 s))).1 = 0)) := by
  refine ⟨(loop_reachable_initialized c w h hk s0 s hr).2 (by rw [h0]; decide),
    fun s1 h1 => (loop_reachable_initialized c w h hk s s1 h1).1, ?_, ?_⟩
  · unfold is_started
    exact decide_eq_true_iff
  · intro hs
    refine ⟨_, loop_of_not_started c w h s hs, ?_, ?_, ?_⟩
    · rw [init_stage2_queue h hq, init_stage1_queue h hq, init_stage0_queue]
    · intro hlt hge
      by_contra hm
      have e1 : (init_stage1 h (init_stage0 s)).initialized = (init_stage0 s).initialized := by
        rw [init_stage1_initialized h hk, if_neg (fun hh => hm hh.2)]
      rw [init_stage2_initialized h hk, e1, init_stage0_initialized] at hge
      split_ifs at hge <;> omega
    · intro h10
      rw [init_stage2_initialized h hk] at h10
      split_ifs at h10 with hj
      · exact hj
      · rw [init_stage1_initialized h hk, init_stage0_initialized] at h10
        split_ifs at h10 <;> omega

/-- C14 at a concrete engine: with readers that finish at once, one call of
`loop` takes a fresh engine from 0 to 10. -/
theorem impl_loop_initialization_state_machine_witness :
    sample_hooks.keep_initialized ∧ sample_hooks.readers_keep_queue ∧
    sample_engine.initialized = 0 ∧
    (init_stage2 sample_hooks (init_stage1 sample_hooks (init_stage0 sample_engine))).initialized
      = 10 ∧
    ((init_stage2 sample_hooks (init_stage1 sample_hooks (init_stage0 sample_engine))).initialized
        ∈ [0, 1, 2, 10] ∧
      (∀ s1, loop_reachable sample_consts sample_wait_consts sample_hooks
          (init_stage2 sample_hooks (init_stage1 sample_hooks (init_stage0 sample_engine))) s1 →
        (init_stage2 sample_hooks (init_stage1 sample_hooks (init_stage0 sample_engine))).initialized
          ≤ s1.initialized) ∧
      (is_started (init_stage2 sample_hooks (init_stage1 sample_hooks (init_stage0 sample_engine)))
          = true ↔
        (init_stage2 sample_hooks (init_stage1 sample_hooks (init_stage0 sample_engine))).initialized
          = 10) ∧
      ((init_stage2 sample_hooks (init_stage1 sample_hooks (init_stage0 sample_engine))).initialized
          ≠ 10 →
        ∃ s1, loop sample_consts sample_wait_consts sample_hooks
            (init_stage2 sample_hooks (init_stage1 sample_hooks (init_stage0 sample_engine)))
            = .returned s1 ∧
          s1.submit_queue =
            (init_stage2 sample_hooks
              (init_stage1 sample_hooks (init_stage0 sample_engine))).submit_queue ∧
          ((init_stage2 sample_hooks
              (init_stage1 sample_hooks (init_stage0 sample_engine))).initialized < 2 →
            2 ≤ s1.initialized →
            (sample_hooks.metadata_loop (init_stage0 (init_stage2 sample_hooks
              (init_stage1 sample_hooks (init_stage0 sample_engine))))).1 = 0) ∧
          (s1.initialized = 10 →
            (init_stage1 sample_hooks (init_stage0 (init_stage2 sample_hooks
              (init_stage1 sample_hooks (init_stage0 sample_engine))))).initialized = 2 ∧
            (sample_hooks.journal_loop (init_stage1 sample_hooks (init_stage0
              (init_stage2 sample_hooks
                (init_stage1 sample_hooks (init_stage0 sample_engine)))))).1 = 0))) :=
  ⟨⟨fun _ => rfl, fun _ => rfl, fun _ _ => rfl, fun _ _ => rfl, fun _ _ => rfl, fun _ _ => rfl,
      fun _ _ => rfl, fun _ _ => rfl, fun _ => rfl, fun _ => rfl⟩,
    ⟨fun _ => rfl, fun _ => rfl⟩, rfl, rfl,
    impl_loop_initialization_state_machine sample_consts sample_wait_consts sample_hooks
      ⟨fun _ => rfl, fun _ => rfl, fun _ _ => rfl, fun _ _ => rfl, fun _ _ => rfl, fun _ _ => rfl,
        fun _ _ => rfl, fun _ _ => rfl, fun _ => rfl, fun _ => rfl⟩
      ⟨fun _ => rfl, fun _ => rfl⟩ sample_engine _ rfl
      (.returned sample_engine _ .start rfl)⟩

end impl_loop_state_machine

section impl_loop_sync
open blockstore_impl_t

theorem after_dequeue_trace (w : wait_consts) (h : impl_hooks)
    (i ring_space prev_sqe_pos : Nat) (r : Int × blockstore_impl_t × blockstore_op_t)
    (has_writes : Nat) (tr : submit_trace) :
    (after_dequeue w h i ring_space prev_sqe_pos r has_writes tr).all
      (fun _ hw1 tr1 => tr1.handed_sync = tr.handed_sync ∧
        (tr1.erased = tr.erased ∨ tr1.erased = tr.erased ++ [i]) ∧
        (hw1 = some 0 → has_writes = 0)) := by
  unfold after_dequeue
  split_ifs <;> simp [step_result.all]

theorem dispatch_trace (c : impl_consts) (hc : c.valid) (w : wait_consts) (h : impl_hooks)
    (kept rest : List blockstore_op_t) (i has_writes : Nat)
    (s : blockstore_impl_t) (tr : submit_trace) (op : blockstore_op_t) :
    (dispatch c w h kept rest i has_writes s tr op).all (step_spec c i has_writes tr op) := by
  obtain ⟨h1, h2, h3, h4, h5, h6, h7, h8, h9, -⟩ := hc
  unfold dispatch
  simp only
  by_cases hrd : op_type c op = c.BS_OP_READ
  · rw [if_pos hrd]
    refine step_result_all_mono ?_ _ (after_dequeue_trace w h i _ _ _ has_writes tr)
    rintro s1 hw1 tr1 ⟨ha, hb, hd⟩
    refine ⟨Or.inl ha, ?_, fun hz => ⟨hd hz, ?_⟩⟩
    · rcases hb with hb | hb
      · exact Or.inl hb
      · exact Or.inr ⟨hb, fun hsy => absurd (hrd.symm.trans hsy) (by omega)⟩
    · unfold is_write; rw [hrd]; omega
  · rw [if_neg hrd]
    by_cases hwr : op_type c op = c.BS_OP_WRITE ∨ op_type c op = c.BS_OP_DELETE
    · rw [if_pos hwr]
      have hns : op_type c op ≠ c.BS_OP_SYNC := by rcases hwr with hh | hh <;> rw [hh] <;> omega
      split_ifs with h2w hdq
      · exact ⟨Or.inl rfl, Or.inl rfl, fun hz => absurd hz (by simp)⟩
      · refine step_result_all_mono ?_ _ (after_dequeue_trace w h i _ _ _ 1 tr)
        rintro s1 hw1 tr1 ⟨ha, hb, hd⟩
        refine ⟨Or.inl ha, ?_, fun hz => absurd (hd hz) (by decide)⟩
        rcases hb with hb | hb
        · exact Or.inl hb
        · exact Or.inr ⟨hb, fun hsy => absurd hsy hns⟩
      · refine step_result_all_mono ?_ _ (after_dequeue_trace w h i _ _ _ 2 tr)
        rintro s1 hw1 tr1 ⟨ha, hb, hd⟩
        refine ⟨Or.inl ha, ?_, fun hz => absurd (hd hz) (by decide)⟩
        rcases hb with hb | hb
        · exact Or.inl hb
        · exact Or.inr ⟨hb, fun hsy => absurd hsy hns⟩
    · rw [if_neg hwr]
      by_cases hsy : op_type c op = c.BS_OP_SYNC
      · rw [if_pos hsy]
        by_cases hz : has_writes = 0
        · rw [if_neg (by simpa using hz)]
          refine step_result_all_mono ?_ _ (after_dequeue_trace w h i _ _ _ has_writes _)
          rintro s1 hw1 tr1 ⟨ha, hb, hd⟩
          simp only at ha hb
          refine ⟨Or.inr ⟨ha, hz, hsy⟩, ?_, fun _ => ⟨hz, hwr⟩⟩
          rcases hb with hb | hb
          · exact Or.inl hb
          · exact Or.inr ⟨hb, fun _ => ha⟩
        · rw [if_pos hz]
          exact ⟨Or.inl rfl, Or.inl rfl, fun hh => absurd (Option.some.inj hh) hz⟩
      · rw [if_neg hsy]
        split_ifs <;>
        · refine step_result_all_mono ?_ _ (after_dequeue_trace w h i _ _ _ has_writes tr)
          rintro s1 hw1 tr1 ⟨ha, hb, hd⟩
          refine ⟨Or.inl ha, ?_, fun hz => ⟨hd hz, hwr⟩⟩
          rcases hb with hb | hb
          · exact Or.inl hb
          · exact Or.inr ⟨hb, fun hh => absurd hh hsy⟩

theorem step_spec_opcode (c : impl_consts) (i has_writes : Nat) (tr : submit_trace)
    (op op1 : blockstore_op_t) (ho : op1.opcode = op.opcode) (s1 : blockstore_impl_t)
    (hw1 : Option Nat) (tr1 : submit_trace) (hsp : step_spec c i has_writes tr op1 s1 hw1 tr1) :
    step_spec c i has_writes tr op s1 hw1 tr1 := by
  have ht : op_type c op1 = op_type c op := by unfold op_type; rw [ho]
  unfold step_spec is_write at hsp ⊢
  rw [ht] at hsp
  exact hsp

theorem submit_step_trace (c : impl_consts) (hc : c.valid) (w : wait_consts) (h : impl_hooks)
    (kept rest : List blockstore_op_t) (i has_writes : Nat)
    (s : blockstore_impl_t) (tr : submit_trace) (op : blockstore_op_t) :
    (submit_step c w h kept rest i has_writes s tr op).all (step_spec c i has_writes tr op) := by
  unfold submit_step
  split_ifs with hwf
  · cases hcw : check_wait w s op with
    | undefined => simp only [step_result.all]
    | thrown op1 => exact ⟨Or.inl rfl, Or.inl rfl, fun hz => absurd hz (by simp)⟩
    | returned op1 =>
      have ho := check_wait_opcode w s op op1 hcw
      have ht : op_type c op1 = op_type c op := by unfold op_type; rw [ho]
      simp only
      by_cases hsq : op1.private_data.wait_for = w.WAIT_SQE
      · rw [if_pos hsq]
        exact ⟨Or.inl rfl, Or.inl rfl, fun hz => absurd hz (by simp)⟩
      · rw [if_neg hsq]
        by_cases hw0 : op1.private_data.wait_for = 0
        · rw [if_neg (by simpa using hw0)]
          exact step_result_all_mono (step_spec_opcode c i has_writes tr op op1 ho) _
            (dispatch_trace c hc w h kept rest i has_writes s tr op1)
        · rw [if_pos hw0]
          refine ⟨Or.inl rfl, Or.inl rfl, fun hz => ?_⟩
          have hz1 := Option.some.inj hz
          rw [ht] at hz1
          by_cases hwr : op_type c op = c.BS_OP_WRITE ∨ op_type c op = c.BS_OP_DELETE
          · rw [if_pos hwr] at hz1; exact absurd hz1 (by decide)
          · rw [if_neg hwr] at hz1; exact ⟨hz1, hwr⟩
  · exact dispatch_trace c hc w h kept rest i has_writes s tr op

theorem submit_ops_trace (c : impl_consts) (hc : c.valid) (w : wait_consts) (h : impl_hooks)
    (rest : List blockstore_op_t) :
    ∀ (i : Nat) (kept : List blockstore_op_t) (has_writes : Nat) (s : blockstore_impl_t)
      (tr : submit_trace) (r : blockstore_impl_t × submit_trace),
      (submit_ops c w h rest i kept has_writes s tr = .returned r ∨
        submit_ops c w h rest i kept has_writes s tr = .thrown r) →
      (∀ k ∈ tr.handed_sync, k ∈ r.2.handed_sync) ∧
      (∀ k ∈ r.2.handed_sync, k ∈ tr.handed_sync ∨
        (i ≤ k ∧ has_writes = 0 ∧ (∃ op, rest[k - i]? = some op ∧ op_type c op = c.BS_OP_SYNC) ∧
          ∀ j, j < k - i → ∀ op, rest[j]? = some op → ¬ is_write c op)) ∧
      (∀ k ∈ r.2.erased, k ∈ tr.erased ∨
        (i ≤ k ∧ ∀ op, rest[k - i]? = some op → op_type c op = c.BS_OP_SYNC →
          k ∈ r.2.handed_sync)) := by
  induction rest with
  | nil =>
    intro i kept has_writes s tr r hres
    simp only [submit_ops] at hres
    rcases hres with hres | hres
    · injection hres with hres
      subst hres
      exact ⟨fun k hk => hk, fun k hk => Or.inl hk, fun k hk => Or.inl hk⟩
    · exact absurd hres (by simp)
  | cons op rest ih =>
    intro i kept has_writes s tr r hres
    have hstep := submit_step_trace c hc w h kept rest i has_writes s tr op
    simp only [submit_ops] at hres
    have hlast : ∀ tr1 : submit_trace, step_spec c i has_writes tr op s none tr1 →
        (∀ k ∈ tr.handed_sync, k ∈ tr1.handed_sync) ∧
        (∀ k ∈ tr1.handed_sync, k ∈ tr.handed_sync ∨
          (i ≤ k ∧ has_writes = 0 ∧
            (∃ o, (op :: rest)[k - i]? = some o ∧ op_type c o = c.BS_OP_SYNC) ∧
            ∀ j, j < k - i → ∀ o, (op :: rest)[j]? = some o → ¬ is_write c o)) ∧
        (∀ k ∈ tr1.erased, k ∈ tr.erased ∨
          (i ≤ k ∧ ∀ o, (op :: rest)[k - i]? = some o → op_type c o = c.BS_OP_SYNC →
            k ∈ tr1.handed_sync)) := by
      rintro tr1 ⟨ha, hb, -⟩
      refine ⟨?_, ?_, ?_⟩
      · intro k hk
        rcases ha with ha | ⟨ha, -, -⟩ <;> rw [ha]
        · exact hk
        · exact List.mem_append_left _ hk
      · intro k hk
        rcases ha with ha | ⟨ha, hz, hsy⟩ <;> rw [ha] at hk
        · exact Or.inl hk
        · rcases List.mem_append.mp hk with hk | hk
          · exact Or.inl hk
          · have hki : k = i := by simpa using hk
            subst hki
            refine Or.inr ⟨le_refl _, hz, ⟨op, by simp, hsy⟩, fun j hj => ?_⟩
            omega
      · intro k hk
        rcases hb with hb | ⟨hb, hsy⟩ <;> rw [hb] at hk
        · exact Or.inl hk
        · rcases List.mem_append.mp hk with hk | hk
          · exact Or.inl hk
          · have hki : k = i := by simpa using hk
            subst hki
            refine Or.inr ⟨le_refl _, fun o ho hos => ?_⟩
            have hoo : o = op := by simpa using ho.symm
            subst hoo
            rw [hsy hos]
            exact List.mem_append_right _ (List.mem_singleton_self _)
    cases hs : submit_step c w h kept rest i has_writes s tr op with
    | stop s1 op1 tr1 =>
      rw [hs] at hres hstep
      simp only [step_result.all] at hstep
      rcases hres with hres | hres
      · injection hres with hres; subst hres; exact hlast tr1 hstep
      · exact absurd hres (by simp)
    | thrown s1 op1 tr1 =>
      rw [hs] at hres hstep
      simp only [step_result.all] at hstep
      rcases hres with hres | hres
      · exact absurd hres (by simp)
      · injection hres with hres; subst hres; exact hlast tr1 hstep
    | undefined =>
      rw [hs] at hres
      rcases hres with hres | hres <;> exact absurd hres (by simp)
    | next s1 keep hw tr1 =>
      rw [hs] at hres hstep
      simp only [step_result.all] at hstep
      obtain ⟨i1, i2, i3⟩ := ih _ _ _ _ _ _ hres
      obtain ⟨ha, hb, hd⟩ := hstep
      have hsub : ∀ k ∈ tr.handed_sync, k ∈ tr1.handed_sync := by
        intro k hk
        rcases ha with ha | ⟨ha, -, -⟩ <;> rw [ha]
        · exact hk
        · exact List.mem_append_left _ hk
      refine ⟨fun k hk => i1 k (hsub k hk), ?_, ?_⟩
      · intro k hk
        rcases i2 k hk with hk1 | ⟨hle, hz, ⟨o, ho, hos⟩, hbefore⟩
        · rcases ha with ha | ⟨ha, hz, hsy⟩ <;> rw [ha] at hk1
          · exact Or.inl hk1
          · rcases List.mem_append.mp hk1 with hk1 | hk1
            · exact Or.inl hk1
            · have hki : k = i := by simpa using hk1
              subst hki
              refine Or.inr ⟨le_refl _, hz, ⟨op, by simp, hsy⟩, fun j hj => ?_⟩
              omega
        · have hw0 := hd (by rw [hz])
          have hidx : k - i = (k - (i + 1)) + 1 := by omega
          refine Or.inr ⟨by omega, hw0.1, ⟨o, ?_, hos⟩, ?_⟩
          · rw [hidx, List.getElem?_cons_succ]; exact ho
          · intro j hj o1 ho1
            cases j with
            | zero =>
              have hoo : o1 = op := by simpa using ho1.symm
              rw [hoo]; exact hw0.2
            | succ j =>
              rw [List.getElem?_cons_succ] at ho1
              exact hbefore j (by omega) o1 ho1
      · intro k hk
        rcases i3 k hk with hk1 | ⟨hle, himp⟩
        · rcases hb with hb | ⟨hb, hsy⟩ <;> rw [hb] at hk1
          · exact Or.inl hk1
          · rcases List.mem_append.mp hk1 with hk1 | hk1
            · exact Or.inl hk1
            · have hki : k = i := by simpa using hk1
              subst hki
              refine Or.inr ⟨le_refl _, fun o ho hos => ?_⟩
              have hoo : o = op := by simpa using ho.symm
              subst hoo
              apply i1
              rw [hsy hos]
              exact List.mem_append_right _ (List.mem_singleton_self _)
        · have hidx : k - i = (k - (i + 1)) + 1 := by omega
          refine Or.inr ⟨by omega, fun o ho hos => himp o ?_ hos⟩
          rw [hidx, List.getElem?_cons_succ] at ho
          exact ho

/-- C12: sync ordering in `blockstore_impl_t::loop`. In a call of `loop` that
returns or throws, every operation handed to `dequeue_sync` is a SYNC with no
WRITE and no DELETE before it in `submit_queue` as the pass over the queue found
it, whatever happened to the operations before it; and a SYNC leaves the queue
in the pass only if it was handed to `dequeue_sync`. -/
theorem impl_loop_sync_after_writes (c : impl_consts) (hc : c.valid) (w : wait_consts)
    (h : impl_hooks) (s : blockstore_impl_t) (r : blockstore_impl_t × submit_trace)
    (hres : loop_trace c w h s = .returned r ∨ loop_trace c w h s = .thrown r) :
    (∀ k ∈ r.2.handed_sync,
      (∃ op, (s.in_progress_syncs.foldl h.continue_sync s).submit_queue[k]? = some op ∧
        op_type c op = c.BS_OP_SYNC) ∧
      ∀ j, j < k → ∀ op,
        (s.in_progress_syncs.foldl h.continue_sync s).submit_queue[j]? = some op →
        op_type c op ≠ c.BS_OP_WRITE ∧ op_type c op ≠ c.BS_OP_DELETE) ∧
    (∀ k ∈ r.2.erased, ∀ op,
      (s.in_progress_syncs.foldl h.continue_sync s).submit_queue[k]? = some op →
      op_type c op = c.BS_OP_SYNC → k ∈ r.2.handed_sync) := by
  unfold loop_trace at hres
  by_cases hs : s.initialized = 10
  · rw [if_neg (by simpa using hs)] at hres
    simp only at hres
    have key : ∀ x : blockstore_impl_t × submit_trace,
        (submit_ops c w h (s.in_progress_syncs.foldl h.continue_sync s).submit_queue 0 [] 0
            (s.in_progress_syncs.foldl h.continue_sync s) {} = .returned x ∨
          submit_ops c w h (s.in_progress_syncs.foldl h.continue_sync s).submit_queue 0 [] 0
            (s.in_progress_syncs.foldl h.continue_sync s) {} = .thrown x) →
        r.2 = x.2 →
        (∀ k ∈ r.2.handed_sync,
          (∃ op, (s.in_progress_syncs.foldl h.continue_sync s).submit_queue[k]? = some op ∧
            op_type c op = c.BS_OP_SYNC) ∧
          ∀ j, j < k → ∀ op,
            (s.in_progress_syncs.foldl h.continue_sync s).submit_queue[j]? = some op →
            op_type c op ≠ c.BS_OP_WRITE ∧ op_type c op ≠ c.BS_OP_DELETE) ∧
        (∀ k ∈ r.2.erased, ∀ op,
          (s.in_progress_syncs.foldl h.continue_sync s).submit_queue[k]? = some op →
          op_type c op = c.BS_OP_SYNC → k ∈ r.2.handed_sync) := by
      intro x hx hrx
      obtain ⟨-, i2, i3⟩ := submit_ops_trace c hc w h _ _ _ _ _ _ x hx
      rw [hrx]
      refine ⟨fun k hk => ?_, fun k hk op ho hos => ?_⟩
      · rcases i2 k hk with hk1 | ⟨-, -, hex, hbefore⟩
        · exact absurd hk1 (List.not_mem_nil _)
        · refine ⟨hex, fun j hj op ho => ?_⟩
          have hnw := hbefore j (by omega) op ho
          unfold is_write at hnw
          exact ⟨fun hh => hnw (Or.inl hh), fun hh => hnw (Or.inr hh)⟩
      · rcases i3 k hk with hk1 | ⟨-, himp⟩
        · exact absurd hk1 (List.not_mem_nil _)
        · exact himp op ho hos
    cases hp : submit_ops c w h (s.in_progress_syncs.foldl h.continue_sync s).submit_queue 0 [] 0
        (s.in_progress_syncs.foldl h.continue_sync s) {} with
    | undefined => rw [hp] at hres; rcases hres with hres | hres <;> exact absurd hres (by simp)
    | thrown x =>
      rw [hp] at hres
      rcases hres with hres | hres
      · exact absurd hres (by simp)
      · simp only at hres; injection hres with hres; subst hres; exact key _ (Or.inr hp) rfl
    | returned x =>
      rw [hp] at hres
      obtain ⟨s2, tr⟩ := x
      simp only at hres
      cases hf : finish_loop h s2 with
      | undefined => rw [hf] at hres; rcases hres with hres | hres <;> exact absurd hres (by simp)
      | thrown s3 =>
        rw [hf] at hres
        rcases hres with hres | hres
        · exact absurd hres (by simp)
        · simp only at hres; injection hres with hres; subst hres; exact key _ (Or.inl hp) rfl
      | returned s3 =>
        rw [hf] at hres
        rcases hres with hres | hres
        · simp only at hres; injection hres with hres; subst hres; exact key _ (Or.inl hp) rfl
        · exact absurd hres (by simp)
  · rw [if_pos hs] at hres
    rcases hres with hres | hres
    · injection hres with hres
      subst hres
      exact ⟨fun k hk => absurd hk (List.not_mem_nil _), fun k hk => absurd hk (List.not_mem_nil _)⟩
    · exact absurd hres (by simp)

/-- C12 at a concrete queue: a READ, a SYNC, a WRITE that waits for journal
space, and a second SYNC. The first SYNC is handed to `dequeue_sync`, the second
stays in the queue behind the WRITE. -/
theorem impl_loop_sync_after_writes_witness :
    sample_consts.valid ∧
    ∃ r, loop_trace sample_consts sample_wait_consts sample_hooks
        { sample_engine with
          initialized := 10,
          submit_queue := [clear_wait (sample_op 1 0 512), clear_wait (sample_op 3 0 0),
            sample_op 2 0 512, clear_wait (sample_op 3 0 0)] } = .returned r ∧
      r.2 = { handed_sync := [1], erased := [0, 1] } ∧
      r.1.submit_queue = [sample_op 2 0 512, clear_wait (sample_op 3 0 0)] ∧
      (∀ k ∈ r.2.handed_sync,
        (∃ op, [clear_wait (sample_op 1 0 512), clear_wait (sample_op 3 0 0),
            sample_op 2 0 512, clear_wait (sample_op 3 0 0)][k]? = some op ∧
          op_type sample_consts op = sample_consts.BS_OP_SYNC) ∧
        ∀ j, j < k → ∀ op,
          [clear_wait (sample_op 1 0 512), clear_wait (sample_op 3 0 0),
            sample_op 2 0 512, clear_wait (sample_op 3 0 0)][j]? = some op →
          op_type sample_consts op ≠ sample_consts.BS_OP_WRITE ∧
          op_type sample_consts op ≠ sample_consts.BS_OP_DELETE) ∧
      (∀ k ∈ r.2.erased, ∀ op,
        [clear_wait (sample_op 1 0 512), clear_wait (sample_op 3 0 0),
            sample_op 2 0 512, clear_wait (sample_op 3 0 0)][k]? = some op →
        op_type sample_consts op = sample_consts.BS_OP_SYNC → k ∈ r.2.handed_sync) :=
  ⟨by decide, _, rfl, rfl, rfl,
    impl_loop_sync_after_writes sample_consts (by decide) sample_wait_consts sample_hooks
      { sample_engine with
        initialized := 10,
        submit_queue := [clear_wait (sample_op 1 0 512), clear_wait (sample_op 3 0 0),
          sample_op 2 0 512, clear_wait (sample_op 3 0 0)] } _ (Or.inl rfl)⟩

end impl_loop_sync

section legacy_loop_sync
open blockstore

theorem legacy_check_parked_skip (w : wait_consts) (hw : w.valid) (s : blockstore)
    (op : blockstore_operation) (hp : parked w s op) :
    op.wait_for ≠ 0 ∧ check_parked w s op = .skip := by
  unfold wait_consts.valid at hw
  simp only [List.nodup_cons, List.mem_cons, List.mem_singleton, List.not_mem_nil, not_or,
    List.nodup_nil, or_false, and_true, not_false_eq_true] at hw
  obtain ⟨⟨h01, h02, h03, h04, h05⟩, ⟨h12, h13, h14, h15⟩, ⟨h23, h24, h25⟩, ⟨h34, h35⟩, h45⟩ := hw
  unfold check_parked
  rcases hp with ⟨hf, e, he, hfl⟩ | ⟨hf, hlt⟩ | ⟨hf, hcnt, u, hu, hpos⟩
  · refine ⟨by rw [hf]; exact fun hh => h02 hh.symm, ?_⟩
    rw [if_neg (by rw [hf]; exact fun hh => h12 hh.symm), if_pos hf, he]
    simp only [hfl, if_true]
  · refine ⟨by rw [hf]; exact fun hh => h03 hh.symm, ?_⟩
    rw [if_neg (by rw [hf]; exact fun hh => h13 hh.symm),
      if_neg (by rw [hf]; exact fun hh => h23 hh.symm), if_pos hf, if_pos hlt]
  · refine ⟨by rw [hf]; exact fun hh => h04 hh.symm, ?_⟩
    rw [if_neg (by rw [hf]; exact fun hh => h14 hh.symm),
      if_neg (by rw [hf]; exact fun hh => h24 hh.symm),
      if_neg (by rw [hf]; exact fun hh => h34 hh.symm), if_pos hf, if_neg hcnt, hu]
    simp only [hpos, if_true]

theorem legacy_dispatch_sync (c : legacy_consts) (hc : c.valid) (w : wait_consts)
    (h : legacy_hooks) (kept rest : List blockstore_operation) (i : Nat) (s : blockstore)
    (tr : submit_trace) (op : blockstore_operation) (hsy : op_type c op = c.OP_SYNC) :
    dispatch c w h kept rest i 0 s tr op =
      after_dequeue w i (h.dequeue_sync { s with submit_queue := kept ++ op :: rest } op) 0
        { tr with handed_sync := tr.handed_sync ++ [i] } := by
  obtain ⟨h1, h2, h3, h4, h5, h6, h7, h8, h9, h10, h11, h12, h13, h14, -, -⟩ := hc
  unfold dispatch
  simp only
  rw [if_neg (by rw [hsy]; omega), if_neg (by rw [hsy]; omega), if_pos hsy,
    if_neg (by simp)]

/-- C13: in `blockstore::loop`, a SYNC behind a parked write is handed to
`dequeue_sync`. With `submit_queue` holding a WRITE or DELETE that waits for an
in-flight version, for journal space or for a journal buffer, its wake-up
condition not met, followed by a SYNC that does not wait, the call returns; the
SYNC, at position 1, has been handed to `dequeue_sync`, and the write has not
been erased and is still at the head of `submit_queue`. -/
theorem legacy_loop_hands_sync_past_parked_write (c : legacy_consts) (hc : c.valid)
    (w : wait_consts) (hw : w.valid) (h : legacy_hooks) (s : blockstore)
    (wr sy : blockstore_operation) (hs : s.initialized = 10) (hq : s.submit_queue = [wr, sy])
    (_hwr : op_type c wr = c.OP_WRITE ∨ op_type c wr = c.OP_DELETE) (hp : parked w s wr)
    (hsy : op_type c sy = c.OP_SYNC) (hsw : sy.wait_for = 0) :
    ∃ r, loop_trace c w h s = .returned r ∧ r.2.handed_sync = [1] ∧ 0 ∉ r.2.erased ∧
      r.1.submit_queue.head? = some wr := by
  obtain ⟨hne, hskip⟩ := legacy_check_parked_skip w hw s wr hp
  unfold loop_trace
  rw [if_neg (by simpa using hs), hq]
  simp only [submit_ops, submit_step, if_pos hne, hskip, hsw, ne_eq, not_true_eq_false,
    if_false, legacy_dispatch_sync c hc w h _ _ _ _ _ sy hsy]
  unfold after_dequeue
  split_ifs <;> simp [submit_ops]

/-- C13 at a concrete queue: a WRITE that waits for the journal to be trimmed to
position 100 while `journal.used_start` is 50, followed by a SYNC. -/
theorem legacy_loop_hands_sync_past_parked_write_witness :
    sample_consts.valid ∧ sample_wait_consts.valid ∧
    parked sample_wait_consts
      { sample_engine [] [] with
        submit_queue := [{ sample_op 3 0 512 with wait_for := 3, wait_detail := 100 },
          sample_op 4 0 0],
        journal_used_start := 50 }
      { sample_op 3 0 512 with wait_for := 3, wait_detail := 100 } ∧
    ∃ r, loop_trace sample_consts sample_wait_consts sample_hooks
        { sample_engine [] [] with
          submit_queue := [{ sample_op 3 0 512 with wait_for := 3, wait_detail := 100 },
            sample_op 4 0 0],
          journal_used_start := 50 } = .returned r ∧
      r.2.handed_sync = [1] ∧ 0 ∉ r.2.erased ∧
      r.1.submit_queue.head? = some { sample_op 3 0 512 with wait_for := 3, wait_detail := 100 } :=
  ⟨by decide, by decide, Or.inr (Or.inl ⟨rfl, by decide⟩),
    legacy_loop_hands_sync_past_parked_write sample_consts (by decide) sample_wait_consts
      (by decide) sample_hooks
      { sample_engine [] [] with
        submit_queue := [{ sample_op 3 0 512 with wait_for := 3, wait_detail := 100 },
          sample_op 4 0 0],
        journal_used_start := 50 }
      { sample_op 3 0 512 with wait_for := 3, wait_detail := 100 } (sample_op 4 0 0)
      rfl rfl (Or.inl rfl) (Or.inr (Or.inl ⟨rfl, by decide⟩)) rfl rfl⟩

end legacy_loop_sync

section implicit_sync_once
open blockstore_impl_t

theorem is_safe_to_stop_enqueues (c : impl_consts) (hc : c.valid)
    (hmask : c.BS_OP_SYNC &&& c.BS_OP_TYPE_MASK = c.BS_OP_SYNC)
    (fresh : blockstore_op_t) (s : blockstore_impl_t) (hro : s.readonly = false)
    (hflag : s.stop_sync_submitted = false) (hF : finds_unsynced s) :
    is_safe_to_stop c fresh s =
      (false, { s with
        submit_queue := s.submit_queue ++ [implicit_sync c fresh]
        wakeups := s.wakeups + 1
        stop_sync_submitted := true }) := by
  obtain ⟨hq, hs, hfl, hu⟩ := hF
  obtain ⟨h1, h2, h3, h4, h5, h6, h7, h8, h9, h10⟩ := hc
  have ht : op_type c { fresh with opcode := c.BS_OP_SYNC } = c.BS_OP_SYNC := hmask
  have hnf : ¬ verification_failed c s { fresh with opcode := c.BS_OP_SYNC } := by
    unfold verification_failed
    rw [ht, hro]
    simp only [Bool.false_eq_true, false_and, or_false]
    omega
  have henq : enqueue_op c s { fresh with opcode := c.BS_OP_SYNC } =
      ({ s with submit_queue := s.submit_queue ++ [implicit_sync c fresh],
                wakeups := s.wakeups + 1 }, implicit_sync c fresh) := by
    unfold enqueue_op
    rw [if_neg hnf]
    have ht1 : op_type c { ({ fresh with opcode := c.BS_OP_SYNC } : blockstore_op_t) with
        private_data := { fresh.private_data with
          wait_for := 0, sync_state := 0, pending_ops := 0 } } = c.BS_OP_SYNC := hmask
    simp only [ht1, if_neg (Ne.symm h7)]
    rfl
  unfold is_safe_to_stop
  rw [henq]
  have hu1 : s.unsynced_big_writes.length > 0 ∨ s.unsynced_small_writes.length > 0 := by
    rcases hu with hu | hu
    · exact Or.inl (List.length_pos.mpr hu)
    · exact Or.inr (List.length_pos.mpr hu)
  rw [if_neg (by simp [hq, hs, hfl]), if_pos hu1, if_pos ⟨hro, hflag⟩]

theorem is_safe_to_stop_idle (c : impl_consts) (fresh : blockstore_op_t) (s : blockstore_impl_t)
    (h : ¬ (finds_unsynced s ∧ s.stop_sync_submitted = false)) (hro : s.readonly = false) :
    (is_safe_to_stop c fresh s).2 = s := by
  unfold is_safe_to_stop
  by_cases h1 : s.submit_queue.length > 0 ∨ s.in_progress_syncs.length > 0 ∨
      (s.readonly = false ∧ s.flusher_active = true)
  · rw [if_pos h1]
  · rw [if_neg h1]
    by_cases h2 : s.unsynced_big_writes.length > 0 ∨ s.unsynced_small_writes.length > 0
    · rw [if_pos h2]
      by_cases h3 : s.readonly = false ∧ s.stop_sync_submitted = false
      · exfalso
        apply h
        simp only [not_or, not_and, gt_iff_lt, not_lt, Nat.le_zero, List.length_eq_zero] at h1
        refine ⟨⟨h1.1, h1.2.1, ?_, ?_⟩, h3.2⟩
        · cases hf : s.flusher_active
          · rfl
          · exact absurd hf (h1.2.2 hro)
        · rcases h2 with h2 | h2
          · exact Or.inl (List.length_pos.mp h2)
          · exact Or.inr (List.length_pos.mp h2)
      · rw [if_neg h3]
    · rw [if_neg h2]

theorem is_safe_to_stop_flags (c : impl_consts) (hc : c.valid)
    (hmask : c.BS_OP_SYNC &&& c.BS_OP_TYPE_MASK = c.BS_OP_SYNC)
    (fresh : blockstore_op_t) (s : blockstore_impl_t) (hro : s.readonly = false) :
    (is_safe_to_stop c fresh s).2.readonly = false ∧
    ((is_safe_to_stop c fresh s).2.stop_sync_submitted = true ↔
      s.stop_sync_submitted = true ∨ finds_unsynced s) := by
  by_cases h : finds_unsynced s ∧ s.stop_sync_submitted = false
  · rw [is_safe_to_stop_enqueues c hc hmask fresh s hro h.2 h.1]
    exact ⟨hro, fun _ => Or.inr h.1, fun _ => rfl⟩
  · rw [is_safe_to_stop_idle c fresh s h hro]
    refine ⟨hro, fun hh => Or.inl hh, fun hh => ?_⟩
    rcases hh with hh | hh
    · exact hh
    · by_contra hne
      exact h ⟨hh, by simpa using hne⟩

theorem stop_calls_flag (c : impl_consts) (hc : c.valid)
    (hmask : c.BS_OP_SYNC &&& c.BS_OP_TYPE_MASK = c.BS_OP_SYNC)
    (fresh : blockstore_op_t) (env : List (blockstore_impl_t → blockstore_impl_t)) :
    ∀ (s : blockstore_impl_t), keeps_stop_flags env → s.readonly = false →
      ∀ (k : Nat) (x : blockstore_impl_t × Bool × blockstore_impl_t),
      (stop_calls c fresh env s)[k]? = some x →
        x.1.readonly = false ∧ x.2 = is_safe_to_stop c fresh x.1 ∧
        (x.1.stop_sync_submitted = true ↔
          s.stop_sync_submitted = true ∨
          ∃ (j : Nat) (y : blockstore_impl_t × Bool × blockstore_impl_t),
            j < k ∧ (stop_calls c fresh env s)[j]? = some y ∧ finds_unsynced y.1) := by
  induction env with
  | nil =>
    intro s _ _ k x hx
    simp [stop_calls] at hx
  | cons e rest ih =>
    intro s henv hro k x hx
    have he := henv e (List.mem_cons_self _ _) s
    have hrest : keeps_stop_flags rest := fun e1 h1 => henv e1 (List.mem_cons_of_mem _ h1)
    have hro1 : (e s).readonly = false := by rw [he.1, hro]
    obtain ⟨hro2, hfl2⟩ := is_safe_to_stop_flags c hc hmask fresh (e s) hro1
    simp only [stop_calls] at hx ⊢
    cases k with
    | zero =>
      simp only [List.getElem?_cons_zero, Option.some.injEq] at hx
      subst hx
      refine ⟨hro1, rfl, ?_⟩
      simp only [he.2]
      constructor
      · intro hh; exact Or.inl hh
      · rintro (hh | ⟨j, y, hj, -, -⟩)
        · exact hh
        · omega
    | succ k =>
      rw [List.getElem?_cons_succ] at hx
      obtain ⟨i1, i2, i3⟩ := ih _ hrest hro2 k x hx
      refine ⟨i1, i2, ?_⟩
      rw [i3, hfl2, he.2]
      constructor
      · rintro ((hh | hh) | ⟨j, y, hj, hy, hyF⟩)
        · exact Or.inl hh
        · exact Or.inr ⟨0, (e s, is_safe_to_stop c fresh (e s)), by omega,
            List.getElem?_cons_zero, hh⟩
        · exact Or.inr ⟨j + 1, y, by omega, by rw [List.getElem?_cons_succ]; exact hy, hyF⟩
      · rintro (hh | ⟨j, y, hj, hy, hyF⟩)
        · exact Or.inl (Or.inl hh)
        · cases j with
          | zero =>
            simp only [List.getElem?_cons_zero, Option.some.injEq] at hy
            subst hy
            exact Or.inl (Or.inr hyF)
          | succ j =>
            rw [List.getElem?_cons_succ] at hy
            exact Or.inr ⟨j, y, by omega, hy, hyF⟩

/-- C21: the final implicit sync. Over a sequence of `is_safe_to_stop` calls on
an engine that stays writable, with `stop_sync_submitted` false at the start
and assigned by no other code: a call changes `submit_queue` exactly when it is
the first call that finds the queue empty, no sync in progress, the flusher idle
and some unsynced write; that call appends the implicit SYNC and returns false;
and no two calls change the queue. -/
theorem is_safe_to_stop_enqueues_sync_once (c : impl_consts) (hc : c.valid)
    (hmask : c.BS_OP_SYNC &&& c.BS_OP_TYPE_MASK = c.BS_OP_SYNC)
    (fresh : blockstore_op_t) (env : List (blockstore_impl_t → blockstore_impl_t))
    (s : blockstore_impl_t) (henv : keeps_stop_flags env) (hro : s.readonly = false)
    (hflag : s.stop_sync_submitted = false) :
    (∀ (k : Nat) (x : blockstore_impl_t × Bool × blockstore_impl_t),
      (stop_calls c fresh env s)[k]? = some x →
      (x.2.2.submit_queue ≠ x.1.submit_queue ↔
        finds_unsynced x.1 ∧
        ∀ (j : Nat) (y : blockstore_impl_t × Bool × blockstore_impl_t),
          j < k → (stop_calls c fresh env s)[j]? = some y → ¬ finds_unsynced y.1) ∧
      (x.2.2.submit_queue ≠ x.1.submit_queue →
        x.2.2.submit_queue = x.1.submit_queue ++ [implicit_sync c fresh] ∧ x.2.1 = false)) ∧
    (∀ (j k : Nat) (x y : blockstore_impl_t × Bool × blockstore_impl_t),
      (stop_calls c fresh env s)[j]? = some x →
      (stop_calls c fresh env s)[k]? = some y →
      x.2.2.submit_queue ≠ x.1.submit_queue → y.2.2.submit_queue ≠ y.1.submit_queue → j = k) := by
  have key : ∀ (k : Nat) (x : blockstore_impl_t × Bool × blockstore_impl_t),
      (stop_calls c fresh env s)[k]? = some x →
      (x.2.2.submit_queue ≠ x.1.submit_queue ↔
        finds_unsynced x.1 ∧
        ∀ (j : Nat) (y : blockstore_impl_t × Bool × blockstore_impl_t),
          j < k → (stop_calls c fresh env s)[j]? = some y → ¬ finds_unsynced y.1) ∧
      (x.2.2.submit_queue ≠ x.1.submit_queue →
        x.2.2.submit_queue = x.1.submit_queue ++ [implicit_sync c fresh] ∧ x.2.1 = false) := by
    intro k x hx
    obtain ⟨hro1, hcall, hfl⟩ := stop_calls_flag c hc hmask fresh env s henv hro k x hx
    have hfl1 : x.1.stop_sync_submitted = true ↔
        ∃ (j : Nat) (y : blockstore_impl_t × Bool × blockstore_impl_t),
            j < k ∧ (stop_calls c fresh env s)[j]? = some y ∧ finds_unsynced y.1 := by
      rw [hfl, hflag]
      simp
    by_cases h : finds_unsynced x.1 ∧ x.1.stop_sync_submitted = false
    · have hr := is_safe_to_stop_enqueues c hc hmask fresh x.1 hro1 h.2 h.1
      rw [← hcall] at hr
      have hchg : x.2.2.submit_queue ≠ x.1.submit_queue := by
        rw [hr]
        simp
      refine ⟨⟨fun _ => ⟨h.1, fun j y hj hy hyF => ?_⟩, fun _ => hchg⟩, fun _ => ?_⟩
      · have := hfl1.mpr ⟨j, y, hj, hy, hyF⟩
        rw [h.2] at this
        exact absurd this (by decide)
      · rw [hr]
        exact ⟨rfl, rfl⟩
    · have hr := is_safe_to_stop_idle c fresh x.1 h hro1
      rw [← hcall] at hr
      have hsame : x.2.2.submit_queue = x.1.submit_queue := by rw [hr]
      refine ⟨⟨fun hh => absurd hsame hh, fun hh => ?_⟩, fun hh => absurd hsame hh⟩
      exfalso
      apply h
      refine ⟨hh.1, ?_⟩
      by_contra hne
      have htrue : x.1.stop_sync_submitted = true := by simpa using hne
      obtain ⟨j, y, hj, hy, hyF⟩ := hfl1.mp htrue
      exact hh.2 j y hj hy hyF
  refine ⟨key, ?_⟩
  intro j k x y hx hy hcx hcy
  obtain ⟨hxF, hxfirst⟩ := (key j x hx).1.mp hcx
  obtain ⟨hyF, hyfirst⟩ := (key k y hy).1.mp hcy
  rcases Nat.lt_trichotomy j k with hlt | heq | hgt
  · exact absurd hxF (hyfirst j x hlt hx)
  · exact heq
  · exact absurd hyF (hxfirst k y hgt hy)

/-- C21 at a concrete run of three calls: the first finds an unsynced write and
enqueues the SYNC; the second finds the queue occupied; the third finds the
queue drained and the write still unsynced, and enqueues nothing. -/
theorem is_safe_to_stop_enqueues_sync_once_witness :
    sample_consts.valid ∧
    sample_consts.BS_OP_SYNC &&& sample_consts.BS_OP_TYPE_MASK = sample_consts.BS_OP_SYNC ∧
    keeps_stop_flags sample_stop_env ∧
    sample_unsynced_engine.readonly = false ∧
    sample_unsynced_engine.stop_sync_submitted = false ∧
    (stop_calls sample_consts (sample_op 0 0 0) sample_stop_env sample_unsynced_engine).map
        (fun x => (decide (finds_unsynced x.1), x.2.1, x.2.2.submit_queue.length)) =
      [(true, false, 1), (false, false, 1), (true, false, 0)] ∧
    (∀ (j k : Nat) (x y : blockstore_impl_t × Bool × blockstore_impl_t),
      (stop_calls sample_consts (sample_op 0 0 0) sample_stop_env sample_unsynced_engine)[j]? =
        some x →
      (stop_calls sample_consts (sample_op 0 0 0) sample_stop_env sample_unsynced_engine)[k]? =
        some y →
      x.2.2.submit_queue ≠ x.1.submit_queue → y.2.2.submit_queue ≠ y.1.submit_queue → j = k) :=
  have henv : keeps_stop_flags sample_stop_env := by
    intro e he s
    simp only [sample_stop_env, List.mem_cons, List.mem_singleton, List.not_mem_nil,
      or_false] at he
    rcases he with he | he | he <;> subst he <;> exact ⟨rfl, rfl⟩
  ⟨by decide, by decide, henv, rfl, rfl, by decide,
    (is_safe_to_stop_enqueues_sync_once sample_consts (by decide) (by decide) (sample_op 0 0 0)
      sample_stop_env sample_unsynced_engine henv rfl rfl).2⟩

end implicit_sync_once

section parse_config_more
open blockstore_impl_t

/-- The members that a returning `parse_config` leaves, as far as the flusher
counts, the device names and the bitmap are concerned. -/
theorem parse_config_ok_fields (c : open_consts) (s0 s : impl_layout)
    (cfg : blockstore_config_t) (h : parse_config c s0 cfg = .ok s) :
    s.max_flusher_count =
      (if (if cfg.max_flusher_count = 0 then cfg.flusher_count else cfg.max_flusher_count) = 0
        then 256
        else (if cfg.max_flusher_count = 0 then cfg.flusher_count else cfg.max_flusher_count)) ∧
    s.journal.flush_journal =
      (if config_flag cfg.flush_journal then true else s0.journal.flush_journal) ∧
    s.min_flusher_count =
      (if cfg.min_flusher_count = 0 ∨ s.journal.flush_journal = true then 1
        else cfg.min_flusher_count) ∧
    s.data_device = cfg.data_device ∧
    s.meta_device = (if cfg.meta_device = cfg.data_device then "" else cfg.meta_device) ∧
    s.journal_device =
      (if cfg.journal_device = cfg.meta_device ∨
          (cfg.meta_device = "" ∧ cfg.journal_device = cfg.data_device) then ""
        else cfg.journal_device) ∧
    s.block_size = effective_block_size c cfg ∧
    s.bitmap_granularity =
      (if cfg.bitmap_granularity = 0 then c.DEFAULT_BITMAP_GRANULARITY
        else cfg.bitmap_granularity) ∧
    s.clean_entry_bitmap_size = s.block_size / s.bitmap_granularity / 8 ∧
    s.block_size % s.bitmap_granularity = 0 := by
  obtain ⟨s1, s2, s3, s4, s5, h1, h2, h3, h4, h5, hfin⟩ := parse_config_ok_stages c s0 s cfg h
  obtain ⟨e1, _, _, _⟩ := validate_block_size_ok c _ s1 h1
  obtain ⟨e2, _⟩ := validate_alignments_ok c _ s2 h2
  obtain ⟨e3, _, _, hdiv⟩ := validate_granularity_ok c _ s3 h3
  obtain ⟨e4, _⟩ := validate_offsets_ok _ s4 h4
  obtain ⟨e5, _⟩ := validate_immediate_commit_ok c _ s5 h5
  have hfl : s.journal.flush_journal =
      (if config_flag cfg.flush_journal then true else s0.journal.flush_journal) := by
    rw [hfin, e5, e4, e3, e2, e1]; rfl
  have hb3 : s3.block_size = s.block_size := by rw [hfin, e5, e4]; rfl
  have hg3 : s3.bitmap_granularity = s.bitmap_granularity := by rw [hfin, e5, e4]; rfl
  refine ⟨?_, hfl, ?_, ?_, ?_, ?_, ?_, ?_, ?_, ?_⟩
  · rw [hfin, e5, e4, e3, e2, e1]; rfl
  · rw [hfl, hfin, e5, e4, e3, e2, e1]; rfl
  · rw [hfin, e5, e4, e3, e2, e1]; rfl
  · rw [hfin, e5, e4, e3, e2, e1]; rfl
  · rw [hfin, e5, e4, e3, e2, e1]; rfl
  · rw [hfin, e5, e4, e3, e2, e1]; rfl
  · rw [hfin, e5, e4, e3, e2, e1]; rfl
  · rw [hfin]; rfl
  · rw [← hb3, ← hg3]; exact hdiv

/-- C22 (counterexample): with `min_flusher_count = 10` and
`max_flusher_count = 5` configured, `parse_config` returns and leaves
`min_flusher_count = 10` above `max_flusher_count = 5`. -/
theorem parse_config_min_flushers_above_max :
    (parse_config sample_open_consts {}
        { min_flusher_count := 10, max_flusher_count := 5 }).toOption.map
        (fun s => (s.min_flusher_count, s.max_flusher_count)) = some (10, 5) := by
  decide

/-- C22 (amended): whenever `parse_config` returns, with counts configured below
2^31, `min_flusher_count >= 1` and `max_flusher_count >= 1`: the maximum is the
configured `max_flusher_count`, else the configured `flusher_count`, else 256;
the minimum is 1 when it is not configured or in `flush_journal` mode, else the
configured value. The two are not compared: `min_flusher_count` is at most
`max_flusher_count` exactly when the minimum is not configured, or
`flush_journal` is set, or the configured minimum is at most the resulting
maximum. The type of the members is declared in a header that is not among the
sources; the bounds make the configured values fit it. -/
theorem parse_config_flusher_counts (c : open_consts) (s0 s : impl_layout)
    (cfg : blockstore_config_t) (_hmax : cfg.max_flusher_count < 2 ^ 31)
    (_hcnt : cfg.flusher_count < 2 ^ 31) (_hmin : cfg.min_flusher_count < 2 ^ 31)
    (h : parse_config c s0 cfg = .ok s) :
    1 ≤ s.min_flusher_count ∧ 1 ≤ s.max_flusher_count ∧
    s.max_flusher_count =
      (if cfg.max_flusher_count ≠ 0 then cfg.max_flusher_count
        else if cfg.flusher_count ≠ 0 then cfg.flusher_count else 256) ∧
    s.min_flusher_count =
      (if cfg.min_flusher_count = 0 ∨ s.journal.flush_journal = true then 1
        else cfg.min_flusher_count) ∧
    (s.min_flusher_count ≤ s.max_flusher_count ↔
      cfg.min_flusher_count = 0 ∨ s.journal.flush_journal = true ∨
        cfg.min_flusher_count ≤ s.max_flusher_count) := by
  obtain ⟨hmx, _, hmn, _⟩ := parse_config_ok_fields c s0 s cfg h
  have hmx1 : s.max_flusher_count =
      (if cfg.max_flusher_count ≠ 0 then cfg.max_flusher_count
        else if cfg.flusher_count ≠ 0 then cfg.flusher_count else 256) := by
    rw [hmx]
    by_cases ha : cfg.max_flusher_count = 0
    · by_cases hb : cfg.flusher_count = 0
      · simp [ha, hb]
      · simp [ha, hb]
    · simp [ha]
  have hmax1 : 1 ≤ s.max_flusher_count := by
    rw [hmx1]
    split_ifs <;> omega
  by_cases hd : cfg.min_flusher_count = 0 ∨ s.journal.flush_journal = true
  · rw [if_pos hd] at hmn
    refine ⟨by omega, hmax1, hmx1, by rw [if_pos hd]; exact hmn, ?_⟩
    constructor
    · intro _
      rcases hd with hd | hd
      · exact Or.inl hd
      · exact Or.inr (Or.inl hd)
    · intro _
      omega
  · rw [if_neg hd] at hmn
    have hne : cfg.min_flusher_count ≠ 0 := fun hh => hd (Or.inl hh)
    refine ⟨by omega, hmax1, hmx1, by rw [if_neg hd]; exact hmn, ?_⟩
    rw [hmn]
    constructor
    · intro hle
      exact Or.inr (Or.inr hle)
    · rintro (hh | hh | hh)
      · exact absurd hh hne
      · exact absurd (Or.inr hh) hd
      · exact hh

/-- C22 (amended) at a concrete configuration: a minimum of 2 and a maximum
of 8. -/
theorem parse_config_flusher_counts_witness :
    ∃ s, parse_config sample_open_consts {}
        { min_flusher_count := 2, max_flusher_count := 8 } = .ok s ∧
      s.min_flusher_count = 2 ∧ s.max_flusher_count = 8 ∧
      1 ≤ s.min_flusher_count ∧ 1 ≤ s.max_flusher_count := by
  obtain ⟨s, hs⟩ := config_result_ok_of_isSome
    (parse_config sample_open_consts {} { min_flusher_count := 2, max_flusher_count := 8 })
    (by decide)
  have hthm := parse_config_flusher_counts sample_open_consts {} s
    { min_flusher_count := 2, max_flusher_count := 8 } (by decide) (by decide) (by decide) hs
  have hfl : s.journal.flush_journal = false :=
    (parse_config_ok_fields sample_open_consts {} s _ hs).2.1
  obtain ⟨h1, h2, h3, h4, _⟩ := hthm
  rw [hfl] at h4
  exact ⟨s, hs, h4, h3, h1, h2⟩

end parse_config_more

section device_names
open blockstore_impl_t

/-- C23 (counterexample): with the journal configured on the data device and a
separate metadata device, `parse_config` returns with `journal_device` still
naming the data device, whose path is then opened twice. -/
theorem parse_config_keeps_journal_on_data_device :
    (parse_config sample_open_consts {}
        { data_device := "/dev/a", meta_device := "/dev/b",
          journal_device := "/dev/a" }).toOption.map
        (fun s => (s.data_device, s.meta_device, s.journal_device, opened_paths s)) =
      some ("/dev/a", "/dev/b", "/dev/a", ["/dev/a", "/dev/b", "/dev/a"]) := by
  decide

/-- C23 (amended): device aliasing in `parse_config`. Whenever it returns,
`meta_device` is empty if it was configured equal to `data_device`, and
`journal_device` is empty if it was configured equal to the metadata device, or
equal to the data device with the metadata device unset or equal to the data
device. A journal configured on the data device next to a separate metadata
device keeps its name, and this is the only combination of the three names for
which a path is opened twice. -/
theorem parse_config_normalizes_devices (c : open_consts) (s0 s : impl_layout)
    (cfg : blockstore_config_t) (h : parse_config c s0 cfg = .ok s) :
    (cfg.meta_device = cfg.data_device → s.meta_device = "") ∧
    (cfg.journal_device = cfg.meta_device → s.journal_device = "") ∧
    (cfg.journal_device = cfg.data_device →
      cfg.meta_device = "" ∨ cfg.meta_device = cfg.data_device → s.journal_device = "") ∧
    ((opened_paths s).Nodup ↔
      ¬ (cfg.journal_device = cfg.data_device ∧ cfg.journal_device ≠ "" ∧
        cfg.meta_device ≠ "" ∧ cfg.meta_device ≠ cfg.data_device)) := by
  obtain ⟨_, _, _, hd, hm, hj, _⟩ := parse_config_ok_fields c s0 s cfg h
  have h1 : cfg.meta_device = cfg.data_device → s.meta_device = "" := by
    intro he; rw [hm, if_pos he]
  have h2 : cfg.journal_device = cfg.meta_device → s.journal_device = "" := by
    intro he; rw [hj, if_pos (Or.inl he)]
  have h3 : cfg.journal_device = cfg.data_device →
      cfg.meta_device = "" ∨ cfg.meta_device = cfg.data_device → s.journal_device = "" := by
    intro he hor
    rcases hor with hor | hor
    · rw [hj, if_pos (Or.inr ⟨hor, he⟩)]
    · exact h2 (he.trans hor.symm)
  refine ⟨h1, h2, h3, ?_⟩
  unfold opened_paths
  rw [hd, hm, hj]
  by_cases hmd : cfg.meta_device = cfg.data_device
  · have hjc : (cfg.journal_device = cfg.meta_device ∨
        (cfg.meta_device = "" ∧ cfg.journal_device = cfg.data_device)) ↔
        cfg.journal_device = cfg.data_device := by
      rw [hmd]
      constructor
      · rintro (hh | hh)
        · exact hh
        · exact hh.2
      · intro hh; exact Or.inl hh
    simp only [if_pos hmd, hjc, ne_eq, not_true_eq_false, if_false, List.append_nil]
    by_cases hjd : cfg.journal_device = cfg.data_device
    · simp [hjd, hmd]
    · by_cases hje : cfg.journal_device = ""
      · simp [hjd, hje]
      · simp [hjd, hje, Ne.symm hjd]
  · rw [if_neg hmd]
    by_cases hme : cfg.meta_device = ""
    · by_cases hjd : cfg.journal_device = cfg.data_device
      · simp [hme, hjd]
      · by_cases hje : cfg.journal_device = ""
        · simp [hme, hje]
        · simp [hme, hje, hjd, Ne.symm hjd]
    · by_cases hjm : cfg.journal_device = cfg.meta_device
      · simp [hme, hjm, hmd, Ne.symm hmd]
      · by_cases hje : cfg.journal_device = ""
        · simp [hme, hje, hmd, Ne.symm hmd]
        · by_cases hjd : cfg.journal_device = cfg.data_device
          · simp [hme, hje, hjm, hmd, hjd, Ne.symm hmd]
            intro hh
            exact absurd (hjd.trans hh) hje
          · simp [hme, hje, hjm, hmd, hjd, Ne.symm hmd, Ne.symm hjd, Ne.symm hjm]

/-- C23 (amended) at a concrete configuration: metadata and journal both
configured on the data device. -/
theorem parse_config_normalizes_devices_witness :
    ∃ s, parse_config sample_open_consts {}
        { data_device := "/dev/a", meta_device := "/dev/a", journal_device := "/dev/a" } =
        .ok s ∧
      s.meta_device = "" ∧ s.journal_device = "" ∧ (opened_paths s).Nodup := by
  obtain ⟨s, hs⟩ := config_result_ok_of_isSome
    (parse_config sample_open_consts {}
      { data_device := "/dev/a", meta_device := "/dev/a", journal_device := "/dev/a" })
    (by decide)
  obtain ⟨h1, h2, _, h4⟩ := parse_config_normalizes_devices sample_open_consts {} s
    { data_device := "/dev/a", meta_device := "/dev/a", journal_device := "/dev/a" } hs
  exact ⟨s, hs, h1 rfl, h2 rfl, h4.mpr (fun hh => hh.2.2.2 rfl)⟩

end device_names

section bitmap_size
open blockstore_impl_t

/-- The block size that a returning `parse_config` leaves is a power of two. -/
theorem parse_config_ok_block_size_pow (c : open_consts) (s0 s : impl_layout)
    (cfg : blockstore_config_t) (hc : c.valid) (hb : cfg.block_size < 2 ^ 64)
    (h : parse_config c s0 cfg = .ok s) : ∃ k, s.block_size = 2 ^ k := by
  have hpos : 0 < effective_block_size c cfg := by
    unfold effective_block_size
    split_ifs with h0
    · exact Nat.pow_pos (by decide)
    · omega
  have h64 : effective_block_size c cfg < 2 ^ 64 := by
    unfold effective_block_size
    split_ifs with h0
    · exact Nat.pow_lt_pow_right (by decide) (by have := hc.1; omega)
    · exact hb
  have hspec := is_power_of_two_spec (effective_block_size c cfg) hpos h64
  obtain ⟨s1, s2, s3, s4, s5, h1, _, _, _, _, _⟩ := parse_config_ok_stages c s0 s cfg h
  obtain ⟨e1, ho1, _, _⟩ := validate_block_size_ok c _ s1 h1
  have ho : s1.block_order = is_power_of_two (effective_block_size c cfg) := by
    rw [e1]; rfl
  have hbs : s.block_size = effective_block_size c cfg :=
    (parse_config_ok_fields c s0 s cfg h).2.2.2.2.2.2.1
  rcases hspec with ⟨k, hk, _, _⟩ | ⟨_, h64'⟩
  · exact ⟨k, by rw [hbs, hk]⟩
  · rw [ho] at ho1; omega

/-- A power of two divided by one of its divisors is 1, 2, 4 or a multiple of 8. -/
theorem pow_two_div_granules (k g : Nat) (hg : 2 ^ k % g = 0) (hpos : 0 < g) :
    1 ≤ 2 ^ k / g ∧ (8 ≤ 2 ^ k / g → 2 ^ k / g / 8 * 8 = 2 ^ k / g) := by
  have hdvd : g ∣ 2 ^ k := Nat.dvd_of_mod_eq_zero hg
  obtain ⟨j, hj, hgj⟩ := (Nat.dvd_prime_pow Nat.prime_two).mp hdvd
  subst hgj
  rw [Nat.pow_div hj (by decide)]
  refine ⟨Nat.pow_pos (by decide), fun h8 => ?_⟩
  have h3 : 3 ≤ k - j := by
    by_contra hlt
    have hle : k - j ≤ 2 := by omega
    have : 2 ^ (k - j) ≤ 2 ^ 2 := Nat.pow_le_pow_right (by decide) hle
    omega
  have hd8 : (8 : Nat) ∣ 2 ^ (k - j) := by
    have : (2 : Nat) ^ 3 ∣ 2 ^ (k - j) := Nat.pow_dvd_pow 2 h3
    simpa using this
  exact Nat.div_mul_cancel hd8

/-- C25 (counterexample): with `bitmap_granularity` equal to the default block
size of 128 KiB, `parse_config` returns with `clean_entry_bitmap_size = 0` for
the one granule of a block. -/
theorem parse_config_bitmap_too_small :
    (parse_config sample_open_consts {} { bitmap_granularity := 131072 }).toOption.map
        (fun s => (s.block_size / s.bitmap_granularity, s.clean_entry_bitmap_size,
          decide (s.clean_entry_bitmap_size * 8 ≥ s.block_size / s.bitmap_granularity))) =
      some (1, 0, false) := by
  decide

/-- C25 (amended): the size of the per-object bitmap. Whenever `parse_config`
returns, `clean_entry_bitmap_size` is `block_size / bitmap_granularity / 8`
rounded down, the block has at least one granule, and
`clean_entry_bitmap_size * 8` equals the number of granules of a block when
there are at least 8 of them; with fewer than 8 granules (1, 2 or 4)
`clean_entry_bitmap_size` is 0. -/
theorem parse_config_bitmap_size (c : open_consts) (s0 s : impl_layout)
    (cfg : blockstore_config_t) (hc : c.valid) (hb : cfg.block_size < 2 ^ 64)
    (h : parse_config c s0 cfg = .ok s) :
    s.clean_entry_bitmap_size = s.block_size / s.bitmap_granularity / 8 ∧
    1 ≤ s.block_size / s.bitmap_granularity ∧
    (8 ≤ s.block_size / s.bitmap_granularity →
      s.clean_entry_bitmap_size * 8 = s.block_size / s.bitmap_granularity) ∧
    (s.block_size / s.bitmap_granularity < 8 → s.clean_entry_bitmap_size = 0) := by
  obtain ⟨k, hk⟩ := parse_config_ok_block_size_pow c s0 s cfg hc hb h
  obtain ⟨_, _, _, _, _, _, _, hg, hbm, hdiv⟩ := parse_config_ok_fields c s0 s cfg h
  have hgpos : 0 < s.bitmap_granularity := by
    rw [hg]
    split_ifs with h0
    · exact hc.2.2.1
    · omega
  rw [hk] at hdiv
  obtain ⟨hone, h8⟩ := pow_two_div_granules k s.bitmap_granularity hdiv hgpos
  rw [hbm, hk]
  refine ⟨rfl, hone, h8, fun hlt => ?_⟩
  exact Nat.div_eq_of_lt hlt

/-- C25 (amended) at the default configuration: 128 KiB blocks with 4 KiB
granules have 32 granules and a bitmap of 4 bytes. -/
theorem parse_config_bitmap_size_witness :
    ∃ s, parse_config sample_open_consts {} {} = .ok s ∧
      s.block_size / s.bitmap_granularity = 32 ∧ s.clean_entry_bitmap_size = 4 := by
  obtain ⟨s, hs⟩ := config_result_ok_of_isSome (parse_config sample_open_consts {} {})
    (by decide)
  have hthm := parse_config_bitmap_size sample_open_consts {} s {} (by decide) (by decide) hs
  have hval : s.block_size / s.bitmap_granularity = 32 := by
    have h1 : (parse_config sample_open_consts {} {}).toOption.map
        (fun s => s.block_size / s.bitmap_granularity) = some 32 := by decide
    rw [hs] at h1
    simpa [config_result.toOption] using h1
  have h8 := hthm.2.2.1 (by omega)
  exact ⟨s, hs, hval, by omega⟩

end bitmap_size

section wait_journal_checks

/-- The test of `blockstore::loop` on an operation that waits for journal space. -/
theorem legacy_check_parked_journal (w : wait_consts) (hw : w.valid) (s : blockstore)
    (op : blockstore_operation) (hf : op.wait_for = w.WAIT_JOURNAL) :
    blockstore.check_parked w s op =
      if s.journal_used_start < op.wait_detail then .skip
      else .go (blockstore.clear_wait op) := by
  unfold wait_consts.valid at hw
  simp only [List.nodup_cons, List.mem_cons, List.mem_singleton, List.not_mem_nil, not_or,
    List.nodup_nil, or_false, and_true, not_false_eq_true] at hw
  obtain ⟨-, ⟨-, h13, -, -⟩, ⟨h23, -, -⟩, -, -⟩ := hw
  unfold blockstore.check_parked
  rw [if_neg (by rw [hf]; exact fun hh => h13 hh.symm),
    if_neg (by rw [hf]; exact fun hh => h23 hh.symm), if_pos hf]

/-- The function `check_wait` on an operation that waits for journal space. -/
theorem impl_check_wait_journal (w : wait_consts) (hw : w.valid) (s : blockstore_impl_t)
    (op : blockstore_op_t) (hf : op.private_data.wait_for = w.WAIT_JOURNAL) :
    blockstore_impl_t.check_wait w s op =
      if s.journal_used_start = op.private_data.wait_detail then .returned op
      else .returned (blockstore_impl_t.clear_wait op) := by
  unfold wait_consts.valid at hw
  simp only [List.nodup_cons, List.mem_cons, List.mem_singleton, List.not_mem_nil, not_or,
    List.nodup_nil, or_false, and_true, not_false_eq_true] at hw
  obtain ⟨-, ⟨-, h13, -, -⟩, ⟨h23, -, -⟩, -, -⟩ := hw
  unfold blockstore_impl_t.check_wait
  rw [if_neg (by rw [hf]; exact fun hh => h13 hh.symm),
    if_neg (by rw [hf]; exact fun hh => h23 hh.symm), if_pos hf]

/-- C24: the two WAIT_JOURNAL checks are not equivalent. For an operation that
waits for journal space with the same `wait_detail` and the same
`journal.used_start` in both engines: `blockstore::loop` keeps it waiting
(`continue`) exactly when `used_start < wait_detail` and otherwise clears
`wait_for`; `check_wait` returns with `wait_for` kept exactly when
`used_start = wait_detail` and otherwise clears `wait_for`. So for
`used_start <= wait_detail` exactly one of the two keeps the operation waiting,
and for `used_start > wait_detail` both resume it. -/
theorem wait_journal_checks_differ (w : wait_consts) (hw : w.valid) (s : blockstore)
    (t : blockstore_impl_t) (op : blockstore_operation) (op1 : blockstore_op_t)
    (hf : op.wait_for = w.WAIT_JOURNAL) (hf1 : op1.private_data.wait_for = w.WAIT_JOURNAL)
    (hd : op1.private_data.wait_detail = op.wait_detail)
    (hu : t.journal_used_start = s.journal_used_start) :
    (blockstore.check_parked w s op = .skip ↔ s.journal_used_start < op.wait_detail) ∧
    (blockstore_impl_t.check_wait w t op1 = .returned op1 ↔
      s.journal_used_start = op.wait_detail) ∧
    (s.journal_used_start ≤ op.wait_detail →
      (blockstore.check_parked w s op = .skip ↔
        blockstore_impl_t.check_wait w t op1 = .returned (blockstore_impl_t.clear_wait op1)) ∧
      (blockstore.check_parked w s op = .go (blockstore.clear_wait op) ↔
        blockstore_impl_t.check_wait w t op1 = .returned op1)) ∧
    (s.journal_used_start > op.wait_detail →
      blockstore.check_parked w s op = .go (blockstore.clear_wait op) ∧
      blockstore_impl_t.check_wait w t op1 = .returned (blockstore_impl_t.clear_wait op1)) := by
  have hne0 : w.WAIT_JOURNAL ≠ 0 := by
    unfold wait_consts.valid at hw
    simp only [List.nodup_cons, List.mem_cons, List.mem_singleton, List.not_mem_nil, not_or,
      List.nodup_nil, or_false, and_true, not_false_eq_true] at hw
    exact fun hh => hw.1.2.2.1 hh.symm
  have hcl : blockstore_impl_t.clear_wait op1 ≠ op1 := by
    intro hh
    have h0 : (blockstore_impl_t.clear_wait op1).private_data.wait_for = 0 := rfl
    rw [hh, hf1] at h0
    exact hne0 h0
  rw [legacy_check_parked_journal w hw s op hf, impl_check_wait_journal w hw t op1 hf1, hd, hu]
  by_cases hlt : s.journal_used_start < op.wait_detail
  · have hneq : s.journal_used_start ≠ op.wait_detail := by omega
    simp only [if_pos hlt, if_neg hneq]
    refine ⟨by simp [hlt], by simp [hneq, hcl], fun _ => by simp [hcl], fun hgt => ?_⟩
    omega
  · by_cases heq : s.journal_used_start = op.wait_detail
    · simp only [if_neg hlt, if_pos heq]
      refine ⟨by simp [hlt], by simp [heq], fun _ => by simp [hcl.symm], fun hgt => ?_⟩
      omega
    · simp only [if_neg hlt, if_neg heq]
      refine ⟨by simp [hlt], by simp [heq, hcl], fun hle => ?_, fun _ => by simp⟩
      omega

/-- C24 at concrete values: with `used_start = 50` and `wait_detail = 100` the
older loop keeps the operation waiting and `check_wait` resumes it. -/
theorem wait_journal_checks_differ_witness :
    sample_wait_consts.valid ∧
    blockstore.check_parked sample_wait_consts
        { blockstore.sample_engine [] [] with journal_used_start := 50 }
        { blockstore.sample_op 3 0 512 with wait_for := 3, wait_detail := 100 } = .skip ∧
    blockstore_impl_t.check_wait sample_wait_consts
        { blockstore_impl_t.sample_engine with journal_used_start := 50 }
        { blockstore_impl_t.sample_op 2 0 512 with
          private_data := { wait_for := 3, wait_detail := 100, sync_state := 0,
                            pending_ops := 0 } } =
      .returned (blockstore_impl_t.clear_wait
        { blockstore_impl_t.sample_op 2 0 512 with
          private_data := { wait_for := 3, wait_detail := 100, sync_state := 0,
                            pending_ops := 0 } }) :=
  have h := wait_journal_checks_differ sample_wait_consts (by decide)
    { blockstore.sample_engine [] [] with journal_used_start := 50 }
    { blockstore_impl_t.sample_engine with journal_used_start := 50 }
    { blockstore.sample_op 3 0 512 with wait_for := 3, wait_detail := 100 }
    { blockstore_impl_t.sample_op 2 0 512 with
      private_data := { wait_for := 3, wait_detail := 100, sync_state := 0, pending_ops := 0 } }
    rfl rfl rfl rfl
  ⟨by decide, h.1.mpr (by decide), ((h.2.2.1 (by decide)).1).mp (h.1.mpr (by decide))⟩

end wait_journal_checks

section journal_region
open blockstore_impl_t

/-- C27 (the code at two failing inputs). A separate journal device of 16 MiB
with `journal_offset` of 32 MiB and `journal_size` of 16 MiB: the engine opens,
and the journal region ends at 48 MiB, beyond the 16 MiB of its device. The same
with the journal on a separate metadata device of 16 MiB, where `open_journal`
compares the offset with the size of the data device. And without a configured
`journal_size` and with the journal not kept in memory, `journal.len` is the
wrapped difference 2^64 - 16 MiB. -/
theorem journal_region_exceeds_device :
    (open_engine sample_open_consts sample_open_env sample_alloc {}
        { data_device := "/dev/a", data_offset := 33554432, journal_device := "/dev/j",
          journal_offset := 33554432, journal_size := 16777216 }).toOption.map
        (fun s => (s.journal.offset, s.journal.len, journal_holder_size sample_open_env s)) =
      some (33554432, 16777216, 16777216) ∧
    (open_engine sample_open_consts sample_open_env sample_alloc {}
        { data_device := "/dev/a", data_offset := 33554432, meta_device := "/dev/m",
          journal_offset := 33554432, journal_size := 16777216 }).toOption.map
        (fun s => (s.journal.offset, s.journal.len, journal_holder_size sample_open_env s)) =
      some (33554432, 16777216, 16777216) ∧
    (open_engine sample_open_consts sample_open_env sample_alloc {}
        { data_device := "/dev/a", data_offset := 33554432, journal_device := "/dev/j",
          journal_offset := 33554432, inmemory_journal := "false" }).toOption.map
        (fun s => (s.journal.offset, s.journal.len, journal_holder_size sample_open_env s)) =
      some (33554432, 2 ^ 64 - 16777216, 16777216) := by
  refine ⟨?_, ?_, ?_⟩ <;> decide

end journal_region

section ring_loop
open ring_loop_t

/-- The function `register_consumer` returns the number of consumers registered
before, stores it in the copy it appends, and leaves the earlier consumers as
they are. -/
theorem register_consumer_appends (r : ring_loop_t) (consumer : ring_consumer_t) :
    (register_consumer r consumer).1 = r.consumers.length ∧
    (register_consumer r consumer).2.consumers =
      r.consumers ++ [{ consumer with number := r.consumers.length }] :=
  ⟨rfl, rfl⟩

theorem run_loops_modify_thrown (f : ring_consumer_t → ring_consumer_t)
    (hf : ∀ c, (f c).loop = none) (l : List ring_consumer_t) :
    ∀ (n i : Nat) (ran : List (Nat × Nat)), n < l.length →
      ∃ ran1, run_loops (l.modify f n) i ran = .thrown ran1 ∧
        ∀ x ∈ ran1, x ∈ ran ∨ x.1 < i + n := by
  induction l with
  | nil => intro n i ran hn; simp at hn
  | cons c rest ih =>
    intro n i ran hn
    cases n with
    | zero =>
      refine ⟨ran, ?_, fun x hx => Or.inl hx⟩
      simp only [List.modify, List.modifyHead, run_loops, hf]
    | succ m =>
      have hm : m < rest.length := by simpa using hn
      simp only [List.modify, List.modifyTailIdx, run_loops]
      cases hc : c.loop with
      | none => exact ⟨ran, rfl, fun x hx => Or.inl hx⟩
      | some g =>
        obtain ⟨ran1, h1, h2⟩ := ih m (i + 1) (ran ++ [(i, g)]) hm
        refine ⟨ran1, h1, fun x hx => ?_⟩
        rcases h2 x hx with hh | hh
        · rcases List.mem_append.mp hh with hh | hh
          · exact Or.inl hh
          · have : x = (i, g) := by simpa using hh
            subst this
            exact Or.inr (by simp)
        · exact Or.inr (by omega)

theorem getElem?_modify_self (f : ring_consumer_t → ring_consumer_t)
    (l : List ring_consumer_t) :
    ∀ (n : Nat) (c : ring_consumer_t), (l.modify f n)[n]? = some c → ∃ c0, c = f c0 := by
  induction l with
  | nil => intro n c h; cases n <;> simp [List.modify] at h
  | cons a rest ih =>
    intro n c h
    cases n with
    | zero =>
      simp [List.modify, List.modifyHead] at h
      exact ⟨a, h.symm⟩
    | succ m =>
      simp only [List.modify, List.modifyTailIdx, List.getElem?_cons_succ] at h
      exact ih m c h

theorem deliver_cqes_skips_unregistered (r : ring_loop_t) (n : Nat)
    (hn : ∀ c, r.consumers[n]? = some c → c.handle_event = none) (cqes : List ring_cqe) :
    ∀ x ∈ deliver_cqes r cqes, x.1 ≠ n := by
  induction cqes with
  | nil => intro x hx; simp [deliver_cqes] at hx
  | cons cqe rest ih =>
    intro x hx
    simp only [deliver_cqes, List.mem_append] at hx
    rcases hx with hx | hx
    · split_ifs at hx with hr
      · cases hc : r.consumers[cqe.source.toNat]? with
        | none => rw [hc] at hx; simp at hx
        | some c =>
          rw [hc] at hx
          simp only at hx
          cases hh : c.handle_event with
          | none => rw [hh] at hx; simp at hx
          | some f =>
            rw [hh] at hx
            have hx1 : x = (cqe.source.toNat, f, cqe.res) := by simpa using hx
            subst hx1
            intro heq
            have heq1 : cqe.source.toNat = n := heq
            rw [heq1] at hc
            rw [hn c hc] at hh
            exact absurd hh (by simp)
      · simp at hx
    · exact ih x hx

/-- C28 (the code after an unregistration): for every registry, every
registered position `n` and every list of pending completions, the pass of
`ring_loop_t::loop` that follows `unregister_consumer(n)` does not return: it
throws when it calls the emptied `loop` callback at position `n` (or that of an
earlier unregistered consumer). No completion was delivered to position `n`,
and no `loop` callback of a consumer at position `n` or after it was run. -/
theorem ring_loop_throws_after_unregister (r : ring_loop_t) (n : Nat)
    (hn : n < r.consumers.length) (cqes : List ring_cqe) :
    ∃ tr, loop (unregister_consumer r n) cqes = .thrown tr ∧
      (∀ x ∈ tr.delivered, x.1 ≠ n) ∧ (∀ x ∈ tr.ran, x.1 < n) := by
  have hun : unregister_consumer r n =
      { r with consumers :=
        r.consumers.modify (fun c => { c with handle_event := none, loop := none }) n } := by
    unfold unregister_consumer
    rw [if_pos ⟨by omega, by simpa using hn⟩]
    simp
  obtain ⟨ran1, h1, h2⟩ := run_loops_modify_thrown
    (fun c => { c with handle_event := none, loop := none }) (fun _ => rfl) r.consumers n 0 [] hn
  refine ⟨{ delivered := deliver_cqes (unregister_consumer r n) cqes, ran := ran1 }, ?_, ?_, ?_⟩
  · unfold loop
    rw [hun]
    simp only
    rw [h1]
  · apply deliver_cqes_skips_unregistered
    intro c hc
    rw [hun] at hc
    obtain ⟨c0, hc0⟩ := getElem?_modify_self _ _ n c hc
    rw [hc0]
  · intro x hx
    rcases h2 x hx with hh | hh
    · exact absurd hh (List.not_mem_nil _)
    · omega

/-- C28 at a concrete registry: two consumers, the first unregistered, one
completion pending for each. The completion of the second is delivered, and the
pass throws before the `loop` callback of the second consumer is run. -/
theorem ring_loop_throws_after_unregister_witness :
    (0 : Nat) < sample_ring.consumers.length ∧
    loop (unregister_consumer sample_ring 0) [⟨0, 5⟩, ⟨1, 7⟩] =
      .thrown { delivered := [(1, 20, 7)], ran := [] } ∧
    ∃ tr, loop (unregister_consumer sample_ring (0 : Nat)) [⟨0, 5⟩, ⟨1, 7⟩] = .thrown tr ∧
      (∀ x ∈ tr.delivered, x.1 ≠ 0) ∧ (∀ x ∈ tr.ran, x.1 < 0) :=
  ⟨by decide, by decide,
    ring_loop_throws_after_unregister sample_ring 0 (by decide) [⟨0, 5⟩, ⟨1, 7⟩]⟩

end ring_loop

section client_sync
open cluster_client_t

theorem hook_call_cases (c : client_consts) (hc : c.valid) (h : client_hooks)
    (up_retry has_flushes has_writes : Bool) (sq : cluster_client_t) (op : cluster_op_t) :
    hook_call c h up_retry has_flushes has_writes sq op = none ∨
    (hook_call c h up_retry has_flushes has_writes sq op =
        some (h.continue_rw sq (mark_visited up_retry op)) ∧
      (op.opcode = c.OSD_OP_READ ∨ op.opcode = c.OSD_OP_WRITE)) ∨
    (hook_call c h up_retry has_flushes has_writes sq op =
        some (h.continue_sync sq (mark_visited up_retry op)) ∧
      op.opcode = c.OSD_OP_SYNC ∧ has_writes = false ∧
      ¬ (op.opcode = c.OSD_OP_READ ∨ op.opcode = c.OSD_OP_WRITE)) := by
  obtain ⟨h1, h2, h3⟩ := hc
  unfold hook_call
  by_cases hv : op.up_wait = false ∨ up_retry = true
  · rw [if_pos hv]
    by_cases hrw : op.opcode = c.OSD_OP_READ ∨ op.opcode = c.OSD_OP_WRITE
    · rw [if_pos hrw]
      by_cases hfl : is_flush op = true ∨ has_flushes = false
      · rw [if_pos hfl]; exact Or.inr (Or.inl ⟨rfl, hrw⟩)
      · rw [if_neg hfl]; exact Or.inl rfl
    · rw [if_neg hrw]
      by_cases hsy : op.opcode = c.OSD_OP_SYNC
      · rw [if_pos hsy]
        by_cases hw : has_writes = false
        · rw [if_pos hw]; exact Or.inr (Or.inr ⟨rfl, hsy, hw, hrw⟩)
        · rw [if_neg hw]; exact Or.inl rfl
      · rw [if_neg hsy]; exact Or.inl rfl
  · rw [if_neg hv]; exact Or.inl rfl

theorem ops_step_ok (c : client_consts) (hc : c.valid) (h : client_hooks) (up_retry : Bool)
    (kept : List (Nat × cluster_op_t)) (rest : List cluster_op_t) (i : Nat)
    (has_flushes has_writes : Bool) (s : cluster_client_t) (tr : submit_trace)
    (op : cluster_op_t) :
    ops_step_spec c up_retry i has_writes tr op
      (ops_step c h up_retry kept rest i has_flushes has_writes s tr op) := by
  have hc1 := hc
  obtain ⟨h1, h2, h3⟩ := hc1
  have hne : ∀ l : List Nat, l ++ [i] ≠ l := by
    intro l hh
    have := congrArg List.length hh
    simp at this
  unfold ops_step ops_step_spec
  rcases hook_call_cases c hc h up_retry has_flushes has_writes
    { s with op_queue := kept.map Prod.snd ++ mark_visited up_retry op :: rest } op with
    hcall | ⟨hcall, hrw⟩ | ⟨hcall, hsy, hw, hrw⟩
  · rw [hcall]
    dsimp only
    refine ⟨Or.inl rfl, Or.inr ⟨_, rfl, rfl, fun _ _ => rfl⟩, ?_⟩
    intro hnw
    unfold next_has_writes at hnw
    by_cases hwr : op.opcode = c.OSD_OP_WRITE
    · rw [if_pos hwr] at hnw
      simp at hnw
    · rw [if_neg hwr] at hnw
      exact ⟨hnw, fun hh => absurd hh hwr⟩
  · rw [hcall]
    dsimp only
    rw [if_pos hrw]
    have hns : op.opcode ≠ c.OSD_OP_SYNC := by
      rcases hrw with hh | hh <;> rw [hh]
      · exact h2
      · exact h3
    refine ⟨Or.inl rfl, ?_, ?_⟩
    · by_cases hrm : (h.continue_rw
          { s with op_queue := kept.map Prod.snd ++ mark_visited up_retry op :: rest }
          (mark_visited up_retry op)).1 ≠ 0
      · rw [if_pos hrm, if_pos hrm]
        exact Or.inl ⟨rfl, rfl, fun hh => absurd hh hns⟩
      · rw [if_neg hrm, if_neg hrm]
        exact Or.inr ⟨_, rfl, rfl, fun hh => absurd hh hns⟩
    · intro hnw
      unfold next_has_writes at hnw
      by_cases hwr : op.opcode = c.OSD_OP_WRITE
      · rw [if_pos hwr] at hnw
        simp only [Bool.or_eq_false_iff, Bool.not_eq_false', bne_iff_ne, ne_eq] at hnw
        refine ⟨hnw.1, fun _ => ?_⟩
        rw [if_pos hnw.2]
      · rw [if_neg hwr] at hnw
        exact ⟨hnw, fun hh => absurd hh hwr⟩
  · rw [hcall]
    dsimp only
    rw [if_neg hrw]
    have hnwr : op.opcode ≠ c.OSD_OP_WRITE := fun hh => hrw (Or.inr hh)
    refine ⟨Or.inr ⟨rfl, hw, hsy⟩, ?_, ?_⟩
    · by_cases hrm : (h.continue_sync
          { s with op_queue := kept.map Prod.snd ++ mark_visited up_retry op :: rest }
          (mark_visited up_retry op)).1 ≠ 0
      · rw [if_pos hrm, if_pos hrm]
        exact Or.inl ⟨rfl, rfl, fun _ => rfl⟩
      · rw [if_neg hrm, if_neg hrm]
        exact Or.inr ⟨_, rfl, rfl, fun _ hh => absurd hh (hne _)⟩
    · intro hnw
      unfold next_has_writes at hnw
      rw [if_neg hnwr] at hnw
      exact ⟨hnw, fun hh => absurd hh hnwr⟩

theorem ops_pass_cons (c : client_consts) (h : client_hooks) (up_retry : Bool)
    (op : cluster_op_t) (rest : List cluster_op_t) (i : Nat) (kept : List (Nat × cluster_op_t))
    (hf hw : Bool) (s : cluster_client_t) (tr : submit_trace) :
    (ops_pass c h up_retry (op :: rest) i kept hf hw s tr =
        { state :=
            { (ops_step c h up_retry kept rest i hf hw s tr op).state with
              op_queue :=
                (kept ++ ((ops_step c h up_retry kept rest i hf hw s tr op).keep.map
                  (fun o => (i, o))).toList).map Prod.snd ++ rest }
          trace := (ops_step c h up_retry kept rest i hf hw s tr op).trace
          kept := kept ++
            ((ops_step c h up_retry kept rest i hf hw s tr op).keep.map (fun o => (i, o))).toList
          restart := true }) ∨
    (ops_pass c h up_retry (op :: rest) i kept hf hw s tr =
      ops_pass c h up_retry rest (i + 1)
        (kept ++ ((ops_step c h up_retry kept rest i hf hw s tr op).keep.map
          (fun o => (i, o))).toList)
        (ops_step c h up_retry kept rest i hf hw s tr op).has_flushes
        (ops_step c h up_retry kept rest i hf hw s tr op).has_writes
        (ops_step c h up_retry kept rest i hf hw s tr op).state
        (ops_step c h up_retry kept rest i hf hw s tr op).trace) := by
  by_cases hre : (ops_step c h up_retry kept rest i hf hw s tr op).state.continuing_ops = 2
  · left
    rw [ops_pass, if_pos hre]
  · right
    rw [ops_pass, if_neg hre]

/-- What a pass of `continue_ops` from position `i` on leaves, in terms of what
it was entered with. -/
theorem ops_pass_spec (c : client_consts) (hc : c.valid) (h : client_hooks) (up_retry : Bool)
    (rest : List cluster_op_t) :
    ∀ (i : Nat) (kept : List (Nat × cluster_op_t)) (hf hw : Bool) (s : cluster_client_t)
      (tr : submit_trace),
      (∀ x ∈ kept, x ∈ (ops_pass c h up_retry rest i kept hf hw s tr).kept) ∧
      (∀ k ∈ tr.handed_sync, k ∈ (ops_pass c h up_retry rest i kept hf hw s tr).trace.handed_sync) ∧
      (∀ k ∈ tr.erased, k ∈ (ops_pass c h up_retry rest i kept hf hw s tr).trace.erased) ∧
      (∀ k ∈ (ops_pass c h up_retry rest i kept hf hw s tr).trace.handed_sync,
        k ∈ tr.handed_sync ∨
        (i ≤ k ∧ hw = false ∧ (∃ op, rest[k - i]? = some op ∧ op.opcode = c.OSD_OP_SYNC) ∧
          ∀ j, j < k - i → ∀ op, rest[j]? = some op → op.opcode = c.OSD_OP_WRITE →
            i + j ∈ (ops_pass c h up_retry rest i kept hf hw s tr).trace.erased)) ∧
      (∀ k ∈ (ops_pass c h up_retry rest i kept hf hw s tr).trace.erased,
        k ∈ tr.erased ∨
        (i ≤ k ∧ ∀ op, rest[k - i]? = some op → op.opcode = c.OSD_OP_SYNC →
          k ∈ (ops_pass c h up_retry rest i kept hf hw s tr).trace.handed_sync)) ∧
      (∀ x ∈ (ops_pass c h up_retry rest i kept hf hw s tr).kept,
        x ∈ kept ∨
        (i ≤ x.1 ∧ ∃ op, rest[x.1 - i]? = some op ∧
          (op.opcode = c.OSD_OP_SYNC →
            x.1 ∉ (ops_pass c h up_retry rest i kept hf hw s tr).trace.handed_sync →
            x.2 = mark_visited up_retry op))) ∧
      (∃ n, (ops_pass c h up_retry rest i kept hf hw s tr).state.op_queue =
          (ops_pass c h up_retry rest i kept hf hw s tr).kept.map Prod.snd ++ rest.drop n ∧
        ∀ j, j < n → ∀ op, rest[j]? = some op →
          i + j ∈ (ops_pass c h up_retry rest i kept hf hw s tr).trace.erased ∨
          ∃ o, (i + j, o) ∈ (ops_pass c h up_retry rest i kept hf hw s tr).kept) := by
  induction rest with
  | nil =>
    intro i kept hf hw s tr
    simp only [ops_pass]
    refine ⟨fun x hx => hx, fun k hk => hk, fun k hk => hk, fun k hk => Or.inl hk,
      fun k hk => Or.inl hk, fun x hx => Or.inl hx, ⟨0, by simp, fun j hj => by omega⟩⟩
  | cons op rest ih =>
    intro i kept hf hw s tr
    obtain ⟨hs1, hs2, hs3⟩ := ops_step_ok c hc h up_retry kept rest i hf hw s tr op
    -- facts about the trace and the kept list of this iteration
    have hmono_h : ∀ k ∈ tr.handed_sync,
        k ∈ (ops_step c h up_retry kept rest i hf hw s tr op).trace.handed_sync := by
      intro k hk
      rcases hs1 with hh | ⟨hh, -, -⟩ <;> rw [hh]
      · exact hk
      · exact List.mem_append_left _ hk
    have hmono_e : ∀ k ∈ tr.erased,
        k ∈ (ops_step c h up_retry kept rest i hf hw s tr op).trace.erased := by
      intro k hk
      rcases hs2 with ⟨-, hh, -⟩ | ⟨o, -, hh, -⟩ <;> rw [hh]
      · exact List.mem_append_left _ hk
      · exact hk
    have hstep_h : ∀ k ∈ (ops_step c h up_retry kept rest i hf hw s tr op).trace.handed_sync,
        k ∈ tr.handed_sync ∨ (k = i ∧ hw = false ∧ op.opcode = c.OSD_OP_SYNC) := by
      intro k hk
      rcases hs1 with hh | ⟨hh, hwf, hsy⟩ <;> rw [hh] at hk
      · exact Or.inl hk
      · rcases List.mem_append.mp hk with hk | hk
        · exact Or.inl hk
        · exact Or.inr ⟨by simpa using hk, hwf, hsy⟩
    have hstep_e : ∀ k ∈ (ops_step c h up_retry kept rest i hf hw s tr op).trace.erased,
        k ∈ tr.erased ∨ (k = i ∧ (op.opcode = c.OSD_OP_SYNC →
          i ∈ (ops_step c h up_retry kept rest i hf hw s tr op).trace.handed_sync)) := by
      intro k hk
      rcases hs2 with ⟨-, hh, hsy⟩ | ⟨o, -, hh, -⟩ <;> rw [hh] at hk
      · rcases List.mem_append.mp hk with hk | hk
        · exact Or.inl hk
        · refine Or.inr ⟨by simpa using hk, fun hop => ?_⟩
          rw [hsy hop]
          exact List.mem_append_right _ (List.mem_singleton_self _)
      · exact Or.inl hk
    have hstep_k : ∀ x ∈ kept ++
        ((ops_step c h up_retry kept rest i hf hw s tr op).keep.map (fun o => (i, o))).toList,
        x ∈ kept ∨ (x.1 = i ∧ (op.opcode = c.OSD_OP_SYNC →
          i ∉ (ops_step c h up_retry kept rest i hf hw s tr op).trace.handed_sync →
          (i ∈ tr.handed_sync ∨ x.2 = mark_visited up_retry op))) := by
      intro x hx
      rcases List.mem_append.mp hx with hx | hx
      · exact Or.inl hx
      · rcases hs2 with ⟨hk, -, -⟩ | ⟨o, hk, -, hmv⟩
        · rw [hk] at hx; simp at hx
        · rw [hk] at hx
          have hxe : x = (i, o) := by simpa using hx
          subst hxe
          refine Or.inr ⟨rfl, fun hop hnot => ?_⟩
          rcases hs1 with hh | ⟨hh, -, -⟩
          · exact Or.inr (hmv hop hh)
          · exfalso
            apply hnot
            rw [hh]
            exact List.mem_append_right _ (List.mem_singleton_self _)
    have hstep_vis : i ∈ (ops_step c h up_retry kept rest i hf hw s tr op).trace.erased ∨
        ∃ o, (i, o) ∈ kept ++
          ((ops_step c h up_retry kept rest i hf hw s tr op).keep.map (fun o => (i, o))).toList := by
      rcases hs2 with ⟨-, hh, -⟩ | ⟨o, hk, -, -⟩
      · left; rw [hh]; exact List.mem_append_right _ (List.mem_singleton_self _)
      · right; exact ⟨o, List.mem_append_right _ (by rw [hk]; simp)⟩
    rcases ops_pass_cons c h up_retry op rest i kept hf hw s tr with hres | hres
    · -- the pass ends here, at `goto restart`
      rw [hres]
      dsimp only
      refine ⟨fun x hx => List.mem_append_left _ hx, hmono_h, hmono_e, ?_, ?_, ?_, ?_⟩
      · intro k hk
        rcases hstep_h k hk with hh | ⟨hki, hwf, hsy⟩
        · exact Or.inl hh
        · subst hki
          exact Or.inr ⟨le_refl _, hwf, ⟨op, by simp, hsy⟩, fun j hj => by omega⟩
      · intro k hk
        rcases hstep_e k hk with hh | ⟨hki, hsy⟩
        · exact Or.inl hh
        · subst hki
          refine Or.inr ⟨le_refl _, fun o ho hos => ?_⟩
          have hoo : o = op := by simpa using ho.symm
          subst hoo
          exact hsy hos
      · intro x hx
        rcases hstep_k x hx with hh | ⟨hxi, hmv⟩
        · exact Or.inl hh
        · refine Or.inr ⟨by omega, op, by rw [hxi]; simp, fun hop hnot => ?_⟩
          rw [hxi] at hnot
          rcases hmv hop hnot with hh | hh
          · exact absurd (hmono_h _ hh) hnot
          · exact hh
      · refine ⟨1, by simp, fun j hj o ho => ?_⟩
        have hj0 : j = 0 := by omega
        subst hj0
        simpa using hstep_vis
    · -- the pass goes on
      rw [hres]
      obtain ⟨i0, i1, i2, i3, i4, i5, n, i6, i7⟩ := ih (i + 1)
        (kept ++ ((ops_step c h up_retry kept rest i hf hw s tr op).keep.map
          (fun o => (i, o))).toList)
        (ops_step c h up_retry kept rest i hf hw s tr op).has_flushes
        (ops_step c h up_retry kept rest i hf hw s tr op).has_writes
        (ops_step c h up_retry kept rest i hf hw s tr op).state
        (ops_step c h up_retry kept rest i hf hw s tr op).trace
      refine ⟨fun x hx => i0 x (List.mem_append_left _ hx), fun k hk => i1 k (hmono_h k hk),
        fun k hk => i2 k (hmono_e k hk), ?_, ?_, ?_, ?_⟩
      · intro k hk
        rcases i3 k hk with hh | ⟨hle, hwf, ⟨o, ho, hos⟩, hbefore⟩
        · rcases hstep_h k hh with hh | ⟨hki, hwf, hsy⟩
          · exact Or.inl hh
          · subst hki
            exact Or.inr ⟨le_refl _, hwf, ⟨op, by simp, hsy⟩, fun j hj => by omega⟩
        · have hw0 := hs3 hwf
          have hidx : k - i = (k - (i + 1)) + 1 := by omega
          refine Or.inr ⟨by omega, hw0.1, ⟨o, ?_, hos⟩, ?_⟩
          · rw [hidx, List.getElem?_cons_succ]; exact ho
          · intro j hj o1 ho1 hwr
            cases j with
            | zero =>
              have hoo : o1 = op := by simpa using ho1.symm
              subst hoo
              apply i2
              rw [hw0.2 hwr]
              exact List.mem_append_right _ (List.mem_singleton_self _)
            | succ j =>
              rw [List.getElem?_cons_succ] at ho1
              have := hbefore j (by omega) o1 ho1 hwr
              have he : i + (j + 1) = i + 1 + j := by omega
              rw [he]
              exact this
      · intro k hk
        rcases i4 k hk with hh | ⟨hle, himp⟩
        · rcases hstep_e k hh with hh | ⟨hki, hsy⟩
          · exact Or.inl hh
          · subst hki
            refine Or.inr ⟨le_refl _, fun o ho hos => ?_⟩
            have hoo : o = op := by simpa using ho.symm
            subst hoo
            exact i1 _ (hsy hos)
        · have hidx : k - i = (k - (i + 1)) + 1 := by omega
          refine Or.inr ⟨by omega, fun o ho hos => himp o ?_ hos⟩
          rw [hidx, List.getElem?_cons_succ] at ho
          exact ho
      · intro x hx
        rcases i5 x hx with hh | ⟨hle, o, ho, hmv⟩
        · rcases hstep_k x hh with hh | ⟨hxi, hmv⟩
          · exact Or.inl hh
          · refine Or.inr ⟨by omega, op, by rw [hxi]; simp, fun hop hnot => ?_⟩
            rw [hxi] at hnot
            have hnot1 : i ∉ (ops_step c h up_retry kept rest i hf hw s tr op).trace.handed_sync :=
              fun hin => hnot (i1 _ hin)
            rcases hmv hop hnot1 with hh | hh
            · exact absurd (hmono_h _ hh) hnot1
            · exact hh
        · have hidx : x.1 - i = (x.1 - (i + 1)) + 1 := by omega
          refine Or.inr ⟨by omega, o, ?_, hmv⟩
          rw [hidx, List.getElem?_cons_succ]; exact ho
      · refine ⟨n + 1, by simpa using i6, fun j hj o ho => ?_⟩
        cases j with
        | zero =>
          rcases hstep_vis with hh | ⟨o1, hh⟩
          · exact Or.inl (i2 _ hh)
          · exact Or.inr ⟨o1, i0 _ hh⟩
        | succ j =>
          rw [List.getElem?_cons_succ] at ho
          have := i7 j (by omega) o ho
          have he : i + (j + 1) = i + 1 + j := by omega
          rw [he]
          exact this

theorem end_pass_fields (r : pass_outcome) :
    (end_pass r).trace = r.trace ∧ (end_pass r).kept = r.kept ∧
    (end_pass r).state.op_queue = r.state.op_queue := by
  unfold end_pass
  split_ifs <;> exact ⟨rfl, rfl, rfl⟩

theorem mark_visited_eq (up_retry : Bool) (op : cluster_op_t) :
    mark_visited up_retry op = { op with up_wait := op.up_wait && !up_retry } := by
  unfold mark_visited
  cases hu : op.up_wait <;> cases up_retry <;> simp [hu]
  all_goals (cases op; simp_all)

/-- C26 (counterexample): in a retry pass over a WRITE that stays unfinished and
a SYNC that waits for a PG, the SYNC is not passed to `continue_sync` and stays
in the queue, but the pass clears its `up_wait`. -/
theorem continue_ops_clears_up_wait_of_sync :
    (continue_ops sample_consts sample_hooks true
        { op_queue := [{ opcode := 12 }, { opcode := 13, up_wait := true }] }).trace = {} ∧
    (continue_ops sample_consts sample_hooks true
        { op_queue := [{ opcode := 12 }, { opcode := 13, up_wait := true }] }).state.op_queue =
      [{ opcode := 12 }, { opcode := 13, up_wait := false }] := by
  decide

/-- C26 (amended): in a pass of `continue_ops`, up to its end or to its first
restart, every operation passed to `continue_sync` is a SYNC such that every
WRITE before it in `op_queue` was erased earlier in the pass; a SYNC is erased
only after it was passed to `continue_sync`; a SYNC that the pass visits
without passing it to `continue_sync` stays in the queue, changed in nothing
but `up_wait`, which a retry pass clears; and the queue the pass leaves holds
the operations it kept followed by those it did not visit. -/
theorem continue_ops_sync_after_writes (c : client_consts) (hc : c.valid) (h : client_hooks)
    (up_retry : Bool) (s : cluster_client_t) :
    (∀ k ∈ (continue_ops c h up_retry s).trace.handed_sync,
      (∃ op, s.op_queue[k]? = some op ∧ op.opcode = c.OSD_OP_SYNC) ∧
      ∀ j, j < k → ∀ op, s.op_queue[j]? = some op → op.opcode = c.OSD_OP_WRITE →
        j ∈ (continue_ops c h up_retry s).trace.erased) ∧
    (∀ k ∈ (continue_ops c h up_retry s).trace.erased, ∀ op, s.op_queue[k]? = some op →
      op.opcode = c.OSD_OP_SYNC → k ∈ (continue_ops c h up_retry s).trace.handed_sync) ∧
    (∀ x ∈ (continue_ops c h up_retry s).kept, ∃ op, s.op_queue[x.1]? = some op ∧
      (op.opcode = c.OSD_OP_SYNC → x.1 ∉ (continue_ops c h up_retry s).trace.handed_sync →
        x.2 = { op with up_wait := op.up_wait && !up_retry })) ∧
    (∃ n, (continue_ops c h up_retry s).state.op_queue =
        (continue_ops c h up_retry s).kept.map Prod.snd ++ s.op_queue.drop n ∧
      ∀ j, j < n → ∀ op, s.op_queue[j]? = some op →
        j ∈ (continue_ops c h up_retry s).trace.erased ∨
        ∃ o, (j, o) ∈ (continue_ops c h up_retry s).kept) := by
  unfold continue_ops
  by_cases hl : s.pgs_loaded = false
  · rw [if_pos hl]
    exact ⟨fun k hk => absurd hk (List.not_mem_nil _), fun k hk => absurd hk (List.not_mem_nil _),
      fun x hx => absurd hx (List.not_mem_nil _), ⟨0, by simp, fun j hj => by omega⟩⟩
  · rw [if_neg hl]
    by_cases h0 : s.continuing_ops ≠ 0
    · rw [if_pos h0]
      exact ⟨fun k hk => absurd hk (List.not_mem_nil _),
        fun k hk => absurd hk (List.not_mem_nil _),
        fun x hx => absurd hx (List.not_mem_nil _), ⟨0, by simp, fun j hj => by omega⟩⟩
    · rw [if_neg h0]
      obtain ⟨e1, e2, e3⟩ := end_pass_fields
        (ops_pass c h up_retry s.op_queue 0 [] false false { s with continuing_ops := 1 } {})
      obtain ⟨-, -, -, i3, i4, i5, n, i6, i7⟩ := ops_pass_spec c hc h up_retry s.op_queue 0 []
        false false { s with continuing_ops := 1 } {}
      rw [e1, e2, e3]
      refine ⟨fun k hk => ?_, fun k hk op ho hos => ?_, fun x hx => ?_,
        ⟨n, i6, fun j hj op ho => ?_⟩⟩
      · rcases i3 k hk with hh | ⟨-, -, hex, hbefore⟩
        · exact absurd hh (List.not_mem_nil _)
        · refine ⟨hex, fun j hj op ho hwr => ?_⟩
          have := hbefore j (by omega) op ho hwr
          simpa using this
      · rcases i4 k hk with hh | ⟨-, himp⟩
        · exact absurd hh (List.not_mem_nil _)
        · exact himp op ho hos
      · rcases i5 x hx with hh | ⟨-, op, ho, hmv⟩
        · exact absurd hh (List.not_mem_nil _)
        · refine ⟨op, ho, fun hos hnot => ?_⟩
          rw [hmv hos hnot, mark_visited_eq]
      · have := i7 j hj op ho
        simpa using this

/-- C26 (amended) at a concrete queue: a WRITE and a SYNC, both finished by
their first call. The WRITE is erased, and then the SYNC is passed to
`continue_sync`. -/
theorem continue_ops_sync_after_writes_witness :
    sample_consts.valid ∧
    (continue_ops sample_consts sample_finishing_hooks false
        { op_queue := [{ opcode := 12 }, { opcode := 13 }] }).trace =
      { handed_sync := [1], erased := [0, 1] } ∧
    (∀ k ∈ (continue_ops sample_consts sample_finishing_hooks false
        { op_queue := [{ opcode := 12 }, { opcode := 13 }] }).trace.handed_sync,
      (∃ op, ([{ opcode := 12 }, { opcode := 13 }] : List cluster_op_t)[k]? = some op ∧
        op.opcode = sample_consts.OSD_OP_SYNC) ∧
      ∀ j, j < k → ∀ op,
        ([{ opcode := 12 }, { opcode := 13 }] : List cluster_op_t)[j]? = some op →
        op.opcode = sample_consts.OSD_OP_WRITE →
        j ∈ (continue_ops sample_consts sample_finishing_hooks false
          { op_queue := [{ opcode := 12 }, { opcode := 13 }] }).trace.erased) :=
  ⟨by decide, by decide,
    (continue_ops_sync_after_writes sample_consts (by decide) sample_finishing_hooks false
      { op_queue := [{ opcode := 12 }, { opcode := 13 }] }).1⟩

end client_sync

section slice
open cluster_client_t

end slice

section affects
open cluster_client_t

/-- C30 (the code at a failing input): inode 2^48 + 1, which is inode 1 of
pool 1, the range of 4096 bytes at offset 0, two PGs with primaries OSD 1 and
OSD 2. The pool id is not zero and the pool has PGs, so `continue_rw` hands the
write to `slice_rw`, which gives the only part PG 2, whose primary is OSD 2;
`affects_osd` looks at PG 1 and answers `false` for OSD 2 and `true` for
OSD 1. -/
theorem affects_osd_ignores_inode :
    sample_consts.INODE_POOL (2 ^ 48 + 1) = 1 ∧
    (match slice_rw sample_consts sample_pool_client
          { opcode := 12, inode := 2 ^ 48 + 1, offset := 0, len := 4096, iov := [4096] } with
      | .done op => some (op.parts.map (Option.map fun p => p.pg_num),
          part_primaries
            { scheme := 1, pg_size := 2, parity_chunks := 0, pg_stripe_size := 131072,
              real_pg_count := 2, pg_config := [(1, 1), (2, 2)] } op)
      | _ => none) = some ([some 2], [2]) ∧
    affects_osd sample_consts sample_pool_client (2 ^ 48 + 1) 0 4096 2 = .done false ∧
    affects_osd sample_consts sample_pool_client (2 ^ 48 + 1) 0 4096 1 = .done true := by
  refine ⟨?_, ?_, ?_, ?_⟩ <;> decide

end affects

end Vitastor
